import Mathlib

/-! libdynd: type handles, the convert factory and kernels.

A shallow embedding of `include/dynd/type.hpp` (the handle class `ndt::type`),
of `include/dynd/dtypes/convert_dtype.hpp` (the class `convert_dtype` and the
factory `make_convert_dtype`), of the metadata members of
`include/dynd/dtypes/fixedstring_dtype.hpp`, of
`include/dynd/kernels/apply_callable_kernel.hpp`, of
`include/dynd/callables/apply_function_callable.hpp` and of
`src/dynd/kernels/date_assignment_kernels.cpp`.

Representation.

* A pointer is the natural number of its address.  A handle `ndt::type` is the
  one pointer `m_ptr` it inherits from `intrusive_ptr<const base_type>`.
* The descriptors live in a `Memory`: a map from addresses to objects together
  with the allocation frontier `next`; the expression `new T(...)` stores the
  object at `next` and moves the frontier by one.
* Functions that the translated code calls but that are only declared in the
  translated headers are the fields of `Lib`; everything proved for an
  arbitrary `Lib` holds whatever those functions compute.
* A function that can throw returns `Except exception _`.
* Data pointers (`char *`) and strides are integers, and pointer arithmetic is
  that of the integers; `size_t` and `std::ptrdiff_t` are 64 bits wide.
-/

namespace dynd

/-- The enumeration `type_id_t`; a builtin handle stores such a value in its pointer. -/
abbrev type_id_t := Nat

/-- The enumeration `type_kind_t`.  The translated sources name two of its
values; the enumerators they do not name are `other_kind`. -/
inductive type_kind_t where
  | expression_kind
  | string_kind
  | other_kind (code : Nat)
deriving DecidableEq, Repr

/-- The enumeration `assign_error_mode`.  The translated sources name four of
its values; the enumerators they do not name are `assign_error_other`. -/
inductive assign_error_mode where
  | assign_error_none
  | assign_error_default
  | assign_error_fractional
  | assign_error_inexact
  | assign_error_other (code : Nat)
deriving DecidableEq, Repr

namespace ndt

/-- The class `ndt::type`: its only data member is the pointer `m_ptr`. -/
structure type where
  m_ptr : Nat
deriving DecidableEq, Repr

end ndt

/-- The exceptions thrown by the translated code. -/
inductive exception where
  | runtime_error
  | invalid_argument
  | type_error
  | too_many_indices (tp : ndt.type) (attempted actual : Int)
deriving DecidableEq, Repr

/-- A descriptor object, seen through `const base_type *`: what its member
functions return.  `get_value_type` and `get_operand_type` are the accessors of
`base_expression_dtype` (for a `convert_dtype` they return the members
`m_value_type` and `m_operand_type`); `m_errmode` is `some e` exactly when the
dynamic class of the object is `convert_dtype` and its member `m_errmode` is
`e`. -/
structure base_type where
  get_id : type_id_t
  get_kind : type_kind_t
  get_flags : Nat
  get_arrmeta_size : Nat
  get_ndim : Int
  get_strided_ndim : Int
  get_iterdata_size : Int → Nat
  get_value_type : ndt.type
  get_operand_type : ndt.type
  m_errmode : Option assign_error_mode

/-- The free store: `obj a` is the descriptor at address `a`, and `next` is the
first address that `new` has not handed out yet. -/
structure Memory where
  next : Nat
  obj : Nat → base_type

/-- The expression `new T(...)`: the constructed object `o` is stored at the
frontier, whose address is returned. -/
def Memory.new (H : Memory) (o : base_type) : ndt.type × Memory :=
  (⟨H.next⟩, ⟨H.next + 1, fun a => if a = H.next then o else H.obj a⟩)

/-- What `type.hpp` and `convert_dtype.hpp` use without defining it: the test
`is_builtin_type` of base_type.hpp, the constant `type_flag_none`, the virtual
`base_type::operator==` (given the addresses of the two objects), the members
`get_kind`, `value_type` and `storage_type` of the handle, the virtual
`base_expression_dtype::with_replaced_storage_type` (given the address of
`this`), and the part of a `convert_dtype` that its constructor passes to the
constructor of `base_expression_dtype`. -/
structure Lib where
  is_builtin_type : Nat → Bool
  type_flag_none : Nat
  descr_eq : Memory → Nat → Nat → Bool
  get_kind : Memory → ndt.type → type_kind_t
  value_type : Memory → ndt.type → ndt.type
  storage_type : Memory → ndt.type → ndt.type
  with_replaced_storage_type : Memory → Nat → ndt.type → Except exception (ndt.type × Memory)
  convert_base : Memory → ndt.type → ndt.type → assign_error_mode → base_type

namespace ndt
namespace type

/-- Member `bool is_builtin() const { return is_builtin_type(m_ptr); }`. -/
def is_builtin (L : Lib) (t : type) : Bool :=
  L.is_builtin_type t.m_ptr

/-- Member `const base_type *extended() const { return m_ptr; }`. -/
def extended (t : type) : Nat :=
  t.m_ptr

/-- Member `type::operator==`:
`m_ptr == rhs.m_ptr || (!is_builtin() && !rhs.is_builtin() && *m_ptr == *rhs.m_ptr)`. -/
def operator_eq (L : Lib) (H : Memory) (t rhs : type) : Bool :=
  t.m_ptr == rhs.m_ptr ||
    (!is_builtin L t && !is_builtin L rhs && L.descr_eq H t.m_ptr rhs.m_ptr)

/-- Member `type::operator==` with the short-circuit evaluation of `||` and `&&`
written out: the second component lists the calls of `base_type::operator==`
that the evaluation makes, each with the addresses of its two operands. -/
def operator_eq_traced (L : Lib) (H : Memory) (t rhs : type) : Bool × List (Nat × Nat) :=
  if t.m_ptr == rhs.m_ptr then (true, [])
  else if is_builtin L t then (false, [])
  else if is_builtin L rhs then (false, [])
  else (L.descr_eq H t.m_ptr rhs.m_ptr, [(t.m_ptr, rhs.m_ptr)])

/-- Member `bool operator!=(const type &rhs) const { return !(operator==(rhs)); }`. -/
def operator_ne (L : Lib) (H : Memory) (t rhs : type) : Bool :=
  !(operator_eq L H t rhs)

/-- Member `type::get_id`: the pointer itself, read as a `type_id_t`, for a builtin
handle, and `m_ptr->get_id()` otherwise. -/
def get_id (L : Lib) (H : Memory) (t : type) : type_id_t :=
  if is_builtin L t then t.m_ptr else (H.obj t.m_ptr).get_id

/-- Member `type::get_arrmeta_size`. -/
def get_arrmeta_size (L : Lib) (H : Memory) (t : type) : Nat :=
  if is_builtin L t then 0 else (H.obj t.m_ptr).get_arrmeta_size

/-- Member `type::get_flags`. -/
def get_flags (L : Lib) (H : Memory) (t : type) : Nat :=
  if is_builtin L t then L.type_flag_none else (H.obj t.m_ptr).get_flags

/-- Member `type::get_ndim`. -/
def get_ndim (L : Lib) (H : Memory) (t : type) : Int :=
  if is_builtin L t then 0 else (H.obj t.m_ptr).get_ndim

/-- Member `type::get_strided_ndim`. -/
def get_strided_ndim (L : Lib) (H : Memory) (t : type) : Int :=
  if is_builtin L t then 0 else (H.obj t.m_ptr).get_strided_ndim

/-- Member `type::get_iterdata_size`. -/
def get_iterdata_size (L : Lib) (H : Memory) (t : type) (ndim : Int) : Nat :=
  if is_builtin L t then 0 else (H.obj t.m_ptr).get_iterdata_size ndim

end type

/-- The body shared by `traits<bool1>::equivalent()`, `traits<int>::equivalent()`
and the other specialisations for the builtin types:
`type(reinterpret_cast<base_type *>(id_of<T>::value), false)`, where `id` is
`id_of<T>::value`. -/
def traits_equivalent (id : type_id_t) : type :=
  ⟨id⟩

end ndt

/-! ## The class `convert_dtype` and its factories -/

/-- Modelled from the spec: the body of the constructor
`convert_dtype(value_type, operand_type, errmode)` is in convert_dtype.cpp,
which is not among the translated files.  The class declaration gives the
members `m_value_type`, `m_operand_type`, `m_errmode` and the accessors that
return them, the header states that the kind of the type is `expression_kind`,
and the spec places no check in the constructor ("enforced by the constructing
factory, not the constructor"): the constructed object holds the three
arguments, has kind `expression_kind`, and takes the rest of its base part from
`Lib.convert_base`.  The members `m_errmode_to_value` and
`m_errmode_to_operand`, which no accessor exposes, are left out. -/
def convert_dtype.ctor (L : Lib) (H : Memory) (value_type operand_type : ndt.type)
    (errmode : assign_error_mode) : base_type :=
  { L.convert_base H value_type operand_type errmode with
    get_kind := type_kind_t.expression_kind
    get_value_type := value_type
    get_operand_type := operand_type
    m_errmode := some errmode }

/-- The factory `make_convert_dtype(value_type, operand_type, errmode)` of
convert_dtype.hpp, in the memory `H`.  The four `return` statements are the four
results below, in the order of the source.  `ndt::type(p, false)` is the handle
on `p` (the flag `false` only says that no reference is added), and the
`static_cast` to `base_expression_dtype` leaves the pointer as it is. -/
def make_convert_dtype (L : Lib) (value_type operand_type : ndt.type)
    (errmode : assign_error_mode) (H : Memory) : Except exception (ndt.type × Memory) :=
  if ndt.type.operator_ne L H (L.value_type H operand_type) value_type then
    if L.get_kind H value_type != type_kind_t.expression_kind then
      Except.ok (H.new (convert_dtype.ctor L H value_type operand_type errmode))
    else if ndt.type.operator_eq L H (L.storage_type H value_type) (L.value_type H operand_type) then
      L.with_replaced_storage_type H value_type.extended operand_type
    else
      let inner := H.new (convert_dtype.ctor L H (L.storage_type H value_type) operand_type errmode)
      L.with_replaced_storage_type inner.2 value_type.extended inner.1
  else
    Except.ok (operand_type, H)

/-- The call `make_convert_dtype(value_type, operand_type)`, which takes the
default argument `errmode = assign_error_default`. -/
def make_convert_dtype_default (L : Lib) (value_type operand_type : ndt.type)
    (H : Memory) : Except exception (ndt.type × Memory) :=
  make_convert_dtype L value_type operand_type assign_error_mode.assign_error_default H

/-- The template factory `make_convert_dtype<Tvalue, Tstorage>(errmode)`:
`ndt::type(new convert_dtype(ndt::make_dtype<Tvalue>(), ndt::make_dtype<Tstorage>(), errmode), false)`.
The handles that `ndt::make_dtype<Tvalue>()` and `ndt::make_dtype<Tstorage>()`
return are the arguments `tvalue` and `tstorage`. -/
def make_convert_dtype_tmpl (L : Lib) (tvalue tstorage : ndt.type)
    (errmode : assign_error_mode) (H : Memory) : Except exception (ndt.type × Memory) :=
  Except.ok (H.new (convert_dtype.ctor L H tvalue tstorage errmode))

/-- Accessor `convert_dtype::get_value_type`, on the object at address `p`. -/
def convert_dtype.get_value_type (H : Memory) (p : Nat) : ndt.type :=
  (H.obj p).get_value_type

/-- Accessor `convert_dtype::get_operand_type`, on the object at address `p`. -/
def convert_dtype.get_operand_type (H : Memory) (p : Nat) : ndt.type :=
  (H.obj p).get_operand_type

/-! ## The members that the translated headers only declare -/

/-- Modelled from the spec: `is_builtin_type` is defined in base_type.hpp, which
is not among the translated files.  The spec describes a builtin handle as "an
inline small integer type-id" and type.hpp says that its type id is "encoded
directly in the m_ptr pointer": a pointer is builtin when its value is below
`builtin_id_count`, the number of builtin type ids. -/
def is_builtin_type (builtin_id_count : Nat) (p : Nat) : Bool :=
  decide (p < builtin_id_count)

/-- Modelled from the spec: `type::get_kind` is not defined in the translated
files.  The kind of a builtin type is read from the table `builtin_kinds` of the
builtin types, the kind of an extended type is the one its descriptor
reports. -/
def get_kind_model (builtin_id_count : Nat) (builtin_kinds : Nat → type_kind_t)
    (H : Memory) (t : ndt.type) : type_kind_t :=
  if is_builtin_type builtin_id_count t.m_ptr then builtin_kinds t.m_ptr
  else (H.obj t.m_ptr).get_kind

/-- Modelled from the spec: an expression type ("a type wrapping an underlying
storage type with a conversion relationship to a logical value type") is an
extended type whose descriptor reports `expression_kind`. -/
def is_expression_model (builtin_id_count : Nat) (H : Memory) (t : ndt.type) : Bool :=
  !is_builtin_type builtin_id_count t.m_ptr &&
    decide ((H.obj t.m_ptr).get_kind = type_kind_t.expression_kind)

/-- Modelled from the spec: `type::value_type` is only declared in type.hpp
("Returns the non-expression type that this type looks like for the purposes of
calculation, printing, etc."): the value type of its descriptor for an
expression type, the type itself otherwise. -/
def value_type_model (builtin_id_count : Nat) (H : Memory) (t : ndt.type) : ndt.type :=
  if is_expression_model builtin_id_count H t then (H.obj t.m_ptr).get_value_type else t

/-- Modelled from the spec: the loop of `type::storage_type`, which follows the
operand types while they are expression types; `fuel` bounds the number of
steps. -/
def storage_type_loop (builtin_id_count : Nat) (H : Memory) : Nat → ndt.type → ndt.type
  | 0, t => t
  | fuel + 1, t =>
    if is_expression_model builtin_id_count H t then
      storage_type_loop builtin_id_count H fuel (H.obj t.m_ptr).get_operand_type
    else t

/-- Modelled from the spec: `type::storage_type` is only declared in type.hpp
("For expression types, returns the storage type, which is the type of the
underlying input data.  This is the bottom of the expression chain.").  In a
memory where the operand of every expression object lies at a lower address
than the object, `m_ptr + 1` steps reach the bottom. -/
def storage_type_model (builtin_id_count : Nat) (H : Memory) (t : ndt.type) : ndt.type :=
  storage_type_loop builtin_id_count H (t.m_ptr + 1) t

/-- Modelled from the spec: `base_expression_dtype::with_replaced_storage_type`
is declared in convert_dtype.hpp and defined in no translated file.  Following
"directly splice storage", the expression object at `this_ptr` is built anew
with the bottom of its operand chain replaced by `replacement_type`: when its
operand is itself an expression type the operand is rebuilt first, otherwise the
operand becomes `replacement_type`.  `fuel` bounds the depth of the recursion;
running out of it is reported as `runtime_error`. -/
def with_replaced_storage_type_loop (builtin_id_count : Nat) :
    Nat → Memory → Nat → ndt.type → Except exception (ndt.type × Memory)
  | 0, _, _, _ => Except.error exception.runtime_error
  | fuel + 1, H, this_ptr, replacement_type =>
    if is_expression_model builtin_id_count H (H.obj this_ptr).get_operand_type then
      match with_replaced_storage_type_loop builtin_id_count fuel H
          (H.obj this_ptr).get_operand_type.m_ptr replacement_type with
      | Except.error e => Except.error e
      | Except.ok r =>
        Except.ok (r.2.new { H.obj this_ptr with get_operand_type := r.1 })
    else
      Except.ok (H.new { H.obj this_ptr with get_operand_type := replacement_type })

/-- Modelled from the spec: `with_replaced_storage_type` with the recursion
depth `this_ptr + 1`, which suffices in a memory where the operand of every
expression object lies at a lower address than the object. -/
def with_replaced_storage_type_model (builtin_id_count : Nat) (H : Memory) (this_ptr : Nat)
    (replacement_type : ndt.type) : Except exception (ndt.type × Memory) :=
  with_replaced_storage_type_loop builtin_id_count (this_ptr + 1) H this_ptr replacement_type

/-- The library in which the members that the headers only declare are the
models above; `type_flag_none`, `base_type::operator==` and the base part of a
new `convert_dtype` stay those of `L`. -/
def spec_lib (builtin_id_count : Nat) (builtin_kinds : Nat → type_kind_t) (L : Lib) : Lib :=
  { L with
    is_builtin_type := is_builtin_type builtin_id_count
    get_kind := get_kind_model builtin_id_count builtin_kinds
    value_type := value_type_model builtin_id_count
    storage_type := storage_type_model builtin_id_count
    with_replaced_storage_type := with_replaced_storage_type_model builtin_id_count }

/-- The storage-type chain: `operand_chain_reaches n H t u` holds when `u` is
met on the way down from `t`, each step going from an expression type, whose
descriptor is one that `new` handed out, to the operand type of that
descriptor. -/
inductive operand_chain_reaches (builtin_id_count : Nat) (H : Memory) :
    ndt.type → ndt.type → Prop where
  | here (t : ndt.type) : operand_chain_reaches builtin_id_count H t t
  | down (t u : ndt.type) :
      is_expression_model builtin_id_count H t = true →
      t.m_ptr < H.next →
      operand_chain_reaches builtin_id_count H (H.obj t.m_ptr).get_operand_type u →
      operand_chain_reaches builtin_id_count H t u

/-- A memory is ordered when every expression object in use has its operand at
a lower address: members are constructed before the object that holds them. -/
def Memory.ordered (builtin_id_count : Nat) (H : Memory) : Prop :=
  ∀ a, a < H.next → builtin_id_count ≤ a →
    (H.obj a).get_kind = type_kind_t.expression_kind → (H.obj a).get_operand_type.m_ptr < a

/-- The memory `H2` is a later state of the memory `H1`: the frontier has not
moved back and the objects below the frontier of `H1` are unchanged. -/
def Memory.grows_to (H1 H2 : Memory) : Prop :=
  H1.next ≤ H2.next ∧ ∀ a, a < H1.next → H2.obj a = H1.obj a

/-! ## Sample data -/

/-- A table of builtin kinds: no builtin type has `expression_kind`. -/
def sample_builtin_kinds : Nat → type_kind_t :=
  fun p => type_kind_t.other_kind p

/-- A descriptor of a type that is not an expression type. -/
def sample_plain : base_type :=
  { get_id := 40, get_kind := type_kind_t.string_kind, get_flags := 4, get_arrmeta_size := 16,
    get_ndim := 1, get_strided_ndim := 1, get_iterdata_size := fun n => (2 * n).toNat,
    get_value_type := ⟨0⟩, get_operand_type := ⟨0⟩, m_errmode := none }

/-- A descriptor of an expression type with value type 7 and operand type 6. -/
def sample_expression : base_type :=
  { get_id := 41, get_kind := type_kind_t.expression_kind, get_flags := 0, get_arrmeta_size := 0,
    get_ndim := 0, get_strided_ndim := 0, get_iterdata_size := fun _ => 0,
    get_value_type := ⟨7⟩, get_operand_type := ⟨6⟩, m_errmode := none }

/-- A memory holding `sample_plain` at 32 and 34 and `sample_expression` at 33. -/
def sample_memory : Memory :=
  ⟨35, fun a => if a = 33 then sample_expression else sample_plain⟩

/-- A library in which two descriptors compare equal when they report the same
type id, and in which a new `convert_dtype` has type id 42. -/
def sample_base_lib : Lib :=
  { is_builtin_type := fun _ => false
    type_flag_none := 0
    descr_eq := fun H a b => decide ((H.obj a).get_id = (H.obj b).get_id)
    get_kind := fun _ _ => type_kind_t.other_kind 0
    value_type := fun _ t => t
    storage_type := fun _ t => t
    with_replaced_storage_type := fun _ _ _ => Except.error exception.runtime_error
    convert_base := fun _ _ operand_type _ =>
      { sample_expression with get_id := 42, get_arrmeta_size := operand_type.m_ptr } }

/-- The sample library with 32 builtin type ids and the modelled members. -/
def sample_lib : Lib :=
  spec_lib 32 sample_builtin_kinds sample_base_lib

/-! ## Virtual member functions that take arguments -/

/-- The two output parameters of `get_dynamic_array_properties` and of
`get_dynamic_array_functions`: the values of `*out_properties` (the address of
the list; `*out_functions` for the second) and of `*out_count`. -/
structure dynamic_list_out where
  out_list : Nat
  out_count : Nat
deriving DecidableEq, Repr

/-- The two in-out parameters of `at_single`: `none` when the pointer passed is
NULL, otherwise the value of `*inout_arrmeta`, respectively `*inout_data`. -/
structure indexing_inout where
  inout_arrmeta : Option Int
  inout_data : Option Int
deriving DecidableEq, Repr

/-- The virtual member functions of `base_type` that take arguments and that
the translated code calls on a descriptor, each given the memory and the
address of the descriptor.  The two list queries return the new values of their
output parameters; the two indexing members return the type or the exception
thrown, together with the final values of their in-out parameters. -/
structure Virtual where
  get_dynamic_array_properties : Memory → Nat → dynamic_list_out → dynamic_list_out
  get_dynamic_array_functions : Memory → Nat → dynamic_list_out → dynamic_list_out
  at_single : Memory → Nat → Int → indexing_inout → Except exception ndt.type × indexing_inout
  get_type_at_dimension :
    Memory → Nat → Option Int → Int → Int → Except exception ndt.type × Option Int

/-- Member `convert_dtype::get_dynamic_array_properties` of the `convert_dtype`
at `this_ptr`: the new values of the output parameters, and the addresses of
the descriptors on which the virtual member was called. -/
def convert_dtype.get_dynamic_array_properties (L : Lib) (V : Virtual) (H : Memory)
    (this_ptr : Nat) (out : dynamic_list_out) : dynamic_list_out × List Nat :=
  if !ndt.type.is_builtin L (H.obj this_ptr).get_value_type then
    (V.get_dynamic_array_properties H (H.obj this_ptr).get_value_type.extended out,
      [(H.obj this_ptr).get_value_type.extended])
  else
    (out, [])

/-- Member `convert_dtype::get_dynamic_array_functions` of the `convert_dtype`
at `this_ptr`: the new values of the output parameters, and the addresses of
the descriptors on which the virtual member was called. -/
def convert_dtype.get_dynamic_array_functions (L : Lib) (V : Virtual) (H : Memory)
    (this_ptr : Nat) (out : dynamic_list_out) : dynamic_list_out × List Nat :=
  if !ndt.type.is_builtin L (H.obj this_ptr).get_value_type then
    (V.get_dynamic_array_functions H (H.obj this_ptr).get_value_type.extended out,
      [(H.obj this_ptr).get_value_type.extended])
  else
    (out, [])

/-- Member `type::at_single(i0, inout_arrmeta, inout_data)`: the result or the
exception, and the final values of the two in-out parameters. -/
def ndt.type.at_single (L : Lib) (V : Virtual) (H : Memory) (t : ndt.type) (i0 : Int)
    (io : indexing_inout) : Except exception ndt.type × indexing_inout :=
  if !ndt.type.is_builtin L t then
    V.at_single H t.m_ptr i0 io
  else
    (Except.error (exception.too_many_indices t 1 0), io)

/-- The sum `a + b` of two `intptr_t`, 64 bits wide, in two's complement: a sum
in the range of `intptr_t`, from -2^63 to 2^63 - 1, is the sum of the integers,
and a sum outside of it, which the language leaves undefined, comes back into
the range by 2^64, as the addition of the machine does. -/
def intptr_add (a b : Int) : Int :=
  (a + b + 2 ^ 63) % 2 ^ 64 - 2 ^ 63

/-- Member `type::get_type_at_dimension(inout_arrmeta, i, total_ndim)`: the
result or the exception, and the final value of `*inout_arrmeta`.  The sum
`total_ndim + i` is a sum of two `intptr_t`. -/
def ndt.type.get_type_at_dimension (L : Lib) (V : Virtual) (H : Memory) (t : ndt.type)
    (inout_arrmeta : Option Int) (i : Int) (total_ndim : Int) :
    Except exception ndt.type × Option Int :=
  if !ndt.type.is_builtin L t then
    V.get_type_at_dimension H t.m_ptr inout_arrmeta i total_ndim
  else if i == 0 then
    (Except.ok t, inout_arrmeta)
  else
    (Except.error (exception.too_many_indices t (intptr_add total_ndim i) total_ndim),
      inout_arrmeta)

/-- The call `get_type_at_dimension(inout_arrmeta, i)`, which takes the default
argument `total_ndim = 0`. -/
def ndt.type.get_type_at_dimension_default (L : Lib) (V : Virtual) (H : Memory) (t : ndt.type)
    (inout_arrmeta : Option Int) (i : Int) : Except exception ndt.type × Option Int :=
  ndt.type.get_type_at_dimension L V H t inout_arrmeta i 0

/-! ## The class `fixedstring_dtype`: metadata -/

/-- The data members of a `fixedstring_dtype`. -/
structure fixedstring_dtype where
  m_stringsize : Int
  m_encoding : Nat
deriving DecidableEq, Repr

/-- What the four metadata members could touch: the bytes of memory (where the
metadata lies), the reference counts of the memory blocks (the embedded
reference) and the text written to each output stream. -/
structure metadata_state where
  bytes : Int → Nat
  block_use_count : Int → Nat
  stream : Nat → List Char

/-- Member `fixedstring_dtype::metadata_default_construct(metadata, ndim, shape)`:
the body is empty. -/
def fixedstring_dtype.metadata_default_construct (_this : fixedstring_dtype) (_metadata : Int)
    (_ndim : Nat) (_shape : Int) (s : metadata_state) : metadata_state :=
  s

/-- Member `fixedstring_dtype::metadata_copy_construct(dst_metadata, src_metadata,
embedded_reference)`: the body is empty. -/
def fixedstring_dtype.metadata_copy_construct (_this : fixedstring_dtype) (_dst_metadata : Int)
    (_src_metadata : Int) (_embedded_reference : Int) (s : metadata_state) : metadata_state :=
  s

/-- Member `fixedstring_dtype::metadata_destruct(metadata)`: the body is empty. -/
def fixedstring_dtype.metadata_destruct (_this : fixedstring_dtype) (_metadata : Int)
    (s : metadata_state) : metadata_state :=
  s

/-- Member `fixedstring_dtype::metadata_debug_print(metadata, o, indent)`: the
body is empty. -/
def fixedstring_dtype.metadata_debug_print (_this : fixedstring_dtype) (_metadata : Int)
    (_o : Nat) (_indent : String) (s : metadata_state) : metadata_state :=
  s

/-- A call of one of the four metadata members, with its arguments. -/
inductive metadata_call where
  | default_construct (metadata : Int) (ndim : Nat) (shape : Int)
  | copy_construct (dst_metadata src_metadata embedded_reference : Int)
  | destruct (metadata : Int)
  | debug_print (metadata : Int) (o : Nat) (indent : String)
deriving DecidableEq, Repr

/-- The effect of one call on the state. -/
def fixedstring_dtype.run_call (this : fixedstring_dtype) (s : metadata_state) :
    metadata_call → metadata_state
  | metadata_call.default_construct metadata ndim shape =>
    this.metadata_default_construct metadata ndim shape s
  | metadata_call.copy_construct dst_metadata src_metadata embedded_reference =>
    this.metadata_copy_construct dst_metadata src_metadata embedded_reference s
  | metadata_call.destruct metadata => this.metadata_destruct metadata s
  | metadata_call.debug_print metadata o indent => this.metadata_debug_print metadata o indent s

/-- The effect of a sequence of calls, made in order. -/
def fixedstring_dtype.run_calls (this : fixedstring_dtype) (s : metadata_state)
    (calls : List metadata_call) : metadata_state :=
  calls.foldl this.run_call s

/-- Sample virtual members: each answers from the descriptor it is called on. -/
def sample_virtual : Virtual :=
  { get_dynamic_array_properties := fun H p _ => ⟨p, (H.obj p).get_id⟩
    get_dynamic_array_functions := fun _ p out => ⟨p + 1, out.out_count + 1⟩
    at_single := fun H p i0 io =>
      (Except.ok (H.obj p).get_operand_type,
        ⟨io.inout_arrmeta.map (fun a => a + 8), io.inout_data.map (fun d => d + i0)⟩)
    get_type_at_dimension := fun H p inout_arrmeta i _ =>
      (Except.ok (H.obj p).get_value_type, inout_arrmeta.map (fun a => a + 8 * i)) }

/-- The sample memory with one more object: a `convert_dtype` at 35 whose value
type is the extended type at 32 and whose operand type is the builtin type 6. -/
def sample_convert_memory : Memory :=
  (sample_memory.new
    (convert_dtype.ctor sample_lib sample_memory ⟨32⟩ ⟨6⟩ assign_error_mode.assign_error_default)).2

/-! ## The kernel `apply_callable_kernel` -/

/-- The conversion `(std::ptrdiff_t)count` of a `size_t`, both 64 bits wide. -/
def to_ptrdiff (count : Nat) : Int :=
  if count % 2 ^ 64 < 2 ^ 63 then ((count % 2 ^ 64 : Nat) : Int)
  else ((count % 2 ^ 64 : Nat) : Int) - 2 ^ 64

/-- The source pointers `src_copy[j] + i * src_stride[j]`, for all `j`; the two
arrays have `sizeof...(A)` entries each. -/
def advance_src (src : List Int) (src_stride : List Int) (i : Int) : List Int :=
  List.zipWith (fun p st => p + i * st) src src_stride

/-- The `for` loop of `apply_callable_kernel::strided`, with the statement that
applies the function as the parameter `body`, which is given the values of
`i`, `dst` and `src` of the iteration.  `count` is `(std::ptrdiff_t)count`, and
`fuel` bounds the number of iterations: the result is `none` when that many
iterations do not end the loop, and when `i += DYND_THREAD_COUNT(0)` leaves the
range of `std::ptrdiff_t`. -/
def strided_loop {S : Type} (body : Int → Int → List Int → S → S) (thread_count : Nat)
    (dst_stride : Int) (src_stride : List Int) (count : Int) :
    Nat → Int → Int → List Int → S → Option S
  | 0, i, _, _, s => if i < count then none else some s
  | fuel + 1, i, dst, src, s =>
    if i < count then
      if i + thread_count < 2 ^ 63 then
        strided_loop body thread_count dst_stride src_stride count fuel (i + thread_count)
          (dst + thread_count * dst_stride) (advance_src src src_stride thread_count)
          (body i dst src s)
      else none
    else some s

/-- The member `strided(dst, dst_stride, src_copy, src_stride, count)` of
`apply_callable_kernel`, with the statement that applies the function as the
parameter `body`; `thread_id` and `thread_count` are the values of the macros
`DYND_THREAD_ID(0)` and `DYND_THREAD_COUNT(0)`.  At most `count` iterations
are needed when `thread_count` is not 0. -/
def strided_with {S : Type} (body : Int → Int → List Int → S → S) (thread_id thread_count : Nat)
    (dst : Int) (dst_stride : Int) (src_copy : List Int) (src_stride : List Int) (count : Nat)
    (s : S) : Option S :=
  strided_loop body thread_count dst_stride src_stride (to_ptrdiff count) count thread_id
    (dst + thread_id * dst_stride) (advance_src src_copy src_stride thread_id) s

/-- The kernel `apply_callable_kernel` whose function returns a value of type
`R`, over a state `S`: `func src` is
`func(apply_arg<A, I>::get(src[I])..., apply_kwd<K, J>::get()...)`, which reads
its arguments through the source pointers, and `store dst r` is the assignment
`*reinterpret_cast<R *>(dst) = r`. -/
structure apply_callable_kernel (S R : Type) where
  func : List Int → S → R × S
  store : Int → R → S → S

/-- Member `apply_callable_kernel::single(dst, src)`. -/
def apply_callable_kernel.single {S R : Type} (k : apply_callable_kernel S R) (dst : Int)
    (src : List Int) (s : S) : S :=
  k.store dst (k.func src s).1 (k.func src s).2

/-- Member `apply_callable_kernel::strided`: the loop whose body is
`*reinterpret_cast<R *>(dst) = func(...)`. -/
def apply_callable_kernel.strided {S R : Type} (k : apply_callable_kernel S R)
    (thread_id thread_count : Nat) (dst : Int) (dst_stride : Int) (src_copy : List Int)
    (src_stride : List Int) (count : Nat) (s : S) : Option S :=
  strided_with (fun _ dst src s => k.store dst (k.func src s).1 (k.func src s).2)
    thread_id thread_count dst dst_stride src_copy src_stride count s

/-- What the words "calling `single(dst + i*dst_stride, {src[j] + i*src_stride[j]})`
for `i = 0, 1, ..., count-1` in increasing order" describe. -/
def apply_callable_kernel.singles_in_order {S R : Type} (k : apply_callable_kernel S R)
    (dst : Int) (dst_stride : Int) (src : List Int) (src_stride : List Int) (count : Nat)
    (s : S) : S :=
  (List.range count).foldl
    (fun s (i : Nat) => k.single (dst + (i : Int) * dst_stride) (advance_src src src_stride i) s) s

/-- The iterations that `strided` makes: for each, the values of `i`, `dst`
and `src` when the function is applied. -/
def strided_trace (thread_id thread_count : Nat) (dst : Int) (dst_stride : Int)
    (src_copy : List Int) (src_stride : List Int) (count : Nat) :
    Option (List (Int × Int × List Int)) :=
  strided_with (fun i dst src log => log ++ [(i, dst, src)])
    thread_id thread_count dst dst_stride src_copy src_stride count []

/-- The indices that `strided` visits, in the order of the visits. -/
def strided_visits (thread_id thread_count : Nat) (dst : Int) (dst_stride : Int)
    (src_copy : List Int) (src_stride : List Int) (count : Nat) : Option (List Int) :=
  (strided_trace thread_id thread_count dst dst_stride src_copy src_stride count).map
    (fun tr => tr.map Prod.fst)

/-- A sample kernel on a memory of integers: the function adds its two
arguments, read through the source pointers. -/
def sample_kernel : apply_callable_kernel (Int → Int) Int :=
  { func := fun src m => ((src.map m).sum, m)
    store := fun dst r m => fun a => if a = dst then r else m a }

/-! ## The callable `apply_function_callable` -/

/-- The enumeration `kernel_request_t`. -/
abbrev kernel_request_t := Nat

/-- Modelled from the spec: `call_graph` is defined in no translated file.  It
is "an ordered sequence of resolved callable steps; built incrementally by
`resolve`"; a step is given by the address of its callable. -/
structure call_graph where
  steps : List Nat
deriving DecidableEq, Repr

/-- Modelled from the spec: `call_graph::emplace_back(callee)` "records an
abstract call step": the step is added at the end of the sequence. -/
def call_graph.emplace_back (cg : call_graph) (callee : Nat) : call_graph :=
  ⟨cg.steps ++ [callee]⟩

/-- A kernel frame of a `kernel_builder`: the kernel type and the arguments its
constructor is given.  `apply_function_kernel` is the frame that
`apply_function_callable::instantiate` constructs, from `kernreq`,
`args_type(src_arrmeta, kwds)` and `kwds_type(nkwd, kwds)`; `other_kernel`
stands for the frames of the other kernel types. -/
inductive kernel_frame where
  | apply_function_kernel (kernreq : kernel_request_t) (src_arrmeta : List Int) (nkwd : Int)
      (kwds : Nat)
  | other_kernel (tag : Nat)
deriving DecidableEq, Repr

/-- Modelled from the spec: `kernel_builder` is defined in no translated file.
It is "an append-only, growable buffer of heterogeneous kernel-state frames",
here the sequence of its frames in the order of construction. -/
structure kernel_builder where
  frames : List kernel_frame
deriving DecidableEq, Repr

/-- Modelled from the spec: `kernel_builder::emplace_back<KernelType>(args...)`
"appends a new frame sized for `KernelType`, constructs it in place with the
given arguments". -/
def kernel_builder.emplace_back (ckb : kernel_builder) (frame : kernel_frame) : kernel_builder :=
  ⟨ckb.frames ++ [frame]⟩

/-- The objects that `resolve` and `instantiate` can reach: the call graph `cg`
and the kernel builders, `builders p` being the one at address `p`. -/
structure dispatch_state where
  cg : call_graph
  builders : Nat → kernel_builder

/-- The map of type variables, `std::map<std::string, ndt::type>`, as the list
of its entries; `List.lookup` finds the entry of a name. -/
abbrev tp_vars_t := List (String × ndt.type)

/-- Member `apply_function_callable::resolve` of the callable at `this_ptr`:
`cg.emplace_back(this); return dst_tp;`.  The other parameters are unused. -/
def apply_function_callable.resolve (this_ptr : Nat) (_caller : Nat) (_data : Int)
    (st : dispatch_state) (dst_tp : ndt.type) (_nsrc : Nat) (_src_tp : List ndt.type)
    (_nkwd : Nat) (_kwds : Nat) (_tp_vars : tp_vars_t) : ndt.type × dispatch_state :=
  (dst_tp, { st with cg := st.cg.emplace_back this_ptr })

/-- Member `apply_function_callable::instantiate`, given the address `ckb` of
the kernel builder: one call of `ckb->emplace_back<kernel_type>(kernreq,
args_type(src_arrmeta, kwds), kwds_type(nkwd, kwds))`.  The other parameters
are unused. -/
def apply_function_callable.instantiate (_this_ptr : Nat) (_node : Nat) (_data : Int)
    (st : dispatch_state) (ckb : Nat) (_dst_tp : ndt.type) (_dst_arrmeta : Int) (_nsrc : Int)
    (_src_tp : List ndt.type) (src_arrmeta : List Int) (kernreq : kernel_request_t) (nkwd : Int)
    (kwds : Nat) (_tp_vars : tp_vars_t) : dispatch_state :=
  { st with
    builders := fun p =>
      if p = ckb then
        (st.builders ckb).emplace_back
          (kernel_frame.apply_function_kernel kernreq src_arrmeta nkwd kwds)
      else st.builders p }

/-! ## Matching a type against a pattern -/

/-- What the descriptors say about symbolic types, each member given the
memory and the address of the descriptor: `typevar_name` is the name when the
descriptor is a type variable, `is_symbolic` is the virtual
`base_type::is_symbolic`, and `match_composite` is the matching of a symbolic
pattern that is not a type variable. -/
structure Symbolic where
  typevar_name : Memory → Nat → Option String
  is_symbolic : Memory → Nat → Bool
  match_composite : Memory → Nat → ndt.type → tp_vars_t → Bool × tp_vars_t

/-- Member `bool is_symbolic() const { return !is_builtin() && m_ptr->is_symbolic(); }`. -/
def ndt.type.is_symbolic (L : Lib) (Y : Symbolic) (H : Memory) (t : ndt.type) : Bool :=
  !ndt.type.is_builtin L t && Y.is_symbolic H t.m_ptr

/-- Modelled from the spec: `type::match(candidate_tp, tp_vars)` is only
declared in type.hpp.  The pattern is `this`.  "On first encounter of a named
type variable, binds it in bindings; on subsequent encounters, requires
structural equality to the existing binding — mismatch fails the match (returns
false), it does not raise"; and "if it is concrete, the candidate type must be
equal for the match to succeed".  The result is the answer and the map after
the call. -/
def ndt.type.match_model (L : Lib) (Y : Symbolic) (H : Memory) (pattern candidate_tp : ndt.type)
    (tp_vars : tp_vars_t) : Bool × tp_vars_t :=
  if ndt.type.is_symbolic L Y H pattern then
    match Y.typevar_name H pattern.m_ptr with
    | some name =>
      match tp_vars.lookup name with
      | none => (true, tp_vars ++ [(name, candidate_tp)])
      | some bound => (ndt.type.operator_eq L H bound candidate_tp, tp_vars)
    | none => Y.match_composite H pattern.m_ptr candidate_tp tp_vars
  else
    (ndt.type.operator_eq L H pattern candidate_tp, tp_vars)

/-- Member `bool match(const type &other) const`, with the two-argument `match`
as the parameter `match_2`:
`std::map<std::string, type> tp_vars; return match(other, tp_vars);`. -/
def ndt.type.match_1 (match_2 : ndt.type → ndt.type → tp_vars_t → Bool × tp_vars_t)
    (t other : ndt.type) : Bool :=
  (match_2 t other []).1

/-- Modelled from the spec: resolving a call matches the declared parameter
types against the argument types one after the other, "accumulating one shared
bindings map across all parameters", and fails at the first parameter that does
not match or when the numbers of parameters and arguments differ. -/
def match_params (match_2 : ndt.type → ndt.type → tp_vars_t → Bool × tp_vars_t) :
    List ndt.type → List ndt.type → tp_vars_t → Bool × tp_vars_t
  | [], [], tp_vars => (true, tp_vars)
  | p :: ps, c :: cs, tp_vars =>
    if (match_2 p c tp_vars).1 then match_params match_2 ps cs (match_2 p c tp_vars).2
    else (false, (match_2 p c tp_vars).2)
  | _, _, tp_vars => (false, tp_vars)

/-- Sample symbolic descriptors: the descriptor at 34 is the type variable `T`. -/
def sample_symbolic : Symbolic :=
  { typevar_name := fun _ p => if p = 34 then some "T" else none
    is_symbolic := fun _ p => decide (p = 34)
    match_composite := fun _ _ _ tp_vars => (false, tp_vars) }

/-- A sample state: a call graph of two steps, and builders that hold one frame
each. -/
def sample_dispatch_state : dispatch_state :=
  { cg := ⟨[70, 71]⟩
    builders := fun p => ⟨[kernel_frame.other_kernel p]⟩ }

/-! ## The string and date assignment kernels -/

/-- The sum of two `size_t`, 64 bits wide. -/
def size_t_add (a b : Nat) : Nat :=
  (a + b) % 2 ^ 64

/-- The functions stored in the member `function` of a kernel frame. -/
inductive kernel_function where
  | string_to_date_single
  | date_to_string_single
deriving DecidableEq, Repr

/-- The functions stored in the member `destructor` of a kernel frame. -/
inductive kernel_destructor where
  | string_to_date_destruct
  | date_to_string_destruct
deriving DecidableEq, Repr

/-- Modelled from the spec: the struct `kernel_data_prefix` is defined in no
translated file.  It is the "fixed-size prefix (holds a function-pointer table
entry and a destructor pointer)" of a kernel frame; the translated code sets the
function (through `set_function`) and the member `destructor`, and `none` is a
pointer that has not been set. -/
structure kernel_data_prefix where
  function : Option kernel_function
  destructor : Option kernel_destructor
deriving DecidableEq, Repr

/-- The enumeration `datetime::datetime_conversion_rule_t`, of which the
translated code names two values. -/
inductive datetime_conversion_rule_t where
  | datetime_conversion_strict
  | datetime_conversion_relaxed
deriving DecidableEq, Repr

/-- The struct `string_to_date_kernel_extra`. -/
structure string_to_date_kernel_extra where
  base : kernel_data_prefix
  src_string_dt : Nat
  src_metadata : Int
  errmode : assign_error_mode
  casting : datetime_conversion_rule_t
deriving DecidableEq, Repr

/-- The struct `date_to_string_kernel_extra`. -/
structure date_to_string_kernel_extra where
  base : kernel_data_prefix
  dst_string_dt : Nat
  dst_metadata : Int
  errmode : assign_error_mode
deriving DecidableEq, Repr

/-- What lies at an offset of the buffer of a `hierarchical_kernel`. -/
inductive kernel_extra where
  | string_to_date (e : string_to_date_kernel_extra)
  | date_to_string (e : date_to_string_kernel_extra)
  | other (tag : Nat)
deriving DecidableEq, Repr

/-- Modelled from the spec: the class `hierarchical_kernel` is defined in no
translated file.  It is the growable buffer of kernel frames, in which "frame
boundaries" are recorded "as offsets": the capacity of its buffer and the frames
in it, `frame_at a` being the frame that starts at offset `a`. -/
structure hierarchical_kernel where
  capacity : Nat
  frame_at : Nat → Option kernel_extra

/-- Modelled from the spec: `hierarchical_kernel::get_at<T>(offset)` is defined
in no translated file; it gives the frame at `offset` of the buffer.  The
assignments through `e = out->get_at<T>(offset)` make the frame at `offset`
the value `frame`. -/
def hierarchical_kernel.set_at (out : hierarchical_kernel) (offset : Nat) (frame : kernel_extra) :
    hierarchical_kernel :=
  { out with frame_at := fun a => if a = offset then some frame else out.frame_at a }

/-- What date_assignment_kernels.cpp uses without defining it: the function
`make_kernreq_to_single_kernel_adapter`, which returns the new offset, the
member `hierarchical_kernel::ensure_capacity`, both of which may throw, and the
sizes of the two frame structs. -/
structure KernelLib where
  make_kernreq_to_single_kernel_adapter :
    hierarchical_kernel → Nat → kernel_request_t → Except exception (Nat × hierarchical_kernel)
  ensure_capacity : hierarchical_kernel → Nat → Except exception hierarchical_kernel
  sizeof_string_to_date_kernel_extra : Nat
  sizeof_date_to_string_kernel_extra : Nat

/-- The kernel being built and the reference counts of the descriptors,
`use_count p` being the count of the descriptor at address `p`. -/
structure kernel_world where
  out : hierarchical_kernel
  use_count : Nat → Nat

/-- Modelled from the spec: the copy constructor of the handle and
`intrusive_ptr::release` are defined in no translated file.  "Copying a
TypeHandle increments the TypeDescriptor's count", and `release()` hands the
pointer over without touching the count, so `ndt::type(tp).release()` leaves
the count of an extended type one higher; a builtin handle has no count. -/
def copy_and_release (L : Lib) (tp : ndt.type) (use_count : Nat → Nat) : Nat → Nat :=
  if ndt.type.is_builtin L tp then use_count
  else fun p => if p = tp.m_ptr then use_count p + 1 else use_count p

/-- Modelled from the spec: `base_type_xdecref` is defined in base_type.hpp,
which is not among the translated files.  Releasing a reference "decrements"
the count of the descriptor; a pointer that holds a builtin type id is left
alone. -/
def base_type_xdecref (L : Lib) (p : Nat) (use_count : Nat → Nat) : Nat → Nat :=
  if L.is_builtin_type p then use_count
  else fun q => if q = p then use_count q - 1 else use_count q

/-- The `switch (errmode)` of `make_string_to_date_assignment_kernel`. -/
def string_to_date_casting (errmode : assign_error_mode) : datetime_conversion_rule_t :=
  match errmode with
  | assign_error_mode.assign_error_fractional => datetime_conversion_rule_t.datetime_conversion_strict
  | assign_error_mode.assign_error_inexact => datetime_conversion_rule_t.datetime_conversion_strict
  | _ => datetime_conversion_rule_t.datetime_conversion_relaxed

/-- The frame that `make_string_to_date_assignment_kernel` writes. -/
def string_to_date_frame (src_string_dt : ndt.type) (src_metadata : Int)
    (errmode : assign_error_mode) : string_to_date_kernel_extra :=
  { base := { function := some kernel_function.string_to_date_single
              destructor := some kernel_destructor.string_to_date_destruct }
    src_string_dt := src_string_dt.m_ptr
    src_metadata := src_metadata
    errmode := errmode
    casting := string_to_date_casting errmode }

/-- The frame that `make_date_to_string_assignment_kernel` writes. -/
def date_to_string_frame (dst_string_dt : ndt.type) (dst_metadata : Int)
    (errmode : assign_error_mode) : date_to_string_kernel_extra :=
  { base := { function := some kernel_function.date_to_string_single
              destructor := some kernel_destructor.date_to_string_destruct }
    dst_string_dt := dst_string_dt.m_ptr
    dst_metadata := dst_metadata
    errmode := errmode }

/-- The function `make_string_to_date_assignment_kernel(out, offset_out,
src_string_dt, src_metadata, kernreq, errmode, ectx)`: the offset it returns and
the state it leaves, or the exception it throws. -/
def make_string_to_date_assignment_kernel (L : Lib) (K : KernelLib) (H : Memory)
    (w : kernel_world) (offset_out : Nat) (src_string_dt : ndt.type) (src_metadata : Int)
    (kernreq : kernel_request_t) (errmode : assign_error_mode) :
    Except exception (Nat × kernel_world) :=
  if L.get_kind H src_string_dt != type_kind_t.string_kind then
    Except.error exception.runtime_error
  else
    match K.make_kernreq_to_single_kernel_adapter w.out offset_out kernreq with
    | Except.error x => Except.error x
    | Except.ok adapted =>
      match K.ensure_capacity adapted.2
          (size_t_add adapted.1 K.sizeof_string_to_date_kernel_extra) with
      | Except.error x => Except.error x
      | Except.ok out2 =>
        Except.ok (size_t_add adapted.1 K.sizeof_string_to_date_kernel_extra,
          { out := out2.set_at adapted.1
              (kernel_extra.string_to_date (string_to_date_frame src_string_dt src_metadata errmode))
            use_count := copy_and_release L src_string_dt w.use_count })

/-- The function `make_date_to_string_assignment_kernel(out, offset_out,
dst_string_dt, dst_metadata, kernreq, errmode, ectx)`: the offset it returns and
the state it leaves, or the exception it throws. -/
def make_date_to_string_assignment_kernel (L : Lib) (K : KernelLib) (H : Memory)
    (w : kernel_world) (offset_out : Nat) (dst_string_dt : ndt.type) (dst_metadata : Int)
    (kernreq : kernel_request_t) (errmode : assign_error_mode) :
    Except exception (Nat × kernel_world) :=
  if L.get_kind H dst_string_dt != type_kind_t.string_kind then
    Except.error exception.runtime_error
  else
    match K.make_kernreq_to_single_kernel_adapter w.out offset_out kernreq with
    | Except.error x => Except.error x
    | Except.ok adapted =>
      match K.ensure_capacity adapted.2
          (size_t_add adapted.1 K.sizeof_date_to_string_kernel_extra) with
      | Except.error x => Except.error x
      | Except.ok out2 =>
        Except.ok (size_t_add adapted.1 K.sizeof_date_to_string_kernel_extra,
          { out := out2.set_at adapted.1
              (kernel_extra.date_to_string (date_to_string_frame dst_string_dt dst_metadata errmode))
            use_count := copy_and_release L dst_string_dt w.use_count })

/-- The function `string_to_date_kernel_extra::destruct(extra)`:
`base_type_xdecref(e->src_string_dt)`. -/
def string_to_date_kernel_extra.destruct (L : Lib) (e : string_to_date_kernel_extra)
    (use_count : Nat → Nat) : Nat → Nat :=
  base_type_xdecref L e.src_string_dt use_count

/-- The function `date_to_string_kernel_extra::destruct(extra)`:
`base_type_xdecref(e->dst_string_dt)`. -/
def date_to_string_kernel_extra.destruct (L : Lib) (e : date_to_string_kernel_extra)
    (use_count : Nat → Nat) : Nat → Nat :=
  base_type_xdecref L e.dst_string_dt use_count

/-- A sample of the missing kernel functions: the adapter writes a frame of 16
bytes at the offset it is given, `ensure_capacity` raises the capacity to what
is asked for, and the two frame structs take 40 and 32 bytes. -/
def sample_kernel_lib : KernelLib :=
  { make_kernreq_to_single_kernel_adapter := fun out offset kernreq =>
      Except.ok (offset + 16, out.set_at offset (kernel_extra.other kernreq))
    ensure_capacity := fun out n => Except.ok { out with capacity := max out.capacity n }
    sizeof_string_to_date_kernel_extra := 40
    sizeof_date_to_string_kernel_extra := 32 }

/-- A sample state: an empty kernel of capacity 24, and one reference to each
descriptor. -/
def sample_kernel_world : kernel_world :=
  { out := { capacity := 24, frame_at := fun _ => none }
    use_count := fun _ => 1 }

/-! ## Alignment of offsets -/

/-- The difference of two `size_t`, 64 bits wide. -/
def size_t_sub (a b : Nat) : Nat :=
  (a % 2 ^ 64 + 2 ^ 64 - b % 2 ^ 64) % 2 ^ 64

/-- The value `(std::size_t)(-(std::ptrdiff_t)alignment)`, in two's complement
arithmetic of 64 bits. -/
def size_t_neg (alignment : Nat) : Nat :=
  (2 ^ 64 - alignment % 2 ^ 64) % 2 ^ 64

/-- The function `inc_to_alignment(offset, alignment)` on `size_t`:
`(offset + alignment - 1) & (std::size_t)(-(std::ptrdiff_t)alignment)`. -/
def inc_to_alignment (offset alignment : Nat) : Nat :=
  size_t_sub (size_t_add offset alignment) 1 &&& size_t_neg alignment

/-- The function `offset_is_aligned(offset, alignment)`:
`(offset & (alignment - 1)) == 0`. -/
def offset_is_aligned (offset alignment : Nat) : Bool :=
  (offset &&& size_t_sub alignment 1) == 0

/-! ## Stripping array dimensions -/

/-- The conversion of an `intptr_t` to `size_t`, both 64 bits wide. -/
def to_size_t (x : Int) : Nat :=
  (x % 2 ^ 64).toNat

/-- Member `type::get_dtype(include_ndim, inout_arrmeta)`: the result or the
exception, the final value of `*inout_arrmeta`, and the addresses on which
`m_ptr->get_type_at_dimension` was called.  The argument `ndim - include_ndim`,
a `size_t`, is converted to the `intptr_t` parameter of the virtual member,
whose third parameter takes its default 0. -/
def ndt.type.get_dtype (L : Lib) (V : Virtual) (H : Memory) (t : ndt.type) (include_ndim : Nat)
    (inout_arrmeta : Option Int) : (Except exception ndt.type × Option Int) × List Nat :=
  if to_size_t (ndt.type.get_ndim L H t) == include_ndim then
    ((Except.ok t, inout_arrmeta), [])
  else if to_size_t (ndt.type.get_ndim L H t) > include_ndim then
    (V.get_type_at_dimension H t.m_ptr inout_arrmeta
      (to_ptrdiff (size_t_sub (to_size_t (ndt.type.get_ndim L H t)) include_ndim)) 0, [t.m_ptr])
  else
    ((Except.error exception.type_error, inout_arrmeta), [])

/-- A sample memory in which the descriptor at 32 has 3 array dimensions. -/
def sample_dim_memory : Memory :=
  ⟨35, fun a => if a = 32 then { sample_plain with get_ndim := 3 } else sample_memory.obj a⟩

/-! ## Callables and the combinators of functional.cpp -/

/-- Modelled from the spec: the class `ndt::callable_type` is defined in no
translated file.  A callable type is a "return type + positional/keyword
parameter types"; the keyword parameters are pairs of a type and a name. -/
structure callable_type where
  return_type : ndt.type
  pos_types : List ndt.type
  kwd_types : List (ndt.type × String)
deriving DecidableEq, Repr

/-- Accessor `callable_type::get_npos`: the number of positional parameters. -/
def callable_type.get_npos (tp : callable_type) : Nat :=
  tp.pos_types.length

/-- Modelled from the spec: the callable classes are defined in no translated
file.  This is the object that a `nd::callable` which is not null points to: a
callable made by `make_callable<T>(tp, ...)` for one of the four combinator
classes that functional.cpp names here has the callable type `tp` and holds the
remaining arguments; `other` is any other callable, with its flags. -/
inductive base_callable where
  | other (tp : callable_type) (flags : Nat) (tag : Nat)
  | compose_callable (tp : callable_type) (first second : base_callable) (buf_tp : ndt.type)
  | left_compound_callable (tp : callable_type) (child : base_callable)
  | right_compound_callable (tp : callable_type) (child : base_callable)
  | reduction_dispatch_callable (tp : callable_type) (child : base_callable)
deriving DecidableEq, Repr

/-- The class `nd::callable`: null, or a pointer to a callable object. -/
abbrev callable := Option base_callable

/-- What functional.cpp uses without defining it: the flag `right_associative`,
the type id `uninitialized_id`, the flags of a callable made by one of the
combinators, `ellipsis_dim_type::make_if_not_variadic`, the type constructor
`ndt::make_type<ndt::option_type>`, the type `ndt::type("Fixed * int32")` and the
type id of `bool1`.  The type constructors are functions of their arguments; the
descriptors they allocate are not tracked. -/
structure CallableLib where
  right_associative : Nat
  uninitialized_id : type_id_t
  made_flags : Nat
  make_if_not_variadic : ndt.type → ndt.type
  option_type : ndt.type → ndt.type
  fixed_int32 : ndt.type
  bool1_id : type_id_t

/-- Accessor `callable::get_type` of a callable that is not null. -/
def base_callable.get_type : base_callable → callable_type
  | base_callable.other tp _ _ => tp
  | base_callable.compose_callable tp _ _ _ => tp
  | base_callable.left_compound_callable tp _ => tp
  | base_callable.right_compound_callable tp _ => tp
  | base_callable.reduction_dispatch_callable tp _ => tp

/-- Accessor `callable::get_flags` of a callable that is not null. -/
def base_callable.get_flags (C : CallableLib) : base_callable → Nat
  | base_callable.other _ flags _ => flags
  | _ => C.made_flags

/-- Accessor `callable::get_narg`: the number of positional parameters of the
callable type. -/
def base_callable.get_narg (c : base_callable) : Nat :=
  c.get_type.get_npos

/-- Accessor `callable::get_ret_type`. -/
def base_callable.get_ret_type (c : base_callable) : ndt.type :=
  c.get_type.return_type

/-- The function `nd::functional::compose(first, second, buf_tp)`, for `first`
and `second` that are not null (their types are dereferenced). -/
def compose (L : Lib) (C : CallableLib) (H : Memory) (first second : base_callable)
    (buf_tp : ndt.type) : Except exception base_callable :=
  if first.get_type.get_npos != 1 then
    Except.error exception.runtime_error
  else if second.get_type.get_npos != 1 then
    Except.error exception.invalid_argument
  else if ndt.type.get_id L H buf_tp == C.uninitialized_id then
    Except.error exception.runtime_error
  else
    Except.ok (base_callable.compose_callable
      ⟨second.get_type.return_type, first.get_type.pos_types, []⟩ first second buf_tp)

/-- The call `pos_types.resize(1)` of `std::vector<ndt::type>`: the first
element is kept, and an empty vector receives one default-constructed
`ndt::type`, whose pointer is null. -/
def resize_1 (pos_types : List ndt.type) : List ndt.type :=
  match pos_types with
  | [] => [⟨0⟩]
  | tp :: _ => [tp]

/-- The call `pos_types.erase(pos_types.begin())` of `std::vector<ndt::type>`:
the first element is removed; on an empty vector the call is undefined
(`none`). -/
def erase_begin (pos_types : List ndt.type) : Option (List ndt.type) :=
  match pos_types with
  | [] => none
  | _ :: rest => some rest

/-- The function `nd::functional::left_compound(child)`, for a `child` that is
not null. -/
def left_compound (child : base_callable) : base_callable :=
  base_callable.left_compound_callable
    ⟨child.get_type.return_type, resize_1 child.get_type.pos_types, []⟩ child

/-- The function `nd::functional::right_compound(child)`, for a `child` that is
not null; `none` when `erase` is undefined. -/
def right_compound (child : base_callable) : Option base_callable :=
  match erase_begin child.get_type.pos_types with
  | none => none
  | some pos_types =>
    some (base_callable.right_compound_callable
      ⟨child.get_type.return_type, pos_types, []⟩ child)

/-- The argument of the recursive call of `reduction`:
`(child.get_flags() | right_associative) ? left_compound(child) : right_compound(child)`. -/
def reduction_compound (C : CallableLib) (child : base_callable) : Option base_callable :=
  if (child.get_flags C ||| C.right_associative) != 0 then some (left_compound child)
  else right_compound child

/-- The callable type that `reduction` gives to the `reduction_dispatch_callable`
of a child whose first positional type is `arg0`. -/
def reduction_type (C : CallableLib) (child : base_callable) (arg0 : ndt.type) : callable_type :=
  { return_type := C.make_if_not_variadic child.get_ret_type
    pos_types := [C.make_if_not_variadic arg0]
    kwd_types := [(C.option_type C.fixed_int32, "axes"),
      (C.option_type child.get_ret_type, "identity"),
      (C.option_type (ndt.traits_equivalent C.bool1_id), "keepdims")] }

/-- The function `nd::functional::reduction(child)`; `fuel` bounds the depth of
the recursion, and the result is `none` when the fuel is used up or
`right_compound` is undefined.  The `switch` on `child.get_narg()` is the
match on the list of positional types: one type, two types, or any other
number. -/
def reduction (C : CallableLib) : Nat → callable → Option (Except exception base_callable)
  | 0, _ => none
  | fuel + 1, child =>
    match child with
    | none => some (Except.error exception.invalid_argument)
    | some c =>
      match c.get_type.pos_types with
      | [arg0] =>
        some (Except.ok (base_callable.reduction_dispatch_callable (reduction_type C c arg0) c))
      | [_, _] =>
        match reduction_compound C c with
        | none => none
        | some compound => reduction C fuel (some compound)
      | _ => some (Except.error exception.invalid_argument)

/-- A sample of the missing constants and type constructors: the flag
`right_associative` is the bit 2. -/
def sample_callable_lib : CallableLib :=
  { right_associative := 2
    uninitialized_id := 0
    made_flags := 0
    make_if_not_variadic := fun tp => ⟨tp.m_ptr + 100⟩
    option_type := fun tp => ⟨tp.m_ptr + 200⟩
    fixed_int32 := ⟨50⟩
    bool1_id := 1 }

/-- A sample binary callable `(6, 7) -> 8` without the flag `right_associative`. -/
def sample_binary : base_callable :=
  base_callable.other ⟨⟨8⟩, [⟨6⟩, ⟨7⟩], []⟩ 0 1

/-- A sample unary callable `(6) -> 8`. -/
def sample_unary : base_callable :=
  base_callable.other ⟨⟨8⟩, [⟨6⟩], []⟩ 0 2

/-- A sample callable `() -> 8` without positional parameters. -/
def sample_nullary : base_callable :=
  base_callable.other ⟨⟨8⟩, [], []⟩ 0 3

/-- The library of `spec_lib` in which the virtual `with_replaced_storage_type`
is left as the parameter `W`. -/
def spec_lib_with (builtin_id_count : Nat) (builtin_kinds : Nat → type_kind_t) (L : Lib)
    (W : Memory → Nat → ndt.type → Except exception (ndt.type × Memory)) : Lib :=
  { spec_lib builtin_id_count builtin_kinds L with with_replaced_storage_type := W }

/-- The assumption that `with_replaced_storage_type` preserves the value type of
the type `V` it is called on: in every later state `H1` of the memory `H` and
for every replacement, the value type of the type it returns compares equal
(`type::operator==`) to the value type of `V`. -/
def preserves_value_type (builtin_id_count : Nat) (M : Lib) (H : Memory) (V : ndt.type) : Prop :=
  ∀ (H1 : Memory) (replacement_type r : ndt.type) (H2 : Memory), H.grows_to H1 →
    M.with_replaced_storage_type H1 V.extended replacement_type = Except.ok (r, H2) →
    ndt.type.operator_eq M H2 (value_type_model builtin_id_count H2 r)
      (value_type_model builtin_id_count H V) = true


/-! ## The traits of containers -/

/-- What `container_traits` uses and type.hpp only declares: the factories
`make_fixed_dim(size_t dim_size, const type &element_tp)` and
`make_var_dim(const type &element_tp)`. -/
structure DimLib where
  make_fixed_dim : Nat → ndt.type → ndt.type
  make_var_dim : ndt.type → ndt.type

/-- The body of the `for` loop of `container_traits::shape`,
`if (res[i] != next_shape[i - 1]) { res[i] = -1; }`: the value of `res[i]`
after it. -/
def shape_merge (res_i next_i : Int) : Int :=
  if res_i != next_i then -1 else res_i

/-- One pass of the `while` loop of `container_traits::shape` on the element
`v`: `next_shape` is filled by the `shape` of the value type, and the `for` loop
runs over the entries 1 to `ndim - 1` of `res`, which are the list `res`
here. -/
def shape_step {α : Type} (inner_shape : α → Option (List Int)) (res : Option (List Int))
    (v : α) : Option (List Int) :=
  match res, inner_shape v with
  | some r, some next_shape => some (List.zipWith shape_merge r next_shape)
  | _, _ => none

/-- Function `container_traits<ContainerType, NDim>::shape(res, values)`, for
`NDim` above 1: the entries of `res` after the call.  `inner_shape` is
`ndt::traits<typename ContainerType::value_type>::shape`, which fills
`NDim - 1` entries.  `res[0] = values.size()` converts a `size_t` to
`intptr_t`.  On an empty container `*iter` dereferences `values.begin()`, which
is undefined: the result is `none`. -/
def container_traits.shape {α : Type} (inner_shape : α → Option (List Int))
    (values : List α) : Option (List Int) :=
  match values with
  | [] => none
  | first :: rest =>
    match rest.foldl (shape_step inner_shape) (inner_shape first) with
    | some res_tail => some (to_ptrdiff values.length :: res_tail)
    | none => none

/-- The loop of `container_traits::equivalent`, from `i = ndim - 1` down to 0:
`tp = make_var_dim(tp)` when `shape[i] == -1`, and
`tp = make_fixed_dim(shape[i], tp)` otherwise, where `shape[i]` is converted to
the `size_t` parameter. -/
def equivalent_loop (D : DimLib) (shape : List Int) (tp : ndt.type) : ndt.type :=
  shape.foldr
    (fun s tp => if s == -1 then D.make_var_dim tp else D.make_fixed_dim (to_size_t s) tp) tp

/-- Function `container_traits<ContainerType, NDim>::equivalent(values)`, for
`NDim` above 1; `value_type` is what `value_type()` returns. -/
def container_traits.equivalent {α : Type} (D : DimLib) (inner_shape : α → Option (List Int))
    (value_type : ndt.type) (values : List α) : Option ndt.type :=
  match container_traits.shape inner_shape values with
  | none => none
  | some shape => some (equivalent_loop D shape value_type)

/-- Function `container_traits<ContainerType, 1>::shape(res, values)`:
`res[0] = values.size()`. -/
def container_traits_1.shape {α : Type} (values : List α) : List Int :=
  [to_ptrdiff values.length]

/-- Function `container_traits<ContainerType, 1>::equivalent(values)`:
`intptr_t size; shape(&size, values); return make_fixed_dim(size, value_type());`,
where the call of `shape` stores `values.size()` in `size`, which is then
converted to the `size_t` parameter. -/
def container_traits_1.equivalent {α : Type} (D : DimLib) (value_type : ndt.type)
    (values : List α) : ndt.type :=
  D.make_fixed_dim (to_size_t (to_ptrdiff values.length)) value_type

/-- The instance `container_traits<std::vector<std::vector<T>>, 2>::shape`: the
`shape` of the value type is that of `container_traits<std::vector<T>, 1>`. -/
def container_traits_2.shape {α : Type} (values : List (List α)) : Option (List Int) :=
  container_traits.shape (fun v => some (container_traits_1.shape v)) values

/-- The instance `container_traits<std::vector<std::vector<T>>, 2>::equivalent`;
`value_type()` is `traits<T>::equivalent()`. -/
def container_traits_2.equivalent {α : Type} (D : DimLib) (value_type : ndt.type)
    (values : List (List α)) : Option ndt.type :=
  container_traits.equivalent D (fun v => some (container_traits_1.shape v)) value_type values

/-- Sample dimension factories: a fixed dimension of size `n` over the type `p`
is `1000 * (n + 1) + p`, a var dimension over `p` is `500 + p`. -/
def sample_dim_lib : DimLib :=
  { make_fixed_dim := fun n tp => ⟨1000 * (n + 1) + tp.m_ptr⟩
    make_var_dim := fun tp => ⟨500 + tp.m_ptr⟩ }


/-! ## The handle: equality and layout queries -/

namespace ndt
namespace type

/-- C1: `A == B` holds exactly when the two pointers are the same or both
handles are extended and their descriptors compare equal; two builtin handles
are equal exactly when they carry the same type id; a builtin handle never
equals an extended one; the descriptor comparison is not called when either
side is builtin; `A != B` is the negation of `A == B`. -/
theorem operator_eq_characterised (L : Lib) (H : Memory) (A B : type) :
    (operator_eq L H A B = true ↔
      (A.m_ptr = B.m_ptr ∨
        (is_builtin L A = false ∧ is_builtin L B = false ∧ L.descr_eq H A.m_ptr B.m_ptr = true))) ∧
    (is_builtin L A = true → is_builtin L B = true →
      (operator_eq L H A B = true ↔ get_id L H A = get_id L H B)) ∧
    (is_builtin L A = true → is_builtin L B = false →
      operator_eq L H A B = false ∧ operator_eq L H B A = false) ∧
    (is_builtin L A = true ∨ is_builtin L B = true → (operator_eq_traced L H A B).2 = []) ∧
    (operator_eq_traced L H A B).1 = operator_eq L H A B ∧
    operator_ne L H A B = !operator_eq L H A B := by
  refine ⟨?_, ?_, ?_, ?_, ?_, rfl⟩
  · simp [operator_eq, and_assoc]
  · intro hA hB
    simp [operator_eq, get_id, hA, hB]
  · intro hA hB
    have hne : A.m_ptr ≠ B.m_ptr := by
      intro h
      simp [is_builtin, h] at hA hB
      simp [hA] at hB
    have hne2 : B.m_ptr ≠ A.m_ptr := fun h => hne h.symm
    simp [operator_eq, hA, hB, hne, hne2]
  · intro h
    unfold operator_eq_traced
    split
    · rfl
    · rcases h with h | h
      · simp [h]
      · cases hA : is_builtin L A <;> simp [h]
  · unfold operator_eq_traced operator_eq
    by_cases hp : A.m_ptr = B.m_ptr
    · simp [hp]
    · cases hA : is_builtin L A <;> cases hB : is_builtin L B <;> simp [hp]

/-- Witness of C1 on the sample memory: the builtin handles 6 and 6, and the
builtin handle 6 against the extended handle 32. -/
theorem operator_eq_characterised_witness :
    (is_builtin sample_lib ⟨6⟩ = true ∧ is_builtin sample_lib ⟨32⟩ = false) ∧
    (operator_eq sample_lib sample_memory ⟨6⟩ ⟨6⟩ = true ↔
      get_id sample_lib sample_memory ⟨6⟩ = get_id sample_lib sample_memory ⟨6⟩) ∧
    (operator_eq sample_lib sample_memory ⟨6⟩ ⟨32⟩ = false ∧
      operator_eq sample_lib sample_memory ⟨32⟩ ⟨6⟩ = false) ∧
    (operator_eq_traced sample_lib sample_memory ⟨6⟩ ⟨32⟩).2 = [] :=
  ⟨⟨by decide, by decide⟩,
    (operator_eq_characterised sample_lib sample_memory ⟨6⟩ ⟨6⟩).2.1 (by decide) (by decide),
    (operator_eq_characterised sample_lib sample_memory ⟨6⟩ ⟨32⟩).2.2.1 (by decide) (by decide),
    (operator_eq_characterised sample_lib sample_memory ⟨6⟩ ⟨32⟩).2.2.2.1 (Or.inl (by decide))⟩

/-- C2: two extended handles that hold the address of the same descriptor are
equal and have the same type id, whatever function `cmp` the comparison of
descriptors is: the comparison is not called. -/
theorem same_descriptor_equal (L : Lib) (cmp : Memory → Nat → Nat → Bool) (H : Memory)
    (A B : type) (hA : is_builtin L A = false) (hB : is_builtin L B = false)
    (hsame : A.m_ptr = B.m_ptr) :
    operator_eq { L with descr_eq := cmp } H A B = true ∧
    get_id { L with descr_eq := cmp } H A = get_id { L with descr_eq := cmp } H B ∧
    operator_eq_traced { L with descr_eq := cmp } H A B = (true, []) := by
  have hA2 : is_builtin { L with descr_eq := cmp } A = false := hA
  have hB2 : is_builtin { L with descr_eq := cmp } B = false := hB
  refine ⟨?_, ?_, ?_⟩
  · simp [operator_eq, hsame]
  · simp [get_id, hA2, hB2, hsame]
  · simp [operator_eq_traced, hsame]

/-- Witness of C2: two handles on the descriptor at 33, with a comparison of
descriptors that always answers no. -/
theorem same_descriptor_equal_witness :
    (is_builtin sample_lib ⟨33⟩ = false ∧ (⟨33⟩ : type).m_ptr = (⟨33⟩ : type).m_ptr) ∧
    operator_eq { sample_lib with descr_eq := fun _ _ _ => false } sample_memory ⟨33⟩ ⟨33⟩ = true ∧
    get_id { sample_lib with descr_eq := fun _ _ _ => false } sample_memory ⟨33⟩ =
      get_id { sample_lib with descr_eq := fun _ _ _ => false } sample_memory ⟨33⟩ ∧
    operator_eq_traced { sample_lib with descr_eq := fun _ _ _ => false } sample_memory ⟨33⟩ ⟨33⟩ =
      (true, []) :=
  ⟨⟨by decide, rfl⟩,
    same_descriptor_equal sample_lib (fun _ _ _ => false) sample_memory ⟨33⟩ ⟨33⟩
      (by decide) (by decide) rfl⟩

/-- C3: for a builtin type id `T` (one below `builtin_id_count`), the handle
that `traits<...>::equivalent()` builds by storing `T` in the pointer is builtin,
has type id `T` and has arrmeta size 0. -/
theorem builtin_handle_of_id (builtin_id_count : Nat) (builtin_kinds : Nat → type_kind_t)
    (L : Lib) (H : Memory) (T : type_id_t) (hT : T < builtin_id_count) :
    is_builtin (spec_lib builtin_id_count builtin_kinds L) (traits_equivalent T) = true ∧
    get_id (spec_lib builtin_id_count builtin_kinds L) H (traits_equivalent T) = T ∧
    get_arrmeta_size (spec_lib builtin_id_count builtin_kinds L) H (traits_equivalent T) = 0 := by
  have hb : is_builtin (spec_lib builtin_id_count builtin_kinds L) (traits_equivalent T) = true := by
    simp [is_builtin, spec_lib, traits_equivalent, is_builtin_type, hT]
  refine ⟨hb, ?_, ?_⟩
  · rw [get_id, if_pos hb]
    rfl
  · rw [get_arrmeta_size, if_pos hb]

/-- Witness of C3: the type id 6 among 32 builtin type ids. -/
theorem builtin_handle_of_id_witness :
    6 < 32 ∧
    is_builtin sample_lib (traits_equivalent 6) = true ∧
    get_id sample_lib sample_memory (traits_equivalent 6) = 6 ∧
    get_arrmeta_size sample_lib sample_memory (traits_equivalent 6) = 0 :=
  ⟨by decide, builtin_handle_of_id 32 sample_builtin_kinds _ sample_memory 6 (by decide)⟩

/-- C4: on a builtin handle the layout queries return constants (0 for the
arrmeta size, the two dimension counts and the iterdata size, `type_flag_none`
for the flags); on an extended handle each returns what the descriptor's member
of the same name returns. -/
theorem layout_queries (L : Lib) (H : Memory) (t : type) :
    (is_builtin L t = true →
      get_arrmeta_size L H t = 0 ∧ get_ndim L H t = 0 ∧ get_strided_ndim L H t = 0 ∧
      (∀ n : Int, get_iterdata_size L H t n = 0) ∧ get_flags L H t = L.type_flag_none) ∧
    (is_builtin L t = false →
      get_arrmeta_size L H t = (H.obj t.m_ptr).get_arrmeta_size ∧
      get_ndim L H t = (H.obj t.m_ptr).get_ndim ∧
      get_strided_ndim L H t = (H.obj t.m_ptr).get_strided_ndim ∧
      (∀ n : Int, get_iterdata_size L H t n = (H.obj t.m_ptr).get_iterdata_size n) ∧
      get_flags L H t = (H.obj t.m_ptr).get_flags) := by
  constructor
  · intro hb
    simp [get_arrmeta_size, get_ndim, get_strided_ndim, get_iterdata_size, get_flags, hb]
  · intro hb
    simp [get_arrmeta_size, get_ndim, get_strided_ndim, get_iterdata_size, get_flags, hb]

/-- Witness of C4: the builtin handle 6 and the extended handle 32 of the
sample memory. -/
theorem layout_queries_witness :
    (is_builtin sample_lib ⟨6⟩ = true ∧ is_builtin sample_lib ⟨32⟩ = false) ∧
    (get_arrmeta_size sample_lib sample_memory ⟨6⟩ = 0 ∧ get_ndim sample_lib sample_memory ⟨6⟩ = 0 ∧
      get_strided_ndim sample_lib sample_memory ⟨6⟩ = 0 ∧
      (∀ n : Int, get_iterdata_size sample_lib sample_memory ⟨6⟩ n = 0) ∧
      get_flags sample_lib sample_memory ⟨6⟩ = sample_lib.type_flag_none) ∧
    (get_arrmeta_size sample_lib sample_memory ⟨32⟩ = 16 ∧
      get_ndim sample_lib sample_memory ⟨32⟩ = 1 ∧
      get_strided_ndim sample_lib sample_memory ⟨32⟩ = 1 ∧
      (∀ n : Int, get_iterdata_size sample_lib sample_memory ⟨32⟩ n = (2 * n).toNat) ∧
      get_flags sample_lib sample_memory ⟨32⟩ = 4) :=
  ⟨⟨by decide, by decide⟩,
    (layout_queries sample_lib sample_memory ⟨6⟩).1 (by decide),
    (layout_queries sample_lib sample_memory ⟨32⟩).2 (by decide)⟩

end type
end ndt

/-! ## The factory `make_convert_dtype` -/

/-- C5: when the value type of the operand type `O` equals `V`, the factory
returns `O` itself and leaves the memory as it was: no `convert_dtype` is
constructed. -/
theorem make_convert_dtype_same_value (L : Lib) (V O : ndt.type) (errmode : assign_error_mode)
    (H : Memory) (hsame : ndt.type.operator_eq L H (L.value_type H O) V = true) :
    make_convert_dtype L V O errmode H = Except.ok (O, H) := by
  simp [make_convert_dtype, ndt.type.operator_ne, hsame]

/-- Witness of C5: value type and operand type are both the builtin type 6. -/
theorem make_convert_dtype_same_value_witness :
    ndt.type.operator_eq sample_lib sample_memory (sample_lib.value_type sample_memory ⟨6⟩) ⟨6⟩ = true ∧
    make_convert_dtype sample_lib ⟨6⟩ ⟨6⟩ assign_error_mode.assign_error_none sample_memory =
      Except.ok (⟨6⟩, sample_memory) :=
  ⟨by decide,
    make_convert_dtype_same_value sample_lib ⟨6⟩ ⟨6⟩ assign_error_mode.assign_error_none
      sample_memory (by decide)⟩

/-- C6, as stated, fails: with value type and operand type both the builtin
type 6 the value type of the operand equals the value type asked for, and the
factory returns the operand type instead of raising; the template factory, for
the same two types, returns a newly constructed `convert_dtype`. -/
theorem make_convert_dtype_raises_refuted :
    ndt.type.operator_eq sample_lib sample_memory (sample_lib.value_type sample_memory ⟨6⟩) ⟨6⟩ = true ∧
    make_convert_dtype sample_lib ⟨6⟩ ⟨6⟩ assign_error_mode.assign_error_default sample_memory =
      Except.ok (⟨6⟩, sample_memory) ∧
    (¬ ∃ x, make_convert_dtype sample_lib ⟨6⟩ ⟨6⟩ assign_error_mode.assign_error_default
      sample_memory = Except.error x) ∧
    make_convert_dtype_tmpl sample_lib ⟨6⟩ ⟨6⟩ assign_error_mode.assign_error_default
      sample_memory =
      Except.ok (sample_memory.new (convert_dtype.ctor sample_lib sample_memory ⟨6⟩ ⟨6⟩
        assign_error_mode.assign_error_default)) := by
  have h : make_convert_dtype sample_lib ⟨6⟩ ⟨6⟩ assign_error_mode.assign_error_default
      sample_memory = Except.ok (⟨6⟩, sample_memory) := rfl
  refine ⟨by decide, h, ?_, rfl⟩
  rintro ⟨x, hx⟩
  rw [h] at hx
  cases hx

/-- C6, amended: when the value type of the operand type `O` equals `V` the
factory raises nothing and produces the type `O`; the template factory makes no
comparison and constructs a `convert_dtype` whose value type and operand type
are both `T` when `Tvalue` and `Tstorage` are the same type `T`. -/
theorem make_convert_dtype_same_value_no_raise (L : Lib) (V O : ndt.type)
    (errmode : assign_error_mode) (H : Memory)
    (hsame : ndt.type.operator_eq L H (L.value_type H O) V = true) :
    (∀ x, make_convert_dtype L V O errmode H ≠ Except.error x) ∧
    (∃ r, make_convert_dtype L V O errmode H = Except.ok r ∧ r.1 = O) ∧
    (∀ T : ndt.type, ∃ r, make_convert_dtype_tmpl L T T errmode H = Except.ok r ∧
      r.1.m_ptr = H.next ∧
      convert_dtype.get_value_type r.2 r.1.m_ptr = T ∧
      convert_dtype.get_operand_type r.2 r.1.m_ptr = T) := by
  have h : make_convert_dtype L V O errmode H = Except.ok (O, H) := by
    simp [make_convert_dtype, ndt.type.operator_ne, hsame]
  refine ⟨?_, ⟨(O, H), h, rfl⟩, ?_⟩
  · intro x hx
    rw [h] at hx
    cases hx
  · intro T
    refine ⟨_, rfl, rfl, ?_, ?_⟩ <;>
      simp [convert_dtype.get_value_type, convert_dtype.get_operand_type, Memory.new,
        convert_dtype.ctor]

/-- Witness of amended C6: value type and operand type are both the builtin
type 6. -/
theorem make_convert_dtype_same_value_no_raise_witness :
    ndt.type.operator_eq sample_lib sample_memory (sample_lib.value_type sample_memory ⟨6⟩) ⟨6⟩ = true ∧
    (∀ x, make_convert_dtype sample_lib ⟨6⟩ ⟨6⟩ assign_error_mode.assign_error_default
      sample_memory ≠ Except.error x) :=
  ⟨by decide,
    (make_convert_dtype_same_value_no_raise sample_lib ⟨6⟩ ⟨6⟩
      assign_error_mode.assign_error_default sample_memory (by decide)).1⟩

/-- C8: when `V` has `expression_kind`, the value type of `O` differs from `V`
and the storage type of `V` differs from the value type of `O`, the factory
constructs one `convert_dtype` (value type the storage type of `V`, operand type
`O`, error mode `errmode`) at the frontier of the memory, leaves the other
objects untouched, and returns what `with_replaced_storage_type` returns on the
descriptor of `V` with that new type as the replacement. -/
theorem make_convert_dtype_nested (L : Lib) (V O : ndt.type) (errmode : assign_error_mode)
    (H : Memory) (hkind : L.get_kind H V = type_kind_t.expression_kind)
    (hne : ndt.type.operator_ne L H (L.value_type H O) V = true)
    (hst : ndt.type.operator_eq L H (L.storage_type H V) (L.value_type H O) = false) :
    ∃ c H1,
      make_convert_dtype L V O errmode H = L.with_replaced_storage_type H1 V.extended c ∧
      c.m_ptr = H.next ∧ H1.next = H.next + 1 ∧ (∀ a, a ≠ H.next → H1.obj a = H.obj a) ∧
      (H1.obj c.m_ptr).get_kind = type_kind_t.expression_kind ∧
      convert_dtype.get_value_type H1 c.m_ptr = L.storage_type H V ∧
      convert_dtype.get_operand_type H1 c.m_ptr = O ∧
      (H1.obj c.m_ptr).m_errmode = some errmode := by
  refine ⟨(H.new (convert_dtype.ctor L H (L.storage_type H V) O errmode)).1,
    (H.new (convert_dtype.ctor L H (L.storage_type H V) O errmode)).2, ?_, rfl, rfl, ?_, ?_, ?_, ?_, ?_⟩
  · simp [make_convert_dtype, hne, hkind, hst]
  · intro a ha
    simp [Memory.new, ha]
  all_goals
    simp [convert_dtype.get_value_type, convert_dtype.get_operand_type, Memory.new,
      convert_dtype.ctor]

/-- Witness of C8: `V` is the expression type at 33, whose storage type is the
builtin type 6, and `O` is the builtin type 5. -/
theorem make_convert_dtype_nested_witness :
    (sample_lib.get_kind sample_memory ⟨33⟩ = type_kind_t.expression_kind ∧
      ndt.type.operator_ne sample_lib sample_memory (sample_lib.value_type sample_memory ⟨5⟩) ⟨33⟩
        = true ∧
      ndt.type.operator_eq sample_lib sample_memory (sample_lib.storage_type sample_memory ⟨33⟩)
        (sample_lib.value_type sample_memory ⟨5⟩) = false) ∧
    ∃ c H1,
      make_convert_dtype sample_lib ⟨33⟩ ⟨5⟩ assign_error_mode.assign_error_none sample_memory =
        sample_lib.with_replaced_storage_type H1 (ndt.type.extended ⟨33⟩) c ∧
      c.m_ptr = sample_memory.next ∧ H1.next = sample_memory.next + 1 ∧
      (∀ a, a ≠ sample_memory.next → H1.obj a = sample_memory.obj a) ∧
      (H1.obj c.m_ptr).get_kind = type_kind_t.expression_kind ∧
      convert_dtype.get_value_type H1 c.m_ptr = sample_lib.storage_type sample_memory ⟨33⟩ ∧
      convert_dtype.get_operand_type H1 c.m_ptr = ⟨5⟩ ∧
      (H1.obj c.m_ptr).m_errmode = some assign_error_mode.assign_error_none :=
  ⟨⟨by decide, by decide, by decide⟩,
    make_convert_dtype_nested sample_lib ⟨33⟩ ⟨5⟩ assign_error_mode.assign_error_none
      sample_memory (by decide) (by decide) (by decide)⟩

/-- C9: when the kind of `V` is not `expression_kind` and the value type of `O`
differs from `V`, the factory returns a handle on a `convert_dtype` constructed
at the frontier of the memory, whose `get_value_type()` is `V`, whose
`get_operand_type()` is `O` and whose error mode is the one given; the other
objects are untouched.  Without an error mode the call is the one with
`assign_error_default`. -/
theorem make_convert_dtype_plain (L : Lib) (V O : ndt.type) (errmode : assign_error_mode)
    (H : Memory) (hkind : L.get_kind H V ≠ type_kind_t.expression_kind)
    (hne : ndt.type.operator_ne L H (L.value_type H O) V = true) :
    (∃ r H1,
      make_convert_dtype L V O errmode H = Except.ok (r, H1) ∧
      r.m_ptr = H.next ∧ H1.next = H.next + 1 ∧ (∀ a, a ≠ H.next → H1.obj a = H.obj a) ∧
      convert_dtype.get_value_type H1 r.extended = V ∧
      convert_dtype.get_operand_type H1 r.extended = O ∧
      (H1.obj r.extended).m_errmode = some errmode) ∧
    (∃ r H1,
      make_convert_dtype_default L V O H = Except.ok (r, H1) ∧
      r.m_ptr = H.next ∧
      convert_dtype.get_value_type H1 r.extended = V ∧
      convert_dtype.get_operand_type H1 r.extended = O ∧
      (H1.obj r.extended).m_errmode = some assign_error_mode.assign_error_default) := by
  constructor
  · refine ⟨(H.new (convert_dtype.ctor L H V O errmode)).1,
      (H.new (convert_dtype.ctor L H V O errmode)).2, ?_, rfl, rfl, ?_, ?_, ?_, ?_⟩
    · simp [make_convert_dtype, hne, hkind]
    · intro a ha
      simp [Memory.new, ha]
    all_goals
      simp [convert_dtype.get_value_type, convert_dtype.get_operand_type, Memory.new,
        convert_dtype.ctor, ndt.type.extended]
  · refine ⟨(H.new (convert_dtype.ctor L H V O assign_error_mode.assign_error_default)).1,
      (H.new (convert_dtype.ctor L H V O assign_error_mode.assign_error_default)).2,
      ?_, rfl, ?_, ?_, ?_⟩
    · simp [make_convert_dtype_default, make_convert_dtype, hne, hkind]
    all_goals
      simp [convert_dtype.get_value_type, convert_dtype.get_operand_type, Memory.new,
        convert_dtype.ctor, ndt.type.extended]

/-- Witness of C9: `V` is the builtin type 7 and `O` the builtin type 6. -/
theorem make_convert_dtype_plain_witness :
    (sample_lib.get_kind sample_memory ⟨7⟩ ≠ type_kind_t.expression_kind ∧
      ndt.type.operator_ne sample_lib sample_memory (sample_lib.value_type sample_memory ⟨6⟩) ⟨7⟩
        = true) ∧
    ∃ r H1,
      make_convert_dtype sample_lib ⟨7⟩ ⟨6⟩ assign_error_mode.assign_error_none sample_memory =
        Except.ok (r, H1) ∧
      r.m_ptr = sample_memory.next ∧ H1.next = sample_memory.next + 1 ∧
      (∀ a, a ≠ sample_memory.next → H1.obj a = sample_memory.obj a) ∧
      convert_dtype.get_value_type H1 r.extended = ⟨7⟩ ∧
      convert_dtype.get_operand_type H1 r.extended = ⟨6⟩ ∧
      (H1.obj r.extended).m_errmode = some assign_error_mode.assign_error_none :=
  ⟨⟨by decide, by decide⟩,
    (make_convert_dtype_plain sample_lib ⟨7⟩ ⟨6⟩ assign_error_mode.assign_error_none
      sample_memory (by decide) (by decide)).1⟩

/-! ## The storage-type chain of the result -/

theorem is_expression_model_iff (bc : Nat) (H : Memory) (t : ndt.type) :
    is_expression_model bc H t = true ↔
      bc ≤ t.m_ptr ∧ (H.obj t.m_ptr).get_kind = type_kind_t.expression_kind := by
  simp [is_expression_model, is_builtin_type]

theorem Memory.grows_to_trans {H1 H2 H3 : Memory} (h12 : H1.grows_to H2) (h23 : H2.grows_to H3) :
    H1.grows_to H3 := by
  refine ⟨le_trans h12.1 h23.1, ?_⟩
  intro a ha
  rw [h23.2 a (lt_of_lt_of_le ha h12.1), h12.2 a ha]

theorem Memory.grows_to_new (H : Memory) (o : base_type) : H.grows_to (H.new o).2 := by
  refine ⟨by simp [Memory.new], ?_⟩
  intro a ha
  have hne : a ≠ H.next := Nat.ne_of_lt ha
  simp [Memory.new, hne]

theorem Memory.ordered_new (bc : Nat) (H : Memory) (o : base_type) (hord : H.ordered bc)
    (ho : o.get_operand_type.m_ptr < H.next) : (H.new o).2.ordered bc := by
  intro a ha hbc hk
  by_cases h : a = H.next
  · subst h
    simpa [Memory.new] using ho
  · have ha2 : a < H.next := by
      simp only [Memory.new] at ha
      omega
    simp only [Memory.new, if_neg h] at hk ⊢
    exact hord a ha2 hbc hk

theorem operand_chain_reaches_mono (bc : Nat) {H H2 : Memory} {t u : ndt.type}
    (h : operand_chain_reaches bc H t u) (hg : H.grows_to H2) :
    operand_chain_reaches bc H2 t u := by
  induction h with
  | here t => exact operand_chain_reaches.here t
  | down t u hexp hlt _ ih =>
    have hobj : H2.obj t.m_ptr = H.obj t.m_ptr := hg.2 _ hlt
    refine operand_chain_reaches.down t u ?_ (lt_of_lt_of_le hlt hg.1) ?_
    · rw [is_expression_model_iff] at hexp ⊢
      rw [hobj]
      exact hexp
    · rw [hobj]
      exact ih

theorem operand_chain_reaches_trans (bc : Nat) {H : Memory} {t u v : ndt.type}
    (h1 : operand_chain_reaches bc H t u) (h2 : operand_chain_reaches bc H u v) :
    operand_chain_reaches bc H t v := by
  induction h1 with
  | here t => exact h2
  | down t u hexp hlt _ ih => exact operand_chain_reaches.down t v hexp hlt (ih h2)

/-- One step of the chain from a freshly constructed expression object. -/
theorem operand_chain_reaches_new (bc : Nat) (H : Memory) (o : base_type)
    (hfront : bc ≤ H.next) (hk : o.get_kind = type_kind_t.expression_kind) :
    operand_chain_reaches bc (H.new o).2 (H.new o).1 o.get_operand_type := by
  have hobj : (H.new o).2.obj (H.new o).1.m_ptr = o := by simp [Memory.new]
  refine operand_chain_reaches.down _ _ ?_ (by simp [Memory.new]) ?_
  · rw [is_expression_model_iff, hobj]
    exact ⟨hfront, hk⟩
  · rw [hobj]
    exact operand_chain_reaches.here _

/-- In an ordered memory the model of `with_replaced_storage_type` returns, and
the chain of the type it returns reaches the replacement. -/
theorem with_replaced_storage_type_loop_ok (bc : Nat) (H : Memory) (R : ndt.type)
    (hfront : bc ≤ H.next) (hord : H.ordered bc) (hR : R.m_ptr < H.next) :
    ∀ (fuel this_ptr : Nat), this_ptr < fuel → bc ≤ this_ptr → this_ptr < H.next →
      (H.obj this_ptr).get_kind = type_kind_t.expression_kind →
      ∃ r H2, with_replaced_storage_type_loop bc fuel H this_ptr R = Except.ok (r, H2) ∧
        H.grows_to H2 ∧ r.m_ptr < H2.next ∧ H2.ordered bc ∧
        operand_chain_reaches bc H2 r R := by
  intro fuel
  induction fuel with
  | zero =>
    intro this_ptr h
    omega
  | succ n ih =>
    intro this_ptr hlt hbc hnext hk
    unfold with_replaced_storage_type_loop
    by_cases hexp : is_expression_model bc H (H.obj this_ptr).get_operand_type = true
    · rw [if_pos hexp]
      obtain ⟨hb2, hk2⟩ := (is_expression_model_iff bc H _).1 hexp
      have hlt2 := hord this_ptr hnext hbc hk
      obtain ⟨r1, H1, heq, hg, hr1, hord1, hreach⟩ :=
        ih (H.obj this_ptr).get_operand_type.m_ptr (by omega) hb2 (by omega) hk2
      rw [heq]
      refine ⟨_, _, rfl, ?_, ?_, ?_, ?_⟩
      · exact Memory.grows_to_trans hg (Memory.grows_to_new H1 _)
      · simp [Memory.new]
      · exact Memory.ordered_new bc H1 _ hord1 hr1
      · have hstep := operand_chain_reaches_new bc H1
          { H.obj this_ptr with get_operand_type := r1 } (le_trans hfront hg.1) hk
        exact operand_chain_reaches_trans bc hstep
          (operand_chain_reaches_mono bc hreach (Memory.grows_to_new H1 _))
    · rw [if_neg hexp]
      refine ⟨_, _, rfl, Memory.grows_to_new H _, by simp [Memory.new], ?_, ?_⟩
      · exact Memory.ordered_new bc H _ hord hR
      · exact operand_chain_reaches_new bc H
          { H.obj this_ptr with get_operand_type := R } hfront hk

/-- In an ordered memory the loop of `storage_type` gives the same type for
every number of steps above the address of the handle it starts from. -/
theorem storage_type_loop_fuel (bc : Nat) (H : Memory) (hord : H.ordered bc) :
    ∀ (n : Nat) (t : ndt.type) (f1 f2 : Nat), t.m_ptr < n → t.m_ptr < H.next →
      t.m_ptr < f1 → t.m_ptr < f2 →
      storage_type_loop bc H f1 t = storage_type_loop bc H f2 t := by
  intro n
  induction n with
  | zero =>
    intro t f1 f2 h
    omega
  | succ n ih =>
    intro t f1 f2 hn hnext h1 h2
    obtain ⟨a, rfl⟩ : ∃ a, f1 = a + 1 := ⟨f1 - 1, by omega⟩
    obtain ⟨b, rfl⟩ : ∃ b, f2 = b + 1 := ⟨f2 - 1, by omega⟩
    unfold storage_type_loop
    by_cases hexp : is_expression_model bc H t = true
    · rw [if_pos hexp, if_pos hexp]
      obtain ⟨hb, hk⟩ := (is_expression_model_iff bc H t).1 hexp
      have hlt := hord t.m_ptr hnext hb hk
      exact ih _ a b (by omega) (by omega) (by omega) (by omega)
    · rw [if_neg hexp, if_neg hexp]

/-- In an ordered memory two types on one chain have the same storage type. -/
theorem storage_type_model_of_reaches (bc : Nat) {H : Memory} {t u : ndt.type}
    (hord : H.ordered bc) (h : operand_chain_reaches bc H t u) :
    storage_type_model bc H t = storage_type_model bc H u := by
  induction h with
  | here t => rfl
  | down t u hexp hlt _ ih =>
    obtain ⟨hb, hk⟩ := (is_expression_model_iff bc H t).1 hexp
    have hop := hord t.m_ptr hlt hb hk
    rw [← ih]
    unfold storage_type_model
    rw [storage_type_loop, if_pos hexp]
    exact storage_type_loop_fuel bc H hord (t.m_ptr + 1) _ _ _ (by omega) (by omega)
      (by omega) (by omega)

/-- The factory returns in an ordered memory, leaves the memory ordered, and the
chain of its result reaches the operand type. -/
theorem make_convert_dtype_ordered (bc : Nat) (bk : Nat → type_kind_t) (L : Lib)
    (V O : ndt.type) (errmode : assign_error_mode) (H : Memory)
    (hbk : ∀ p, bk p ≠ type_kind_t.expression_kind) (hfront : bc ≤ H.next)
    (hord : H.ordered bc) (hV : V.m_ptr < H.next) (hO : O.m_ptr < H.next) :
    ∃ r H2, make_convert_dtype (spec_lib bc bk L) V O errmode H = Except.ok (r, H2) ∧
      H2.ordered bc ∧ operand_chain_reaches bc H2 r O := by
  unfold make_convert_dtype
  split
  · split
    · refine ⟨_, _, rfl, ?_, ?_⟩
      · exact Memory.ordered_new bc H _ hord hO
      · exact operand_chain_reaches_new bc H
          (convert_dtype.ctor (spec_lib bc bk L) H V O errmode) hfront rfl
    · rename_i hkind
      have hkind2 : get_kind_model bc bk H V = type_kind_t.expression_kind := by
        simpa [spec_lib] using hkind
      have hVb : bc ≤ V.m_ptr ∧ (H.obj V.m_ptr).get_kind = type_kind_t.expression_kind := by
        unfold get_kind_model at hkind2
        by_cases hb : is_builtin_type bc V.m_ptr = true
        · rw [if_pos hb] at hkind2
          exact absurd hkind2 (hbk _)
        · rw [if_neg hb] at hkind2
          refine ⟨?_, hkind2⟩
          simpa [is_builtin_type] using hb
      split
      · obtain ⟨r, H2, heq, _, _, hord2, hreach⟩ :=
          with_replaced_storage_type_loop_ok bc H O hfront hord hO (V.m_ptr + 1) V.m_ptr
            (by omega) hVb.1 hV hVb.2
        exact ⟨r, H2, heq, hord2, hreach⟩
      · have hg := Memory.grows_to_new H
          (convert_dtype.ctor (spec_lib bc bk L) H ((spec_lib bc bk L).storage_type H V) O errmode)
        have hord1 := Memory.ordered_new bc H
          (convert_dtype.ctor (spec_lib bc bk L) H ((spec_lib bc bk L).storage_type H V) O errmode)
          hord hO
        have hinner := operand_chain_reaches_new bc H
          (convert_dtype.ctor (spec_lib bc bk L) H ((spec_lib bc bk L).storage_type H V) O errmode)
          hfront rfl
        obtain ⟨r, H2, heq, hg2, _, hord2, hreach⟩ :=
          with_replaced_storage_type_loop_ok bc
            (H.new (convert_dtype.ctor (spec_lib bc bk L) H
              ((spec_lib bc bk L).storage_type H V) O errmode)).2
            (H.new (convert_dtype.ctor (spec_lib bc bk L) H
              ((spec_lib bc bk L).storage_type H V) O errmode)).1
            (le_trans hfront hg.1) hord1
            (by simp [Memory.new]) (V.m_ptr + 1) V.m_ptr (by omega) hVb.1
            (lt_of_lt_of_le hV hg.1) (by rw [hg.2 _ hV]; exact hVb.2)
        exact ⟨r, H2, heq, hord2,
          operand_chain_reaches_trans bc hreach (operand_chain_reaches_mono bc hinner hg2)⟩
  · exact ⟨O, H, rfl, hord, operand_chain_reaches.here O⟩

/-- C10: in an ordered memory, for handles `V` and `O` on live objects, the
factory returns a type whose storage-type chain reaches `O`, in each of its four
branches; hence the chain ends where the chain of `O` ends: the storage type of
the result is the storage type of `O`, which is `O` itself when `O` is not an
expression type. -/
theorem make_convert_dtype_chain (bc : Nat) (bk : Nat → type_kind_t) (L : Lib)
    (V O : ndt.type) (errmode : assign_error_mode) (H : Memory)
    (hbk : ∀ p, bk p ≠ type_kind_t.expression_kind) (hfront : bc ≤ H.next)
    (hord : H.ordered bc) (hV : V.m_ptr < H.next) (hO : O.m_ptr < H.next) :
    ∃ r H2, make_convert_dtype (spec_lib bc bk L) V O errmode H = Except.ok (r, H2) ∧
      operand_chain_reaches bc H2 r O ∧
      storage_type_model bc H2 r = storage_type_model bc H2 O ∧
      (is_expression_model bc H2 O = false → storage_type_model bc H2 r = O) := by
  obtain ⟨r, H2, heq, hord2, hreach⟩ :=
    make_convert_dtype_ordered bc bk L V O errmode H hbk hfront hord hV hO
  have hst := storage_type_model_of_reaches bc hord2 hreach
  refine ⟨r, H2, heq, hreach, hst, ?_⟩
  intro hO2
  rw [hst]
  simp [storage_type_model, storage_type_loop, hO2]

/-- Witness of C10, in the branch that inserts a nested convert: `V` is the
expression type at 33 (storage type 6) and `O` is the builtin type 5. -/
theorem make_convert_dtype_chain_witness :
    ((∀ p, sample_builtin_kinds p ≠ type_kind_t.expression_kind) ∧ 32 ≤ sample_memory.next ∧
      sample_memory.ordered 32 ∧ (⟨33⟩ : ndt.type).m_ptr < sample_memory.next ∧
      (⟨5⟩ : ndt.type).m_ptr < sample_memory.next) ∧
    ∃ r H2, make_convert_dtype (spec_lib 32 sample_builtin_kinds sample_base_lib) ⟨33⟩ ⟨5⟩
        assign_error_mode.assign_error_default sample_memory = Except.ok (r, H2) ∧
      operand_chain_reaches 32 H2 r ⟨5⟩ ∧
      storage_type_model 32 H2 r = storage_type_model 32 H2 ⟨5⟩ ∧
      (is_expression_model 32 H2 ⟨5⟩ = false → storage_type_model 32 H2 r = ⟨5⟩) :=
  ⟨⟨(fun _ h => by cases h), (by decide), (by unfold Memory.ordered; decide), (by decide),
      (by decide)⟩,
    make_convert_dtype_chain 32 sample_builtin_kinds sample_base_lib ⟨33⟩ ⟨5⟩
      assign_error_mode.assign_error_default sample_memory (fun _ h => by cases h) (by decide)
      (by unfold Memory.ordered; decide) (by decide) (by decide)⟩

/-! ## The objects constructed when the storage is spliced -/

/-- C11: on a `convert_dtype`, `get_dynamic_array_properties` and
`get_dynamic_array_functions` return what the same member of the value type's
descriptor returns (one call, on that descriptor) when the value type is
extended; when the value type is builtin they make no call and leave the list
pointer and the count as they were. -/
theorem convert_dtype_dynamic_array_queries (L : Lib) (V : Virtual) (H : Memory)
    (this_ptr : Nat) (out : dynamic_list_out) :
    (ndt.type.is_builtin L (convert_dtype.get_value_type H this_ptr) = false →
      convert_dtype.get_dynamic_array_properties L V H this_ptr out =
        (V.get_dynamic_array_properties H (convert_dtype.get_value_type H this_ptr).m_ptr out,
          [(convert_dtype.get_value_type H this_ptr).m_ptr]) ∧
      convert_dtype.get_dynamic_array_functions L V H this_ptr out =
        (V.get_dynamic_array_functions H (convert_dtype.get_value_type H this_ptr).m_ptr out,
          [(convert_dtype.get_value_type H this_ptr).m_ptr])) ∧
    (ndt.type.is_builtin L (convert_dtype.get_value_type H this_ptr) = true →
      convert_dtype.get_dynamic_array_properties L V H this_ptr out = (out, []) ∧
      convert_dtype.get_dynamic_array_functions L V H this_ptr out = (out, [])) := by
  unfold convert_dtype.get_value_type
  constructor
  · intro hb
    simp [convert_dtype.get_dynamic_array_properties, convert_dtype.get_dynamic_array_functions,
      hb, ndt.type.extended]
  · intro hb
    simp [convert_dtype.get_dynamic_array_properties, convert_dtype.get_dynamic_array_functions,
      hb]

/-- Witness of C11: the `convert_dtype` at 35, whose value type is the extended
type at 32, and the expression type at 33, whose value type is the builtin
type 7. -/
theorem convert_dtype_dynamic_array_queries_witness :
    (ndt.type.is_builtin sample_lib (convert_dtype.get_value_type sample_convert_memory 35) = false ∧
      ndt.type.is_builtin sample_lib (convert_dtype.get_value_type sample_convert_memory 33) = true) ∧
    (convert_dtype.get_dynamic_array_properties sample_lib sample_virtual sample_convert_memory 35
        ⟨0, 0⟩ = (⟨32, 40⟩, [32]) ∧
      convert_dtype.get_dynamic_array_functions sample_lib sample_virtual sample_convert_memory 35
        ⟨0, 0⟩ = (⟨33, 1⟩, [32])) ∧
    (convert_dtype.get_dynamic_array_properties sample_lib sample_virtual sample_convert_memory 33
        ⟨9, 2⟩ = (⟨9, 2⟩, []) ∧
      convert_dtype.get_dynamic_array_functions sample_lib sample_virtual sample_convert_memory 33
        ⟨9, 2⟩ = (⟨9, 2⟩, [])) :=
  ⟨⟨(by decide), (by decide)⟩,
    (convert_dtype_dynamic_array_queries sample_lib sample_virtual sample_convert_memory 35
      ⟨0, 0⟩).1 (by decide),
    (convert_dtype_dynamic_array_queries sample_lib sample_virtual sample_convert_memory 33
      ⟨9, 2⟩).2 (by decide)⟩

/-- C17: on every fixedstring type, `metadata_default_construct`,
`metadata_copy_construct`, `metadata_destruct` and `metadata_debug_print` leave
the state (memory bytes, reference counts of the memory blocks, output streams)
as it was, and so does every sequence of such calls. -/
theorem fixedstring_metadata_noop (this : fixedstring_dtype) (s : metadata_state) :
    (∀ metadata ndim shape, this.metadata_default_construct metadata ndim shape s = s) ∧
    (∀ dst_metadata src_metadata embedded_reference,
      this.metadata_copy_construct dst_metadata src_metadata embedded_reference s = s) ∧
    (∀ metadata, this.metadata_destruct metadata s = s) ∧
    (∀ metadata o indent, this.metadata_debug_print metadata o indent s = s) ∧
    (∀ calls : List metadata_call, this.run_calls s calls = s) := by
  refine ⟨fun _ _ _ => rfl, fun _ _ _ => rfl, fun _ => rfl, fun _ _ _ => rfl, ?_⟩
  intro calls
  induction calls with
  | nil => rfl
  | cons c cs ih =>
    have hc : this.run_call s c = s := by cases c <;> rfl
    simpa [fixedstring_dtype.run_calls, hc] using ih

/-! ## The strided loop of `apply_callable_kernel` -/

theorem advance_src_advance_src (src ss : List Int) (a b : Int) :
    advance_src (advance_src src ss a) ss b = advance_src src ss (a + b) := by
  unfold advance_src
  induction src generalizing ss with
  | nil => simp
  | cons p ps ih =>
    cases ss with
    | nil => simp
    | cons st sts =>
      simp only [List.zipWith_cons_cons, List.cons.injEq]
      exact ⟨by ring, ih sts⟩

theorem to_ptrdiff_of_lt (count : Nat) (h : count < 2 ^ 63) : to_ptrdiff count = count := by
  have h1 : count % 2 ^ 64 = count := Nat.mod_eq_of_lt (by omega)
  rw [to_ptrdiff, h1, if_pos h]

theorem foldl_append_singleton {α β : Type} (f : α → β) (l : List α) (init : List β) :
    l.foldl (fun log k => log ++ [f k]) init = init ++ l.map f := by
  induction l generalizing init with
  | nil => simp
  | cons a l ih => simp [ih]

/-- With one worker the loop runs through the indices from `i` up to `count`
in increasing order. -/
theorem strided_loop_one {S : Type} (body : Int → Int → List Int → S → S) (dst ds : Int)
    (src ss : List Int) (count : Int) (hcount : count < 2 ^ 63) :
    ∀ (n : Nat) (i : Int) (fuel : Nat) (s : S), i + n = count → n ≤ fuel →
      strided_loop body 1 ds ss count fuel i (dst + i * ds) (advance_src src ss i) s =
        some ((List.range n).foldl
          (fun s (k : Nat) =>
            body (i + (k : Int)) (dst + (i + (k : Int)) * ds) (advance_src src ss (i + (k : Int))) s)
          s) := by
  intro n
  induction n with
  | zero =>
    intro i fuel s hi _
    have hlt : ¬ i < count := by omega
    cases fuel <;> simp [strided_loop, hlt]
  | succ n ih =>
    intro i fuel s hi hfuel
    obtain ⟨f, rfl⟩ : ∃ f, fuel = f + 1 := ⟨fuel - 1, by omega⟩
    have hlt : i < count := by omega
    have hov : i + ((1 : Nat) : Int) < 2 ^ 63 := by omega
    rw [strided_loop, if_pos hlt, if_pos hov]
    have h1 : dst + i * ds + ((1 : Nat) : Int) * ds = dst + (i + 1) * ds := by
      push_cast
      ring
    have h2 : advance_src (advance_src src ss i) ss ((1 : Nat) : Int) = advance_src src ss (i + 1) := by
      rw [advance_src_advance_src]
      norm_cast
    have h3 : i + ((1 : Nat) : Int) = i + 1 := by norm_cast
    rw [h1, h2, h3, ih (i + 1) f _ (by omega) (by omega)]
    rw [List.range_succ_eq_map, List.foldl_cons, List.foldl_map]
    have h4 : ∀ k : Nat, i + 1 + (k : Int) = i + ((k + 1 : Nat) : Int) := by
      intro k
      push_cast
      ring
    simp only [h4]
    simp

/-- What the loop records when it returns: the iterations are those at the
indices `i`, `i + thread_count`, ... below `count`, each with the pointers of
its index. -/
theorem strided_loop_trace_spec (tc : Nat) (dst ds : Int) (src ss : List Int) (count : Int) :
    ∀ (fuel : Nat) (i : Int) (log tr : List (Int × Int × List Int)),
      strided_loop (fun i dst src log => log ++ [(i, dst, src)]) tc ds ss count fuel i
        (dst + i * ds) (advance_src src ss i) log = some tr →
      ∃ L, tr = log ++ L ∧
        (∀ e ∈ L, i ≤ e.1 ∧ e.1 < count ∧ (tc : Int) ∣ e.1 - i ∧ e.2.1 = dst + e.1 * ds ∧
          e.2.2 = advance_src src ss e.1) ∧
        (∀ x, i ≤ x → x < count → (tc : Int) ∣ x - i → ∃ e ∈ L, e.1 = x) := by
  intro fuel
  induction fuel with
  | zero =>
    intro i log tr h
    by_cases hlt : i < count
    · simp [strided_loop, hlt] at h
    · simp only [strided_loop, if_neg hlt, Option.some.injEq] at h
      refine ⟨[], by simp [h], by simp, ?_⟩
      intro x hx1 hx2
      omega
  | succ f ih =>
    intro i log tr h
    by_cases hlt : i < count
    · by_cases hov : i + (tc : Int) < 2 ^ 63
      · rw [strided_loop, if_pos hlt, if_pos hov] at h
        have h1 : dst + i * ds + (tc : Int) * ds = dst + (i + tc) * ds := by ring
        rw [h1, advance_src_advance_src] at h
        obtain ⟨L, hL, hsound, hcompl⟩ := ih _ _ _ h
        refine ⟨(i, dst + i * ds, advance_src src ss i) :: L, by simp [hL], ?_, ?_⟩
        · intro e he
          rcases List.mem_cons.1 he with rfl | he
          · exact ⟨le_refl _, hlt, by simp, rfl, rfl⟩
          · obtain ⟨a, b, c, d, e5⟩ := hsound e he
            refine ⟨by omega, b, ?_, d, e5⟩
            have : e.1 - i = (e.1 - (i + tc)) + tc := by ring
            rw [this]
            exact dvd_add c (dvd_refl _)
        · intro x hx1 hx2 hdvd
          by_cases hxi : x = i
          · exact ⟨_, List.mem_cons_self _ _, hxi.symm⟩
          · have hpos : 0 < x - i := by omega
            have hle : (tc : Int) ≤ x - i := Int.le_of_dvd hpos hdvd
            have hd2 : (tc : Int) ∣ x - (i + tc) := by
              have : x - (i + tc) = (x - i) - tc := by ring
              rw [this]
              exact dvd_sub hdvd (dvd_refl _)
            obtain ⟨e, he, hex⟩ := hcompl x (by omega) hx2 hd2
            exact ⟨e, List.mem_cons_of_mem _ he, hex⟩
      · rw [strided_loop, if_pos hlt, if_neg hov] at h
        cases h
    · simp only [strided_loop, if_neg hlt, Option.some.injEq] at h
      refine ⟨[], by simp [h], by simp, ?_⟩
      intro x hx1 hx2
      omega

/-- The loop returns when the number of workers is not 0, the index stays in
the range of `std::ptrdiff_t` and the fuel covers the remaining indices. -/
theorem strided_loop_returns {S : Type} (body : Int → Int → List Int → S → S) (tc : Nat)
    (ds : Int) (ss : List Int) (count : Int) (htc : 1 ≤ tc) (hov : count + tc ≤ 2 ^ 63) :
    ∀ (fuel : Nat) (i dst : Int) (src : List Int) (s : S), count - i ≤ fuel →
      ∃ r, strided_loop body tc ds ss count fuel i dst src s = some r := by
  intro fuel
  induction fuel with
  | zero =>
    intro i dst src s h
    have hlt : ¬ i < count := by omega
    exact ⟨s, by simp [strided_loop, hlt]⟩
  | succ f ih =>
    intro i dst src s h
    by_cases hlt : i < count
    · have hov2 : i + (tc : Int) < 2 ^ 63 := by omega
      rw [strided_loop, if_pos hlt, if_pos hov2]
      exact ih _ _ _ _ (by omega)
    · exact ⟨s, by simp [strided_loop, hlt]⟩

/-- What `strided` records when it returns, for the worker `t` of `tc`. -/
theorem strided_trace_spec (t tc : Nat) (dst ds : Int) (src ss : List Int) (count : Nat)
    (tr : List (Int × Int × List Int))
    (h : strided_trace t tc dst ds src ss count = some tr) :
    (∀ e ∈ tr, (t : Int) ≤ e.1 ∧ e.1 < to_ptrdiff count ∧ (tc : Int) ∣ e.1 - t ∧
      e.2.1 = dst + e.1 * ds ∧ e.2.2 = advance_src src ss e.1) ∧
    (∀ x : Int, (t : Int) ≤ x → x < to_ptrdiff count → (tc : Int) ∣ x - t →
      ∃ e ∈ tr, e.1 = x) := by
  unfold strided_trace strided_with at h
  obtain ⟨L, hL, hsound, hcompl⟩ :=
    strided_loop_trace_spec tc dst ds src ss (to_ptrdiff count) count t [] tr h
  simp only [List.nil_append] at hL
  subst hL
  exact ⟨hsound, hcompl⟩

theorem strided_trace_returns (t tc : Nat) (dst ds : Int) (src ss : List Int) (count : Nat)
    (htc : 1 ≤ tc) (hov : count + tc ≤ 2 ^ 63) :
    ∃ tr, strided_trace t tc dst ds src ss count = some tr := by
  unfold strided_trace strided_with
  rw [to_ptrdiff_of_lt count (by omega)]
  exact strided_loop_returns _ tc ds ss count htc (by exact_mod_cast hov) count t _ _ _ (by omega)

/-- Two workers of the same loop visit no common index. -/
theorem strided_trace_disjoint (t1 t2 tc : Nat) (dst ds : Int) (src ss : List Int) (count : Nat)
    (tr1 tr2 : List (Int × Int × List Int)) (h1 : t1 < tc) (h2 : t2 < tc) (hne : t1 ≠ t2)
    (htr1 : strided_trace t1 tc dst ds src ss count = some tr1)
    (htr2 : strided_trace t2 tc dst ds src ss count = some tr2) :
    ∀ e1 ∈ tr1, ∀ e2 ∈ tr2, e1.1 ≠ e2.1 := by
  intro e1 he1 e2 he2 heq
  obtain ⟨_, _, hd1, _⟩ := (strided_trace_spec t1 tc dst ds src ss count tr1 htr1).1 e1 he1
  obtain ⟨_, _, hd2, _⟩ := (strided_trace_spec t2 tc dst ds src ss count tr2 htr2).1 e2 he2
  rw [heq] at hd1
  have hd : (tc : Int) ∣ (t1 : Int) - t2 := by
    have : (t1 : Int) - t2 = (e2.1 - t2) - (e2.1 - t1) := by ring
    rw [this]
    exact dvd_sub hd2 hd1
  have habs : |(t1 : Int) - t2| < tc := by
    rw [abs_lt]
    constructor <;> omega
  have := Int.eq_zero_of_abs_lt_dvd hd habs
  omega

/-- C12: for the only worker (thread id 0, thread count 1) and a count below
2^63, `strided` returns, and its effect is that of the calls
`single(dst + i*dst_stride, {src[j] + i*src_stride[j]})` for `i` from 0 to
`count - 1` in increasing order; the function is applied once for each of
these `i`, with these pointers. -/
theorem strided_refines_singles {S R : Type} (k : apply_callable_kernel S R) (dst ds : Int)
    (src ss : List Int) (count : Nat) (s : S) (hcount : count < 2 ^ 63) :
    k.strided 0 1 dst ds src ss count s = some (k.singles_in_order dst ds src ss count s) ∧
    strided_trace 0 1 dst ds src ss count =
      some ((List.range count).map
        (fun (i : Nat) => ((i : Int), dst + (i : Int) * ds, advance_src src ss i))) := by
  have hc : (count : Int) < 2 ^ 63 := by exact_mod_cast hcount
  constructor
  · have h := strided_loop_one (fun _ dst src s => k.store dst (k.func src s).1 (k.func src s).2)
      dst ds src ss (count : Int) hc count 0 count s (by simp) le_rfl
    unfold apply_callable_kernel.strided strided_with apply_callable_kernel.singles_in_order
      apply_callable_kernel.single
    rw [to_ptrdiff_of_lt count hcount]
    simpa using h
  · have h := strided_loop_one (fun i dst src log => log ++ [(i, dst, src)])
      dst ds src ss (count : Int) hc count 0 count [] (by simp) le_rfl
    unfold strided_trace strided_with
    rw [to_ptrdiff_of_lt count hcount]
    rw [foldl_append_singleton
      (fun (k : Nat) => ((0 : Int) + (k : Int), dst + ((0 : Int) + (k : Int)) * ds,
        advance_src src ss ((0 : Int) + (k : Int)))) (List.range count) []] at h
    simpa using h

/-- Witness of C12: four elements, each the sum of two sources, stored at
`10 .. 13`. -/
theorem strided_refines_singles_witness :
    4 < 2 ^ 63 ∧
    sample_kernel.strided 0 1 10 1 [0, 5] [1, 1] 4 (fun a => a) =
      some (sample_kernel.singles_in_order 10 1 [0, 5] [1, 1] 4 (fun a => a)) ∧
    strided_trace 0 1 10 1 [0, 5] [1, 1] 4 =
      some ((List.range 4).map
        (fun (i : Nat) => ((i : Int), 10 + (i : Int) * 1, advance_src [0, 5] [1, 1] i))) :=
  ⟨(by decide), strided_refines_singles sample_kernel 10 1 [0, 5] [1, 1] 4 (fun a => a) (by decide)⟩

/-- C13, as stated, fails: with one worker and `count = 2^63`, a value of
`size_t`, the bound `(std::ptrdiff_t)count` is negative and the worker visits
nothing, so the index 0 of `[0, count)` is visited by no worker; and with
`count = 1` and `2^63` workers the index of worker 0 leaves the range of
`std::ptrdiff_t` after its first iteration. -/
theorem strided_visits_every_count_refuted :
    (1 ≤ 1 ∧ 2 ^ 63 < 2 ^ 64 ∧ (0 : Int) ≤ 0 ∧ (0 : Int) < ((2 ^ 63 : Nat) : Int)) ∧
    strided_visits 0 1 1000 8 [2000, 3000] [4, 2] (2 ^ 63) = some [] ∧
    (¬ ∃ t v, t < 1 ∧ strided_visits t 1 1000 8 [2000, 3000] [4, 2] (2 ^ 63) = some v ∧
      (0 : Int) ∈ v) ∧
    strided_visits 0 (2 ^ 63) 1000 8 [2000, 3000] [4, 2] 1 = none := by
  have h : strided_visits 0 1 1000 8 [2000, 3000] [4, 2] (2 ^ 63) = some [] := by decide
  refine ⟨by decide, h, ?_, by decide⟩
  rintro ⟨t, v, ht, hv, hmem⟩
  obtain rfl : t = 0 := by omega
  rw [h] at hv
  cases hv
  cases hmem

/-- C13, amended: for `thread_count >= 1` and `count + thread_count <= 2^63`,
every worker `t < thread_count` returns, the indices the workers visit all lie
in `[0, count)`, every index of `[0, count)` is visited by some worker, two
distinct workers visit no common index, and with `count = 0` no worker visits
an index. -/
theorem strided_visits_partition (tc : Nat) (dst ds : Int) (src ss : List Int) (count : Nat)
    (htc : 1 ≤ tc) (hov : count + tc ≤ 2 ^ 63) :
    (∀ t, t < tc → ∃ v, strided_visits t tc dst ds src ss count = some v) ∧
    (∀ x : Int, 0 ≤ x → x < count →
      ∃ t v, t < tc ∧ strided_visits t tc dst ds src ss count = some v ∧ x ∈ v) ∧
    (∀ t v x, strided_visits t tc dst ds src ss count = some v → x ∈ v → 0 ≤ x ∧ x < count) ∧
    (∀ t1 t2 v1 v2 x, t1 < tc → t2 < tc → t1 ≠ t2 →
      strided_visits t1 tc dst ds src ss count = some v1 →
      strided_visits t2 tc dst ds src ss count = some v2 → x ∈ v1 → x ∉ v2) ∧
    (count = 0 → ∀ t, strided_visits t tc dst ds src ss count = some []) := by
  have hcast : to_ptrdiff count = count := to_ptrdiff_of_lt count (by omega)
  have hvis : ∀ t v, strided_visits t tc dst ds src ss count = some v →
      ∃ tr, strided_trace t tc dst ds src ss count = some tr ∧ v = tr.map Prod.fst := by
    intro t v hv
    unfold strided_visits at hv
    cases htr : strided_trace t tc dst ds src ss count with
    | none => simp [htr] at hv
    | some tr =>
      simp only [htr, Option.map_some', Option.some.injEq] at hv
      exact ⟨tr, rfl, hv.symm⟩
  have hret : ∀ t, ∃ tr, strided_trace t tc dst ds src ss count = some tr ∧
      strided_visits t tc dst ds src ss count = some (tr.map Prod.fst) := by
    intro t
    obtain ⟨tr, htr⟩ := strided_trace_returns t tc dst ds src ss count htc hov
    exact ⟨tr, htr, by simp [strided_visits, htr]⟩
  refine ⟨?_, ?_, ?_, ?_, ?_⟩
  · intro t _
    obtain ⟨tr, _, hv⟩ := hret t
    exact ⟨_, hv⟩
  · intro x hx0 hxc
    have htcpos : (0 : Int) < tc := by exact_mod_cast htc
    have hm0 : 0 ≤ x % (tc : Int) := Int.emod_nonneg _ (ne_of_gt htcpos)
    have hm1 : x % (tc : Int) < tc := Int.emod_lt_of_pos _ htcpos
    have hdiv : 0 ≤ x / (tc : Int) := Int.ediv_nonneg hx0 (le_of_lt htcpos)
    have hsplit : (tc : Int) * (x / tc) + x % tc = x := Int.ediv_add_emod x tc
    have hmul : 0 ≤ (tc : Int) * (x / tc) := mul_nonneg (le_of_lt htcpos) hdiv
    have hcastt : (((x % (tc : Int)).toNat : Nat) : Int) = x % tc := Int.toNat_of_nonneg hm0
    obtain ⟨tr, htr, hv⟩ := hret (x % (tc : Int)).toNat
    refine ⟨(x % (tc : Int)).toNat, _, by omega, hv, ?_⟩
    have hd : (tc : Int) ∣ x - (((x % (tc : Int)).toNat : Nat) : Int) := by
      rw [hcastt]
      exact ⟨x / tc, by omega⟩
    obtain ⟨e, he, hex⟩ := (strided_trace_spec _ tc dst ds src ss count tr htr).2 x
      (by omega) (by omega) hd
    exact List.mem_map.2 ⟨e, he, hex⟩
  · intro t v x hv hx
    obtain ⟨tr, htr, rfl⟩ := hvis t v hv
    obtain ⟨e, he, rfl⟩ := List.mem_map.1 hx
    obtain ⟨h1, h2, _⟩ := (strided_trace_spec t tc dst ds src ss count tr htr).1 e he
    omega
  · intro t1 t2 v1 v2 x h1 h2 hne hv1 hv2 hx1 hx2
    obtain ⟨tr1, htr1, rfl⟩ := hvis t1 v1 hv1
    obtain ⟨tr2, htr2, rfl⟩ := hvis t2 v2 hv2
    obtain ⟨e1, he1, rfl⟩ := List.mem_map.1 hx1
    obtain ⟨e2, he2, he⟩ := List.mem_map.1 hx2
    exact strided_trace_disjoint t1 t2 tc dst ds src ss count tr1 tr2 h1 h2 hne htr1 htr2
      e1 he1 e2 he2 he.symm
  · intro hzero t
    obtain ⟨tr, htr, hv⟩ := hret t
    rw [hv]
    cases tr with
    | nil => rfl
    | cons e es =>
      obtain ⟨h1, h2, _⟩ := (strided_trace_spec t tc dst ds src ss count _ htr).1 e
        (List.mem_cons_self _ _)
      omega

/-- Witness of amended C13: 3 workers and 10 indices. -/
theorem strided_visits_partition_witness :
    (1 ≤ 3 ∧ 10 + 3 ≤ 2 ^ 63) ∧
    (∀ t, t < 3 → ∃ v, strided_visits t 3 1000 8 [2000, 3000] [4, 2] 10 = some v) ∧
    strided_visits 0 3 1000 8 [2000, 3000] [4, 2] 10 = some [0, 3, 6, 9] ∧
    strided_visits 1 3 1000 8 [2000, 3000] [4, 2] 10 = some [1, 4, 7] ∧
    strided_visits 2 3 1000 8 [2000, 3000] [4, 2] 10 = some [2, 5, 8] :=
  ⟨⟨(by decide), (by decide)⟩,
    (strided_visits_partition 3 1000 8 [2000, 3000] [4, 2] 10 (by decide) (by decide)).1,
    (by decide), (by decide), (by decide)⟩

/-- C14: in every iteration of a worker the destination pointer is
`dst + i*dst_stride` and the source pointers are `src[j] + i*src_stride[j]`,
where `i` is the index of the iteration; hence for `dst_stride != 0` two
distinct workers `t`, `t2` below the thread count never use the same
destination address.  The worker returns when the thread count is at least 1
and `count + thread_count <= 2^63`. -/
theorem strided_pointers (t n : Nat) (dst ds : Int) (src ss : List Int) (count : Nat) :
    (∀ tr, strided_trace t n dst ds src ss count = some tr → ∀ e ∈ tr,
      e.2.1 = dst + e.1 * ds ∧ e.2.2 = advance_src src ss e.1 ∧
      (∀ (j : Nat) (p st : Int), src[j]? = some p → ss[j]? = some st →
        e.2.2[j]? = some (p + e.1 * st))) ∧
    (∀ t2 tr tr2, t < n → t2 < n → t ≠ t2 → ds ≠ 0 →
      strided_trace t n dst ds src ss count = some tr →
      strided_trace t2 n dst ds src ss count = some tr2 →
      ∀ e ∈ tr, ∀ e2 ∈ tr2, e.2.1 ≠ e2.2.1) ∧
    (1 ≤ n → count + n ≤ 2 ^ 63 → ∃ tr, strided_trace t n dst ds src ss count = some tr) := by
  refine ⟨?_, ?_, ?_⟩
  · intro tr htr e he
    obtain ⟨_, _, _, hd, hs⟩ := (strided_trace_spec t n dst ds src ss count tr htr).1 e he
    refine ⟨hd, hs, ?_⟩
    intro j p st hp hst
    rw [hs]
    simp [advance_src, List.getElem?_zipWith, hp, hst]
  · intro t2 tr tr2 h1 h2 hne hds htr htr2 e he e2 he2 heq
    obtain ⟨_, _, _, hd, _⟩ := (strided_trace_spec t n dst ds src ss count tr htr).1 e he
    obtain ⟨_, _, _, hd2, _⟩ := (strided_trace_spec t2 n dst ds src ss count tr2 htr2).1 e2 he2
    have hidx := strided_trace_disjoint t t2 n dst ds src ss count tr tr2 h1 h2 hne htr htr2
      e he e2 he2
    rw [hd, hd2] at heq
    have hmul : (e.1 - e2.1) * ds = 0 := by linarith
    rcases mul_eq_zero.1 hmul with h | h
    · exact hidx (by omega)
    · exact hds h
  · intro hn hov
    exact strided_trace_returns t n dst ds src ss count hn hov

/-- Witness of C14: workers 1 and 2 of 3 on 10 elements with destination
stride 8. -/
theorem strided_pointers_witness :
    strided_trace 1 3 1000 8 [2000, 3000] [4, 2] 10 =
      some [(1, 1008, [2004, 3002]), (4, 1032, [2016, 3008]), (7, 1056, [2028, 3014])] ∧
    strided_trace 2 3 1000 8 [2000, 3000] [4, 2] 10 =
      some [(2, 1016, [2008, 3004]), (5, 1040, [2020, 3010]), (8, 1064, [2032, 3016])] ∧
    (∀ e ∈ [((1 : Int), (1008 : Int), [(2004 : Int), 3002]), (4, 1032, [2016, 3008]),
        (7, 1056, [2028, 3014])],
      e.2.1 = 1000 + e.1 * 8 ∧ e.2.2 = advance_src [2000, 3000] [4, 2] e.1 ∧
      (∀ (j : Nat) (p st : Int), [(2000 : Int), 3000][j]? = some p → [(4 : Int), 2][j]? = some st →
        e.2.2[j]? = some (p + e.1 * st))) ∧
    (∀ e ∈ [((1 : Int), (1008 : Int), [(2004 : Int), 3002]), (4, 1032, [2016, 3008]),
        (7, 1056, [2028, 3014])],
      ∀ e2 ∈ [((2 : Int), (1016 : Int), [(2008 : Int), 3004]), (5, 1040, [2020, 3010]),
        (8, 1064, [2032, 3016])], e.2.1 ≠ e2.2.1) :=
  ⟨(by decide), (by decide),
    (strided_pointers 1 3 1000 8 [2000, 3000] [4, 2] 10).1 _ (by decide),
    (strided_pointers 1 3 1000 8 [2000, 3000] [4, 2] 10).2.1 2 _ _ (by decide) (by decide)
      (by decide) (by decide) (by decide) (by decide)⟩

/-! ## Resolution and instantiation of `apply_function_callable` -/

/-- C15: `resolve` adds one step, the callable itself, at the end of the call
graph, keeps the steps already there, returns `dst_tp` and leaves every kernel
builder as it was; `instantiate` adds one frame at the end of the builder it
is given, keeps the frames already there, and leaves the other builders and
the call graph as they were. -/
theorem apply_function_callable_resolve_instantiate (this_ptr caller node : Nat) (data : Int)
    (st : dispatch_state) (dst_tp : ndt.type) (nsrc : Nat) (src_tp : List ndt.type) (nkwd : Nat)
    (kwds : Nat) (tp_vars : tp_vars_t) (ckb : Nat) (dst_arrmeta : Int)
    (src_arrmeta : List Int) (kernreq : kernel_request_t) :
    (apply_function_callable.resolve this_ptr caller data st dst_tp nsrc src_tp nkwd kwds
        tp_vars).1 = dst_tp ∧
    (apply_function_callable.resolve this_ptr caller data st dst_tp nsrc src_tp nkwd kwds
        tp_vars).2.cg.steps = st.cg.steps ++ [this_ptr] ∧
    (apply_function_callable.resolve this_ptr caller data st dst_tp nsrc src_tp nkwd kwds
        tp_vars).2.cg.steps.length = st.cg.steps.length + 1 ∧
    (apply_function_callable.resolve this_ptr caller data st dst_tp nsrc src_tp nkwd kwds
        tp_vars).2.builders = st.builders ∧
    ((apply_function_callable.instantiate this_ptr node data st ckb dst_tp dst_arrmeta nsrc
        src_tp src_arrmeta kernreq nkwd kwds tp_vars).builders ckb).frames =
      (st.builders ckb).frames ++
        [kernel_frame.apply_function_kernel kernreq src_arrmeta nkwd kwds] ∧
    ((apply_function_callable.instantiate this_ptr node data st ckb dst_tp dst_arrmeta nsrc
        src_tp src_arrmeta kernreq nkwd kwds tp_vars).builders ckb).frames.length =
      (st.builders ckb).frames.length + 1 ∧
    (∀ p, p ≠ ckb →
      (apply_function_callable.instantiate this_ptr node data st ckb dst_tp dst_arrmeta nsrc
        src_tp src_arrmeta kernreq nkwd kwds tp_vars).builders p = st.builders p) ∧
    (apply_function_callable.instantiate this_ptr node data st ckb dst_tp dst_arrmeta nsrc
        src_tp src_arrmeta kernreq nkwd kwds tp_vars).cg = st.cg := by
  refine ⟨rfl, rfl, ?_, rfl, ?_, ?_, ?_, rfl⟩
  · simp [apply_function_callable.resolve, call_graph.emplace_back]
  · simp [apply_function_callable.instantiate, kernel_builder.emplace_back]
  · simp [apply_function_callable.instantiate, kernel_builder.emplace_back]
  · intro p hp
    simp [apply_function_callable.instantiate, hp]

/-! ## Matching with type variables -/

theorem lookup_append_of_none (tp_vars : tp_vars_t) (name : String) (tp : ndt.type)
    (h : tp_vars.lookup name = none) : (tp_vars ++ [(name, tp)]).lookup name = some tp := by
  induction tp_vars with
  | nil => simp [List.lookup]
  | cons e es ih =>
    obtain ⟨k, v⟩ := e
    by_cases hk : name = k
    · subst hk
      simp [List.lookup] at h
    · have hk2 : (name == k) = false := by simpa using hk
      simp only [List.cons_append, List.lookup, hk2] at h ⊢
      exact ih h

/-- C18: for a pattern that is the type variable `name`, `match` answers false,
without raising, when the variable is bound to a type structurally unequal to
the candidate, answers true when it is bound to an equal one, and answers true
and binds the variable to the candidate when it is not bound yet; so matching
the parameters `(T, T)` against `(c1, c2)` with one accumulating map, `T` not
bound before, succeeds exactly when `c1` and `c2` are structurally equal
(equal type ids, for builtin types) and binds `T` to `c1`.  The one-argument
`match(other)` is `match(other, m)` on a new empty map `m`, for every
two-argument `match`. -/
theorem match_type_variable (L : Lib) (Y : Symbolic) (H : Memory) (T : ndt.type)
    (name : String) (hsym : ndt.type.is_symbolic L Y H T = true)
    (hT : Y.typevar_name H T.m_ptr = some name) :
    (∀ tp_vars bound c, tp_vars.lookup name = some bound →
      ndt.type.operator_eq L H bound c = false →
      ndt.type.match_model L Y H T c tp_vars = (false, tp_vars)) ∧
    (∀ tp_vars bound c, tp_vars.lookup name = some bound →
      ndt.type.operator_eq L H bound c = true →
      ndt.type.match_model L Y H T c tp_vars = (true, tp_vars)) ∧
    (∀ tp_vars c, tp_vars.lookup name = none →
      ndt.type.match_model L Y H T c tp_vars = (true, tp_vars ++ [(name, c)]) ∧
      (tp_vars ++ [(name, c)]).lookup name = some c) ∧
    (∀ tp_vars c1 c2, tp_vars.lookup name = none →
      match_params (ndt.type.match_model L Y H) [T, T] [c1, c2] tp_vars =
        (ndt.type.operator_eq L H c1 c2, tp_vars ++ [(name, c1)])) ∧
    (∀ c1 c2, ndt.type.is_builtin L c1 = true → ndt.type.is_builtin L c2 = true →
      ((match_params (ndt.type.match_model L Y H) [T, T] [c1, c2] []).1 = true ↔
        ndt.type.get_id L H c1 = ndt.type.get_id L H c2)) ∧
    (∀ (match_2 : ndt.type → ndt.type → tp_vars_t → Bool × tp_vars_t) (t other : ndt.type),
      ndt.type.match_1 match_2 t other = (match_2 t other []).1) := by
  have hbound : ∀ tp_vars bound c, tp_vars.lookup name = some bound →
      ndt.type.match_model L Y H T c tp_vars = (ndt.type.operator_eq L H bound c, tp_vars) := by
    intro tp_vars bound c hl
    simp [ndt.type.match_model, hsym, hT, hl]
  have hfresh : ∀ tp_vars c, tp_vars.lookup name = none →
      ndt.type.match_model L Y H T c tp_vars = (true, tp_vars ++ [(name, c)]) := by
    intro tp_vars c hl
    simp [ndt.type.match_model, hsym, hT, hl]
  have hpair : ∀ tp_vars c1 c2, tp_vars.lookup name = none →
      match_params (ndt.type.match_model L Y H) [T, T] [c1, c2] tp_vars =
        (ndt.type.operator_eq L H c1 c2, tp_vars ++ [(name, c1)]) := by
    intro tp_vars c1 c2 hl
    have h2 := hbound (tp_vars ++ [(name, c1)]) c1 c2 (lookup_append_of_none tp_vars name c1 hl)
    cases heq : ndt.type.operator_eq L H c1 c2 <;>
      simp [match_params, hfresh tp_vars c1 hl, h2, heq]
  refine ⟨?_, ?_, ?_, hpair, ?_, fun _ _ _ => rfl⟩
  · intro tp_vars bound c hl hne
    rw [hbound tp_vars bound c hl, hne]
  · intro tp_vars bound c hl heq
    rw [hbound tp_vars bound c hl, heq]
  · intro tp_vars c hl
    exact ⟨hfresh tp_vars c hl, lookup_append_of_none tp_vars name c hl⟩
  · intro c1 c2 hb1 hb2
    rw [hpair [] c1 c2 rfl]
    simp [ndt.type.operator_eq, ndt.type.get_id, hb1, hb2]

/-- Witness of C18: the pattern `(T, T)`, with `T` the type variable at 34,
against `(int32, int32)` and against `(int32, float64)`, where the builtin type
ids 6 and 11 stand for `int32` and `float64`. -/
theorem match_type_variable_witness :
    (ndt.type.is_symbolic sample_lib sample_symbolic sample_memory ⟨34⟩ = true ∧
      sample_symbolic.typevar_name sample_memory (⟨34⟩ : ndt.type).m_ptr = some "T") ∧
    match_params (ndt.type.match_model sample_lib sample_symbolic sample_memory) [⟨34⟩, ⟨34⟩]
      [⟨6⟩, ⟨6⟩] [] = (true, [("T", ⟨6⟩)]) ∧
    match_params (ndt.type.match_model sample_lib sample_symbolic sample_memory) [⟨34⟩, ⟨34⟩]
      [⟨6⟩, ⟨11⟩] [] = (false, [("T", ⟨6⟩)]) ∧
    ndt.type.match_model sample_lib sample_symbolic sample_memory ⟨34⟩ ⟨11⟩ [("T", ⟨6⟩)] =
      (false, [("T", ⟨6⟩)]) ∧
    ndt.type.match_1 (ndt.type.match_model sample_lib sample_symbolic sample_memory) ⟨34⟩ ⟨11⟩ =
      true :=
  ⟨⟨(by decide), (by decide)⟩,
    (match_type_variable sample_lib sample_symbolic sample_memory ⟨34⟩ "T" (by decide)
      (by decide)).2.2.2.1 [] ⟨6⟩ ⟨6⟩ rfl,
    (match_type_variable sample_lib sample_symbolic sample_memory ⟨34⟩ "T" (by decide)
      (by decide)).2.2.2.1 [] ⟨6⟩ ⟨11⟩ rfl,
    (match_type_variable sample_lib sample_symbolic sample_memory ⟨34⟩ "T" (by decide)
      (by decide)).1 [("T", ⟨6⟩)] ⟨6⟩ ⟨11⟩ (by decide) (by decide),
    (by decide)⟩

/-! ## The frames of the string and date assignment kernels -/

/-- C19: for a type of `string_kind`, when the adapter returns the offset `a`
and `ensure_capacity` returns, both factories return `a + sizeof(frame)`
(computed in `size_t`; it is the sum itself when that fits in 64 bits), the
frame is written at offset `a`, and it is written into the kernel on which
`ensure_capacity` has been called with the returned offset. -/
theorem date_kernels_return_offset (L : Lib) (K : KernelLib) (H : Memory) (w : kernel_world)
    (offset_out : Nat) (tp : ndt.type) (metadata : Int) (kernreq : kernel_request_t)
    (errmode : assign_error_mode) (a : Nat) (out1 out2s out2d : hierarchical_kernel)
    (hkind : L.get_kind H tp = type_kind_t.string_kind)
    (hadapt : K.make_kernreq_to_single_kernel_adapter w.out offset_out kernreq =
      Except.ok (a, out1))
    (hs : K.ensure_capacity out1 (size_t_add a K.sizeof_string_to_date_kernel_extra) =
      Except.ok out2s)
    (hd : K.ensure_capacity out1 (size_t_add a K.sizeof_date_to_string_kernel_extra) =
      Except.ok out2d) :
    (∃ w2, make_string_to_date_assignment_kernel L K H w offset_out tp metadata kernreq errmode =
        Except.ok (size_t_add a K.sizeof_string_to_date_kernel_extra, w2) ∧
      w2.out = out2s.set_at a
        (kernel_extra.string_to_date (string_to_date_frame tp metadata errmode)) ∧
      w2.out.frame_at a =
        some (kernel_extra.string_to_date (string_to_date_frame tp metadata errmode)) ∧
      w2.out.capacity = out2s.capacity ∧
      (a + K.sizeof_string_to_date_kernel_extra < 2 ^ 64 →
        size_t_add a K.sizeof_string_to_date_kernel_extra =
          a + K.sizeof_string_to_date_kernel_extra)) ∧
    (∃ w2, make_date_to_string_assignment_kernel L K H w offset_out tp metadata kernreq errmode =
        Except.ok (size_t_add a K.sizeof_date_to_string_kernel_extra, w2) ∧
      w2.out = out2d.set_at a
        (kernel_extra.date_to_string (date_to_string_frame tp metadata errmode)) ∧
      w2.out.frame_at a =
        some (kernel_extra.date_to_string (date_to_string_frame tp metadata errmode)) ∧
      w2.out.capacity = out2d.capacity ∧
      (a + K.sizeof_date_to_string_kernel_extra < 2 ^ 64 →
        size_t_add a K.sizeof_date_to_string_kernel_extra =
          a + K.sizeof_date_to_string_kernel_extra)) := by
  constructor
  · refine ⟨{ out := out2s.set_at a
                (kernel_extra.string_to_date (string_to_date_frame tp metadata errmode))
              use_count := copy_and_release L tp w.use_count }, ?_, rfl, ?_, rfl, ?_⟩
    · simp [make_string_to_date_assignment_kernel, hkind, hadapt, hs]
    · simp [hierarchical_kernel.set_at]
    · intro h
      exact Nat.mod_eq_of_lt h
  · refine ⟨{ out := out2d.set_at a
                (kernel_extra.date_to_string (date_to_string_frame tp metadata errmode))
              use_count := copy_and_release L tp w.use_count }, ?_, rfl, ?_, rfl, ?_⟩
    · simp [make_date_to_string_assignment_kernel, hkind, hadapt, hd]
    · simp [hierarchical_kernel.set_at]
    · intro h
      exact Nat.mod_eq_of_lt h

/-- Witness of C19: the string type at 32, offset 8; the adapter returns 24. -/
theorem date_kernels_return_offset_witness :
    (sample_lib.get_kind sample_memory ⟨32⟩ = type_kind_t.string_kind ∧ 24 + 40 < 2 ^ 64) ∧
    (∃ w2, make_string_to_date_assignment_kernel sample_lib sample_kernel_lib sample_memory
        sample_kernel_world 8 ⟨32⟩ 500 3 assign_error_mode.assign_error_inexact =
        Except.ok (64, w2) ∧
      w2.out.frame_at 24 = some (kernel_extra.string_to_date
        (string_to_date_frame ⟨32⟩ 500 assign_error_mode.assign_error_inexact)) ∧
      w2.out.capacity = 64) ∧
    (∃ w2, make_date_to_string_assignment_kernel sample_lib sample_kernel_lib sample_memory
        sample_kernel_world 8 ⟨32⟩ 500 3 assign_error_mode.assign_error_inexact =
        Except.ok (56, w2) ∧
      w2.out.frame_at 24 = some (kernel_extra.date_to_string
        (date_to_string_frame ⟨32⟩ 500 assign_error_mode.assign_error_inexact)) ∧
      w2.out.capacity = 56) := by
  have h := date_kernels_return_offset sample_lib sample_kernel_lib sample_memory
    sample_kernel_world 8 ⟨32⟩ 500 3 assign_error_mode.assign_error_inexact 24 _ _ _
    (by decide) rfl rfl rfl
  refine ⟨⟨(by decide), (by decide)⟩, ?_, ?_⟩
  · obtain ⟨w2, h1, _, h3, h4, _⟩ := h.1
    exact ⟨w2, h1, h3, h4⟩
  · obtain ⟨w2, h1, _, h3, h4, _⟩ := h.2
    exact ⟨w2, h1, h3, h4⟩

/-- C20: for an extended type of `string_kind`, when the adapter and
`ensure_capacity` return, building either frame raises the reference count of
the descriptor by 1 and leaves the other counts as they were; the destructor of
the frame is set, and it lowers the count of the captured descriptor by 1, so
that after building the frame and destructing it once every count is the
initial one. -/
theorem date_kernels_own_one_reference (L : Lib) (K : KernelLib) (H : Memory) (w : kernel_world)
    (offset_out : Nat) (tp : ndt.type) (metadata : Int) (kernreq : kernel_request_t)
    (errmode : assign_error_mode) (a : Nat) (out1 out2s out2d : hierarchical_kernel)
    (hkind : L.get_kind H tp = type_kind_t.string_kind)
    (hext : ndt.type.is_builtin L tp = false)
    (hadapt : K.make_kernreq_to_single_kernel_adapter w.out offset_out kernreq =
      Except.ok (a, out1))
    (hs : K.ensure_capacity out1 (size_t_add a K.sizeof_string_to_date_kernel_extra) =
      Except.ok out2s)
    (hd : K.ensure_capacity out1 (size_t_add a K.sizeof_date_to_string_kernel_extra) =
      Except.ok out2d) :
    (∃ r w2 e, make_string_to_date_assignment_kernel L K H w offset_out tp metadata kernreq
        errmode = Except.ok (r, w2) ∧
      w2.out.frame_at a = some (kernel_extra.string_to_date e) ∧
      e.src_string_dt = tp.m_ptr ∧
      e.base.destructor = some kernel_destructor.string_to_date_destruct ∧
      w2.use_count tp.m_ptr = w.use_count tp.m_ptr + 1 ∧
      (∀ p, p ≠ tp.m_ptr → w2.use_count p = w.use_count p) ∧
      string_to_date_kernel_extra.destruct L e w2.use_count tp.m_ptr + 1 =
        w2.use_count tp.m_ptr ∧
      string_to_date_kernel_extra.destruct L e w2.use_count = w.use_count) ∧
    (∃ r w2 e, make_date_to_string_assignment_kernel L K H w offset_out tp metadata kernreq
        errmode = Except.ok (r, w2) ∧
      w2.out.frame_at a = some (kernel_extra.date_to_string e) ∧
      e.dst_string_dt = tp.m_ptr ∧
      e.base.destructor = some kernel_destructor.date_to_string_destruct ∧
      w2.use_count tp.m_ptr = w.use_count tp.m_ptr + 1 ∧
      (∀ p, p ≠ tp.m_ptr → w2.use_count p = w.use_count p) ∧
      date_to_string_kernel_extra.destruct L e w2.use_count tp.m_ptr + 1 =
        w2.use_count tp.m_ptr ∧
      date_to_string_kernel_extra.destruct L e w2.use_count = w.use_count) := by
  have hext2 : L.is_builtin_type tp.m_ptr = false := hext
  have hcount : copy_and_release L tp w.use_count tp.m_ptr = w.use_count tp.m_ptr + 1 := by
    simp [copy_and_release, hext]
  have hother : ∀ p, p ≠ tp.m_ptr → copy_and_release L tp w.use_count p = w.use_count p := by
    intro p hp
    simp [copy_and_release, hext, hp]
  have hback : base_type_xdecref L tp.m_ptr (copy_and_release L tp w.use_count) = w.use_count := by
    funext q
    by_cases hq : q = tp.m_ptr
    · subst hq
      simp [base_type_xdecref, hext2, hcount]
    · simp [base_type_xdecref, hext2, hq, hother q hq]
  have hlower : base_type_xdecref L tp.m_ptr (copy_and_release L tp w.use_count) tp.m_ptr + 1 =
      copy_and_release L tp w.use_count tp.m_ptr := by
    rw [hback, hcount]
  constructor
  · refine ⟨size_t_add a K.sizeof_string_to_date_kernel_extra,
      { out := out2s.set_at a
          (kernel_extra.string_to_date (string_to_date_frame tp metadata errmode))
        use_count := copy_and_release L tp w.use_count },
      string_to_date_frame tp metadata errmode, ?_, ?_, rfl, rfl, hcount, hother,
      hlower, hback⟩
    · simp [make_string_to_date_assignment_kernel, hkind, hadapt, hs]
    · simp [hierarchical_kernel.set_at]
  · refine ⟨size_t_add a K.sizeof_date_to_string_kernel_extra,
      { out := out2d.set_at a
          (kernel_extra.date_to_string (date_to_string_frame tp metadata errmode))
        use_count := copy_and_release L tp w.use_count },
      date_to_string_frame tp metadata errmode, ?_, ?_, rfl, rfl, hcount, hother,
      hlower, hback⟩
    · simp [make_date_to_string_assignment_kernel, hkind, hadapt, hd]
    · simp [hierarchical_kernel.set_at]

/-- Witness of C20: the string type at 32, which has one reference at the
start. -/
theorem date_kernels_own_one_reference_witness :
    (sample_lib.get_kind sample_memory ⟨32⟩ = type_kind_t.string_kind ∧
      ndt.type.is_builtin sample_lib ⟨32⟩ = false ∧ sample_kernel_world.use_count 32 = 1) ∧
    ∃ r w2 e, make_string_to_date_assignment_kernel sample_lib sample_kernel_lib sample_memory
        sample_kernel_world 8 ⟨32⟩ 500 3 assign_error_mode.assign_error_default =
        Except.ok (r, w2) ∧
      w2.out.frame_at 24 = some (kernel_extra.string_to_date e) ∧
      e.base.destructor = some kernel_destructor.string_to_date_destruct ∧
      w2.use_count 32 = sample_kernel_world.use_count 32 + 1 ∧
      string_to_date_kernel_extra.destruct sample_lib e w2.use_count =
        sample_kernel_world.use_count := by
  have h := (date_kernels_own_one_reference sample_lib sample_kernel_lib sample_memory
    sample_kernel_world 8 ⟨32⟩ 500 3 assign_error_mode.assign_error_default 24 _ _ _
    (by decide) (by decide) rfl rfl rfl).1
  obtain ⟨r, w2, e, h1, h2, _, h4, h5, _, _, h8⟩ := h
  exact ⟨⟨(by decide), (by decide), rfl⟩, r, w2, e, h1, h2, h4, h5, h8⟩

/-- Witness of C15: the callable at 72 resolved and instantiated on the
builder at 5. -/
theorem apply_function_callable_resolve_instantiate_witness :
    (6 : Nat) ≠ 5 ∧
    (apply_function_callable.resolve 72 0 0 sample_dispatch_state ⟨6⟩ 2 [⟨6⟩, ⟨6⟩] 0 0 []).2.cg.steps
      = [70, 71, 72] ∧
    ((apply_function_callable.instantiate 72 0 0 sample_dispatch_state 5 ⟨6⟩ 0 2 [⟨6⟩, ⟨6⟩]
      [100, 200] 3 0 0 []).builders 5).frames =
      [kernel_frame.other_kernel 5, kernel_frame.apply_function_kernel 3 [100, 200] 0 0] ∧
    (apply_function_callable.instantiate 72 0 0 sample_dispatch_state 5 ⟨6⟩ 0 2 [⟨6⟩, ⟨6⟩]
      [100, 200] 3 0 0 []).builders 6 = sample_dispatch_state.builders 6 :=
  ⟨(by decide),
    (apply_function_callable_resolve_instantiate 72 0 0 0 sample_dispatch_state ⟨6⟩ 2 [⟨6⟩, ⟨6⟩]
      0 0 [] 5 0 [100, 200] 3).2.1,
    (apply_function_callable_resolve_instantiate 72 0 0 0 sample_dispatch_state ⟨6⟩ 2 [⟨6⟩, ⟨6⟩]
      0 0 [] 5 0 [100, 200] 3).2.2.2.2.1,
    (apply_function_callable_resolve_instantiate 72 0 0 0 sample_dispatch_state ⟨6⟩ 2 [⟨6⟩, ⟨6⟩]
      0 0 [] 5 0 [100, 200] 3).2.2.2.2.2.2.1 6 (by decide)⟩

/-! ## Alignment of offsets -/

theorem size_t_sub_one_two_pow (k : Nat) (hk : k < 64) : size_t_sub (2 ^ k) 1 = 2 ^ k - 1 := by
  have h1 : 2 ^ k < 2 ^ 64 := Nat.pow_lt_pow_right (by decide) hk
  have h2 : 0 < 2 ^ k := Nat.two_pow_pos k
  unfold size_t_sub
  rw [Nat.mod_eq_of_lt h1]
  omega

theorem size_t_neg_two_pow (k : Nat) (hk : k < 64) : size_t_neg (2 ^ k) = 2 ^ 64 - 2 ^ k := by
  have h1 : 2 ^ k < 2 ^ 64 := Nat.pow_lt_pow_right (by decide) hk
  have h2 : 0 < 2 ^ k := Nat.two_pow_pos k
  unfold size_t_neg
  rw [Nat.mod_eq_of_lt h1]
  omega

theorem size_t_add_sub_one (o a : Nat) (ha : 0 < a) (ho : o + a - 1 < 2 ^ 64) :
    size_t_sub (size_t_add o a) 1 = o + a - 1 := by
  unfold size_t_sub size_t_add
  omega

/-- The mask `2^64 - 2^k` clears the `k` low bits of a 64 bit value. -/
theorem land_neg_two_pow (x k : Nat) (hx : x < 2 ^ 64) (hk : k < 64) :
    x &&& (2 ^ 64 - 2 ^ k) = x - x % 2 ^ k := by
  have hpos : 0 < 2 ^ k := Nat.two_pow_pos k
  have hmask : 2 ^ 64 - 2 ^ k = 2 ^ 64 - ((2 ^ k - 1) + 1) := by omega
  have hlt : 2 ^ k - 1 < 2 ^ 64 := by
    have : 2 ^ k < 2 ^ 64 := Nat.pow_lt_pow_right (by decide) hk
    omega
  have hr : x - x % 2 ^ k = 2 ^ k * (x / 2 ^ k) := by
    have := Nat.div_add_mod x (2 ^ k)
    omega
  rw [hr, hmask]
  apply Nat.eq_of_testBit_eq
  intro i
  rw [Nat.testBit_and, Nat.testBit_two_pow_sub_succ hlt, Nat.testBit_two_pow_sub_one,
    Nat.testBit_mul_pow_two, ← Nat.shiftRight_eq_div_pow, Nat.testBit_shiftRight]
  by_cases hik : k ≤ i
  · have hki : k + (i - k) = i := by omega
    by_cases hi : i < 64
    · have hnot : ¬ i < k := by omega
      simp [hik, hi, hnot, hki]
    · have hx2 : x.testBit i = false := by
        apply Nat.testBit_lt_two_pow
        exact lt_of_lt_of_le hx (Nat.pow_le_pow_right (by decide) (by omega))
      simp [hx2, hki, hi]
  · have hlt2 : i < k := by omega
    simp [hik, hlt2]

/-- The test `offset_is_aligned` against a power of two is divisibility. -/
theorem offset_is_aligned_aux (offset k : Nat) (hk : k < 64) (_hoffset : offset < 2 ^ 64) :
    offset_is_aligned offset (2 ^ k) = true ↔ 2 ^ k ∣ offset := by
  unfold offset_is_aligned
  rw [size_t_sub_one_two_pow k hk, Nat.and_pow_two_sub_one_eq_mod]
  simp [Nat.dvd_iff_mod_eq_zero]

/-- C21: for an alignment that is a power of two and an offset of type
`size_t`, `offset_is_aligned(offset, alignment)` is true exactly when the
alignment divides the offset. -/
theorem offset_is_aligned_iff_dvd (offset alignment k : Nat) (hpow : alignment = 2 ^ k)
    (hk : k < 64) (hoffset : offset < 2 ^ 64) :
    offset_is_aligned offset alignment = true ↔ alignment ∣ offset := by
  subst hpow
  exact offset_is_aligned_aux offset k hk hoffset

/-- Witness of C21: offset 24 and alignment 8. -/
theorem offset_is_aligned_iff_dvd_witness :
    (8 = 2 ^ 3 ∧ 3 < 64 ∧ 24 < 2 ^ 64) ∧ (offset_is_aligned 24 8 = true ↔ 8 ∣ 24) :=
  ⟨⟨(by decide), (by decide), (by decide)⟩,
    offset_is_aligned_iff_dvd 24 8 3 (by decide) (by decide) (by decide)⟩

/-- The value of `inc_to_alignment` for a power of two. -/
theorem inc_to_alignment_eq (o k : Nat) (hk : k < 64) (hno : o + 2 ^ k - 1 < 2 ^ 64) :
    inc_to_alignment o (2 ^ k) = (o + 2 ^ k - 1) - (o + 2 ^ k - 1) % 2 ^ k := by
  unfold inc_to_alignment
  rw [size_t_add_sub_one o (2 ^ k) (Nat.two_pow_pos k) hno, size_t_neg_two_pow k hk,
    land_neg_two_pow _ k hno hk]

/-- C22: for an alignment `a` that is a power of two and an offset `o` with
`o + a - 1` below 2^64, `inc_to_alignment(o, a)` is aligned, lies in
`[o, o + a)`, is at most every multiple of `a` that is at least `o`, equals
`o` exactly when `o` is aligned, and is a fixed point of
`inc_to_alignment(., a)`. -/
theorem inc_to_alignment_least_multiple (o a k : Nat) (hpow : a = 2 ^ k) (hk : k < 64)
    (hno : o + a - 1 < 2 ^ 64) :
    offset_is_aligned (inc_to_alignment o a) a = true ∧
    o ≤ inc_to_alignment o a ∧ inc_to_alignment o a < o + a ∧
    (∀ m, a ∣ m → o ≤ m → inc_to_alignment o a ≤ m) ∧
    (inc_to_alignment o a = o ↔ offset_is_aligned o a = true) ∧
    inc_to_alignment (inc_to_alignment o a) a = inc_to_alignment o a := by
  subst hpow
  have hpos : 0 < 2 ^ k := Nat.two_pow_pos k
  have h64 : 2 ^ k ∣ 2 ^ 64 := Nat.pow_dvd_pow 2 (by omega)
  have hr := inc_to_alignment_eq o k hk hno
  have hmod : (o + 2 ^ k - 1) % 2 ^ k < 2 ^ k := Nat.mod_lt _ hpos
  have hdvd : 2 ^ k ∣ inc_to_alignment o (2 ^ k) := by
    rw [hr]
    exact Nat.dvd_sub_mod _
  have hlo : o ≤ inc_to_alignment o (2 ^ k) := by
    rw [hr]
    omega
  have hhi : inc_to_alignment o (2 ^ k) < o + 2 ^ k := by
    rw [hr]
    omega
  have hleast : ∀ m, 2 ^ k ∣ m → o ≤ m → inc_to_alignment o (2 ^ k) ≤ m := by
    intro m hm hom
    by_contra hcon
    have hgt : m < inc_to_alignment o (2 ^ k) := by omega
    have hd : 2 ^ k ∣ inc_to_alignment o (2 ^ k) - m := Nat.dvd_sub' hdvd hm
    have := Nat.le_of_dvd (by omega) hd
    omega
  have haligned : ∀ x, x < 2 ^ 64 → (offset_is_aligned x (2 ^ k) = true ↔ 2 ^ k ∣ x) :=
    fun x hx => offset_is_aligned_aux x k hk hx
  have hfix : ∀ x, 2 ^ k ∣ x → x < 2 ^ 64 → inc_to_alignment x (2 ^ k) = x := by
    intro x hx hx64
    have hd : 2 ^ k ∣ 2 ^ 64 - x := Nat.dvd_sub' h64 hx
    have hle := Nat.le_of_dvd (by omega) hd
    have hno2 : x + 2 ^ k - 1 < 2 ^ 64 := by omega
    rw [inc_to_alignment_eq x k hk hno2]
    obtain ⟨c, rfl⟩ := hx
    have : (2 ^ k * c + 2 ^ k - 1) % 2 ^ k = 2 ^ k - 1 := by
      have h1 : 2 ^ k * c + 2 ^ k - 1 = (2 ^ k - 1) + 2 ^ k * c := by omega
      rw [h1, Nat.add_mul_mod_self_left]
      exact Nat.mod_eq_of_lt (by omega)
    omega
  have hr64 : inc_to_alignment o (2 ^ k) < 2 ^ 64 := by
    rw [hr]
    omega
  refine ⟨(haligned _ hr64).2 hdvd, hlo, hhi, hleast, ?_, hfix _ hdvd hr64⟩
  have ho64 : o < 2 ^ 64 := by omega
  rw [haligned o ho64]
  constructor
  · intro h
    rw [← h]
    exact hdvd
  · intro h
    exact hfix o h ho64

/-! ## Stripping array dimensions -/

/-- C27: with `ndim` the number of array dimensions of the handle (as a
`size_t`), `get_dtype(include_ndim)` returns the handle itself when
`include_ndim == ndim`, returns what the descriptor's `get_type_at_dimension`
returns for the dimension `ndim - include_ndim` when `include_ndim < ndim`,
and raises `type_error` when `include_ndim > ndim`.  On a builtin handle
`get_dtype(0)` returns the handle itself, `get_dtype(k)` raises `type_error`
for every `k > 0`, and the descriptor pointer is never dereferenced. -/
theorem get_dtype_cases (L : Lib) (V : Virtual) (H : Memory) (t : ndt.type) (include_ndim : Nat)
    (inout_arrmeta : Option Int) (hinc : include_ndim < 2 ^ 64) :
    (include_ndim = to_size_t (ndt.type.get_ndim L H t) →
      ndt.type.get_dtype L V H t include_ndim inout_arrmeta =
        ((Except.ok t, inout_arrmeta), [])) ∧
    (include_ndim < to_size_t (ndt.type.get_ndim L H t) →
      ndt.type.get_dtype L V H t include_ndim inout_arrmeta =
        (V.get_type_at_dimension H t.m_ptr inout_arrmeta
          (to_ptrdiff (to_size_t (ndt.type.get_ndim L H t) - include_ndim)) 0, [t.m_ptr]) ∧
      (to_size_t (ndt.type.get_ndim L H t) - include_ndim < 2 ^ 63 →
        to_ptrdiff (to_size_t (ndt.type.get_ndim L H t) - include_ndim) =
          ((to_size_t (ndt.type.get_ndim L H t) - include_ndim : Nat) : Int))) ∧
    (to_size_t (ndt.type.get_ndim L H t) < include_ndim →
      ndt.type.get_dtype L V H t include_ndim inout_arrmeta =
        ((Except.error exception.type_error, inout_arrmeta), [])) ∧
    (ndt.type.is_builtin L t = true →
      ndt.type.get_dtype L V H t 0 inout_arrmeta = ((Except.ok t, inout_arrmeta), []) ∧
      (0 < include_ndim →
        ndt.type.get_dtype L V H t include_ndim inout_arrmeta =
          ((Except.error exception.type_error, inout_arrmeta), []))) := by
  have hnd : to_size_t (ndt.type.get_ndim L H t) < 2 ^ 64 := by
    unfold to_size_t
    omega
  refine ⟨?_, ?_, ?_, ?_⟩
  · intro h
    simp [ndt.type.get_dtype, h]
  · intro h
    have hne : ¬ to_size_t (ndt.type.get_ndim L H t) = include_ndim := by omega
    have hsub : size_t_sub (to_size_t (ndt.type.get_ndim L H t)) include_ndim =
        to_size_t (ndt.type.get_ndim L H t) - include_ndim := by
      unfold size_t_sub
      omega
    refine ⟨?_, fun hlt => to_ptrdiff_of_lt _ hlt⟩
    simp [ndt.type.get_dtype, hne, h, hsub]
  · intro h
    have hne : ¬ to_size_t (ndt.type.get_ndim L H t) = include_ndim := by omega
    have hgt : ¬ include_ndim < to_size_t (ndt.type.get_ndim L H t) := by omega
    simp [ndt.type.get_dtype, hne, hgt]
  · intro hb
    have hz : to_size_t (ndt.type.get_ndim L H t) = 0 := by
      simp [ndt.type.get_ndim, hb, to_size_t]
    refine ⟨by simp [ndt.type.get_dtype, hz], ?_⟩
    intro hk
    have hne : ¬ 0 = include_ndim := by omega
    simp [ndt.type.get_dtype, hz, hne]

/-- Witness of C27: the descriptor at 32 of the sample, which has 3 array
dimensions, and the builtin handle 6. -/
theorem get_dtype_cases_witness :
    (3 < 2 ^ 64 ∧ 3 = to_size_t (ndt.type.get_ndim sample_lib sample_dim_memory ⟨32⟩) ∧
      ndt.type.is_builtin sample_lib ⟨6⟩ = true) ∧
    ndt.type.get_dtype sample_lib sample_virtual sample_dim_memory ⟨32⟩ 3 (some 100) =
      ((Except.ok ⟨32⟩, some 100), []) ∧
    ndt.type.get_dtype sample_lib sample_virtual sample_dim_memory ⟨32⟩ 1 (some 100) =
      (sample_virtual.get_type_at_dimension sample_dim_memory 32 (some 100) 2 0, [32]) ∧
    ndt.type.get_dtype sample_lib sample_virtual sample_dim_memory ⟨32⟩ 4 (some 100) =
      ((Except.error exception.type_error, some 100), []) ∧
    ndt.type.get_dtype sample_lib sample_virtual sample_dim_memory ⟨6⟩ 2 (some 100) =
      ((Except.error exception.type_error, some 100), []) :=
  ⟨⟨(by decide), (by decide), (by decide)⟩,
    (get_dtype_cases sample_lib sample_virtual sample_dim_memory ⟨32⟩ 3 (some 100)
      (by decide)).1 (by decide),
    ((get_dtype_cases sample_lib sample_virtual sample_dim_memory ⟨32⟩ 1 (some 100)
      (by decide)).2.1 (by decide)).1,
    (get_dtype_cases sample_lib sample_virtual sample_dim_memory ⟨32⟩ 4 (some 100)
      (by decide)).2.2.1 (by decide),
    ((get_dtype_cases sample_lib sample_virtual sample_dim_memory ⟨6⟩ 2 (some 100)
      (by decide)).2.2.2 (by decide)).2 (by decide)⟩

/-- Witness of C22: offset 13 and alignment 8. -/
theorem inc_to_alignment_least_multiple_witness :
    (8 = 2 ^ 3 ∧ 3 < 64 ∧ 13 + 8 - 1 < 2 ^ 64) ∧
    inc_to_alignment 13 8 = 16 ∧
    offset_is_aligned (inc_to_alignment 13 8) 8 = true ∧
    13 ≤ inc_to_alignment 13 8 ∧ inc_to_alignment 13 8 < 13 + 8 ∧
    inc_to_alignment (inc_to_alignment 13 8) 8 = inc_to_alignment 13 8 := by
  have h := inc_to_alignment_least_multiple 13 8 3 (by decide) (by decide) (by decide)
  exact ⟨⟨(by decide), (by decide), (by decide)⟩, (by decide), h.1, h.2.1, h.2.2.1, h.2.2.2.2.2⟩

/-! ## The combinators of functional.cpp -/

theorem lor_ne_zero_of_right (a b : Nat) (hb : b ≠ 0) : a ||| b ≠ 0 := by
  intro h
  obtain ⟨i, hi⟩ := Nat.ne_zero_implies_bit_true hb
  have h2 : (a ||| b).testBit i = true := by simp [hi]
  rw [h] at h2
  simp at h2

theorem reduction_compound_eq_left (C : CallableLib) (c : base_callable)
    (hra : C.right_associative ≠ 0) : reduction_compound C c = some (left_compound c) := by
  have h := lor_ne_zero_of_right (c.get_flags C) C.right_associative hra
  simp [reduction_compound, h]

theorem reduction_unary (C : CallableLib) (n : Nat) (c : base_callable) (arg0 : ndt.type)
    (h : c.get_type.pos_types = [arg0]) :
    reduction C (n + 1) (some c) =
      some (Except.ok (base_callable.reduction_dispatch_callable (reduction_type C c arg0) c)) := by
  simp [reduction, h]

theorem reduction_binary (C : CallableLib) (n : Nat) (c : base_callable) (arg0 arg1 : ndt.type)
    (h : c.get_type.pos_types = [arg0, arg1]) :
    reduction C (n + 1) (some c) =
      match reduction_compound C c with
      | none => none
      | some compound => reduction C n (some compound) := by
  simp [reduction, h]

theorem reduction_other (C : CallableLib) (n : Nat) (c : base_callable)
    (h1 : c.get_narg ≠ 1) (h2 : c.get_narg ≠ 2) :
    reduction C (n + 1) (some c) = some (Except.error exception.invalid_argument) := by
  unfold base_callable.get_narg callable_type.get_npos at h1 h2
  rcases hp : c.get_type.pos_types with _ | ⟨a, _ | ⟨b, _ | ⟨d, rest⟩⟩⟩
  · simp [reduction, hp]
  · simp [hp] at h1
  · simp [hp] at h2
  · simp [reduction, hp]

/-- The positional types of a callable with `get_narg() == 2`. -/
theorem pos_types_of_narg_two (c : base_callable) (h : c.get_narg = 2) :
    ∃ arg0 arg1, c.get_type.pos_types = [arg0, arg1] := by
  unfold base_callable.get_narg callable_type.get_npos at h
  rcases hp : c.get_type.pos_types with _ | ⟨a, _ | ⟨b, _ | ⟨d, rest⟩⟩⟩
  · simp [hp] at h
  · simp [hp] at h
  · exact ⟨a, b, rfl⟩
  · simp [hp] at h

/-- The positional types of a callable with `get_narg() == 1`. -/
theorem pos_types_of_narg_one (c : base_callable) (h : c.get_narg = 1) :
    ∃ arg0, c.get_type.pos_types = [arg0] := by
  unfold base_callable.get_narg callable_type.get_npos at h
  rcases hp : c.get_type.pos_types with _ | ⟨a, _ | ⟨b, rest⟩⟩
  · simp [hp] at h
  · exact ⟨a, rfl⟩
  · simp [hp] at h

/-- C23, at the failing input: for the binary child `sample_binary`, whose
flags do not contain the bit `right_associative`, `reduction` selects
`left_compound(child)`, as it does for the same child with the bit set;
`right_compound(child)` is a different callable. -/
theorem reduction_compound_ignores_flag :
    (sample_binary.get_narg = 2 ∧
      sample_binary.get_flags sample_callable_lib &&& sample_callable_lib.right_associative = 0) ∧
    reduction_compound sample_callable_lib sample_binary = some (left_compound sample_binary) ∧
    reduction_compound sample_callable_lib
        (base_callable.other sample_binary.get_type sample_callable_lib.right_associative 1) =
      some (left_compound
        (base_callable.other sample_binary.get_type sample_callable_lib.right_associative 1)) ∧
    right_compound sample_binary ≠ some (left_compound sample_binary) ∧
    reduction sample_callable_lib 2 (some sample_binary) =
      reduction sample_callable_lib 1 (some (left_compound sample_binary)) :=
  ⟨(by decide), (by decide), (by decide), (by decide), rfl⟩

/-- C24: given that the flag `right_associative` is not 0, `reduction(child)`
raises `invalid_argument` exactly when the child is null or its number of
arguments is neither 1 nor 2, and raises nothing else; a null child is
rejected whatever else holds; for a child with 1 or 2 arguments it returns a
`reduction_dispatch_callable` whose return type is the child's return type
made variadic, whose only positional type is the child's first argument type
made variadic, and whose keywords are `axes`, `identity` and `keepdims`, each
of an option type. -/
theorem reduction_result (C : CallableLib) (n : Nat) (hra : C.right_associative ≠ 0) :
    reduction C (n + 2) none = some (Except.error exception.invalid_argument) ∧
    (∀ child : callable,
      (∃ x, reduction C (n + 2) child = some (Except.error x)) ↔
        (child = none ∨ ∃ c, child = some c ∧ c.get_narg ≠ 1 ∧ c.get_narg ≠ 2)) ∧
    (∀ (child : callable) x, reduction C (n + 2) child = some (Except.error x) →
      x = exception.invalid_argument) ∧
    (∀ c : base_callable, c.get_narg = 1 ∨ c.get_narg = 2 →
      ∃ arg0 rest tp made, c.get_type.pos_types = arg0 :: rest ∧
        reduction C (n + 2) (some c) =
          some (Except.ok (base_callable.reduction_dispatch_callable tp made)) ∧
        tp.return_type = C.make_if_not_variadic c.get_ret_type ∧
        tp.pos_types = [C.make_if_not_variadic arg0] ∧
        tp.kwd_types = [(C.option_type C.fixed_int32, "axes"),
          (C.option_type c.get_ret_type, "identity"),
          (C.option_type (ndt.traits_equivalent C.bool1_id), "keepdims")] ∧
        (c.get_narg = 1 → made = c) ∧ (c.get_narg = 2 → made = left_compound c)) := by
  have hbin : ∀ (c : base_callable) (arg0 arg1 : ndt.type),
      c.get_type.pos_types = [arg0, arg1] →
      reduction C (n + 2) (some c) =
        some (Except.ok (base_callable.reduction_dispatch_callable
          (reduction_type C (left_compound c) arg0) (left_compound c))) := by
    intro c arg0 arg1 hp
    rw [reduction_binary C (n + 1) c arg0 arg1 hp, reduction_compound_eq_left C c hra]
    have hleft : (left_compound c).get_type.pos_types = [arg0] := by
      show resize_1 c.get_type.pos_types = [arg0]
      rw [hp]
      rfl
    exact reduction_unary C n (left_compound c) arg0 hleft
  have hcases : ∀ c : base_callable,
      (c.get_narg ≠ 1 ∧ c.get_narg ≠ 2 ∧
        reduction C (n + 2) (some c) = some (Except.error exception.invalid_argument)) ∨
      (∃ tp made, reduction C (n + 2) (some c) =
        some (Except.ok (base_callable.reduction_dispatch_callable tp made)) ∧
        (c.get_narg = 1 ∨ c.get_narg = 2)) := by
    intro c
    by_cases h1 : c.get_narg = 1
    · obtain ⟨arg0, hp⟩ := pos_types_of_narg_one c h1
      exact Or.inr ⟨_, _, reduction_unary C (n + 1) c arg0 hp, Or.inl h1⟩
    · by_cases h2 : c.get_narg = 2
      · obtain ⟨arg0, arg1, hp⟩ := pos_types_of_narg_two c h2
        exact Or.inr ⟨_, _, hbin c arg0 arg1 hp, Or.inr h2⟩
      · exact Or.inl ⟨h1, h2, reduction_other C (n + 1) c h1 h2⟩
  refine ⟨rfl, ?_, ?_, ?_⟩
  · intro child
    cases child with
    | none => exact ⟨fun _ => Or.inl rfl, fun _ => ⟨_, rfl⟩⟩
    | some c =>
      constructor
      · rintro ⟨x, hx⟩
        rcases hcases c with ⟨h1, h2, _⟩ | ⟨tp, made, hok, _⟩
        · exact Or.inr ⟨c, rfl, h1, h2⟩
        · rw [hok] at hx
          cases hx
      · rintro (h | ⟨c2, hc, h1, h2⟩)
        · cases h
        · cases hc
          exact ⟨_, reduction_other C (n + 1) c h1 h2⟩
  · intro child x hx
    cases child with
    | none =>
      have h0 : reduction C (n + 2) none = some (Except.error exception.invalid_argument) := rfl
      rw [h0] at hx
      cases hx
      rfl
    | some c =>
      rcases hcases c with ⟨_, _, herr⟩ | ⟨tp, made, hok, _⟩
      · rw [herr] at hx
        cases hx
        rfl
      · rw [hok] at hx
        cases hx
  · intro c hc
    rcases hc with h1 | h2
    · obtain ⟨arg0, hp⟩ := pos_types_of_narg_one c h1
      refine ⟨arg0, [], reduction_type C c arg0, c, hp, reduction_unary C (n + 1) c arg0 hp,
        rfl, rfl, rfl, fun _ => rfl, fun h => ?_⟩
      omega
    · obtain ⟨arg0, arg1, hp⟩ := pos_types_of_narg_two c h2
      refine ⟨arg0, [arg1], reduction_type C (left_compound c) arg0, left_compound c, hp,
        hbin c arg0 arg1 hp, rfl, rfl, rfl, fun h => ?_, fun _ => rfl⟩
      omega

/-- Witness of C24: the sample library, whose flag `right_associative` is 2,
with the null callable and the sample callable without parameters. -/
theorem reduction_result_witness :
    sample_callable_lib.right_associative ≠ 0 ∧
    reduction sample_callable_lib 2 none = some (Except.error exception.invalid_argument) ∧
    (∀ x, reduction sample_callable_lib 2 (some sample_nullary) = some (Except.error x) →
      x = exception.invalid_argument) :=
  ⟨(by decide), (reduction_result sample_callable_lib 0 (by decide)).1,
    (reduction_result sample_callable_lib 0 (by decide)).2.2.1 (some sample_nullary)⟩

/-- C25: `compose(first, second, buf_tp)` returns exactly when `first` has one
positional parameter, `second` has one positional parameter and `buf_tp` is not
the uninitialized type; the three checks are made in this order and raise
`runtime_error`, `invalid_argument` and `runtime_error`; the callable returned
has the return type of `second` and the positional types of `first`. -/
theorem compose_checks (L : Lib) (C : CallableLib) (H : Memory) (first second : base_callable)
    (buf_tp : ndt.type) :
    (first.get_type.get_npos ≠ 1 →
      compose L C H first second buf_tp = Except.error exception.runtime_error) ∧
    (first.get_type.get_npos = 1 → second.get_type.get_npos ≠ 1 →
      compose L C H first second buf_tp = Except.error exception.invalid_argument) ∧
    (first.get_type.get_npos = 1 → second.get_type.get_npos = 1 →
      ndt.type.get_id L H buf_tp = C.uninitialized_id →
      compose L C H first second buf_tp = Except.error exception.runtime_error) ∧
    (first.get_type.get_npos = 1 → second.get_type.get_npos = 1 →
      ndt.type.get_id L H buf_tp ≠ C.uninitialized_id →
      ∃ r, compose L C H first second buf_tp = Except.ok r ∧
        r = base_callable.compose_callable r.get_type first second buf_tp ∧
        r.get_type.return_type = second.get_type.return_type ∧
        r.get_type.pos_types = first.get_type.pos_types) ∧
    ((∃ r, compose L C H first second buf_tp = Except.ok r) ↔
      (first.get_type.get_npos = 1 ∧ second.get_type.get_npos = 1 ∧
        ndt.type.get_id L H buf_tp ≠ C.uninitialized_id)) := by
  have h1 : first.get_type.get_npos ≠ 1 →
      compose L C H first second buf_tp = Except.error exception.runtime_error := by
    intro h
    simp [compose, h]
  have h2 : first.get_type.get_npos = 1 → second.get_type.get_npos ≠ 1 →
      compose L C H first second buf_tp = Except.error exception.invalid_argument := by
    intro ha hb
    simp [compose, ha, hb]
  have h3 : first.get_type.get_npos = 1 → second.get_type.get_npos = 1 →
      ndt.type.get_id L H buf_tp = C.uninitialized_id →
      compose L C H first second buf_tp = Except.error exception.runtime_error := by
    intro ha hb hc
    simp [compose, ha, hb, hc]
  have h4 : first.get_type.get_npos = 1 → second.get_type.get_npos = 1 →
      ndt.type.get_id L H buf_tp ≠ C.uninitialized_id →
      compose L C H first second buf_tp = Except.ok (base_callable.compose_callable
        ⟨second.get_type.return_type, first.get_type.pos_types, []⟩ first second buf_tp) := by
    intro ha hb hc
    simp [compose, ha, hb, hc]
  refine ⟨h1, h2, h3, ?_, ?_⟩
  · intro ha hb hc
    exact ⟨_, h4 ha hb hc, rfl, rfl, rfl⟩
  · constructor
    · rintro ⟨r, hr⟩
      by_cases ha : first.get_type.get_npos = 1
      · by_cases hb : second.get_type.get_npos = 1
        · by_cases hc : ndt.type.get_id L H buf_tp = C.uninitialized_id
          · rw [h3 ha hb hc] at hr
            cases hr
          · exact ⟨ha, hb, hc⟩
        · rw [h2 ha hb] at hr
          cases hr
      · rw [h1 ha] at hr
        cases hr
    · rintro ⟨ha, hb, hc⟩
      exact ⟨_, h4 ha hb hc⟩

/-- Witness of C25: two unary callables with the intermediate type 7, and the
failures of each check. -/
theorem compose_checks_witness :
    (sample_binary.get_type.get_npos ≠ 1 ∧ sample_unary.get_type.get_npos = 1 ∧
      ndt.type.get_id sample_lib sample_memory ⟨7⟩ ≠ sample_callable_lib.uninitialized_id ∧
      ndt.type.get_id sample_lib sample_memory ⟨0⟩ = sample_callable_lib.uninitialized_id) ∧
    compose sample_lib sample_callable_lib sample_memory sample_binary sample_binary ⟨0⟩ =
      Except.error exception.runtime_error ∧
    compose sample_lib sample_callable_lib sample_memory sample_unary sample_binary ⟨0⟩ =
      Except.error exception.invalid_argument ∧
    compose sample_lib sample_callable_lib sample_memory sample_unary sample_unary ⟨0⟩ =
      Except.error exception.runtime_error ∧
    (∃ r, compose sample_lib sample_callable_lib sample_memory sample_unary sample_unary ⟨7⟩ =
      Except.ok r ∧
      r = base_callable.compose_callable r.get_type sample_unary sample_unary ⟨7⟩ ∧
      r.get_type.return_type = sample_unary.get_type.return_type ∧
      r.get_type.pos_types = sample_unary.get_type.pos_types) :=
  ⟨⟨(by decide), (by decide), (by decide), (by decide)⟩,
    (compose_checks sample_lib sample_callable_lib sample_memory sample_binary sample_binary
      ⟨0⟩).1 (by decide),
    (compose_checks sample_lib sample_callable_lib sample_memory sample_unary sample_binary
      ⟨0⟩).2.1 (by decide) (by decide),
    (compose_checks sample_lib sample_callable_lib sample_memory sample_unary sample_unary
      ⟨0⟩).2.2.1 (by decide) (by decide) (by decide),
    (compose_checks sample_lib sample_callable_lib sample_memory sample_unary sample_unary
      ⟨7⟩).2.2.2.1 (by decide) (by decide) (by decide)⟩

/-- C26, at the failing input: for the child `sample_nullary`, which has no
positional parameter, `left_compound` has one positional type, the
default-constructed type, where the claim and the comment in the source say
"empty", and `right_compound` erases the first element of an empty vector,
which is undefined.  For the unary and the binary sample `left_compound` has
the head and `right_compound` the tail of the positional types, with the
return type of the child. -/
theorem compound_of_nullary_child :
    sample_nullary.get_type.pos_types = [] ∧
    (left_compound sample_nullary).get_type.pos_types = [⟨0⟩] ∧
    (left_compound sample_nullary).get_type.pos_types ≠ [] ∧
    right_compound sample_nullary = none ∧
    (left_compound sample_binary).get_type = ⟨⟨8⟩, [⟨6⟩], []⟩ ∧
    (right_compound sample_binary).map base_callable.get_type = some ⟨⟨8⟩, [⟨7⟩], []⟩ ∧
    (right_compound sample_unary).map base_callable.get_type = some ⟨⟨8⟩, [], []⟩ := by
  decide

/-- With two positional types the argument of the recursive call exists and has
one positional type. -/
theorem reduction_compound_binary (C : CallableLib) (c : base_callable) (arg0 arg1 : ndt.type)
    (hp : c.get_type.pos_types = [arg0, arg1]) :
    (left_compound c).get_type.pos_types = [arg0] ∧
    (∃ rc, right_compound c = some rc ∧ rc.get_type.pos_types = [arg1]) ∧
    ∃ compound x, reduction_compound C c = some compound ∧
      compound.get_type.pos_types = [x] := by
  have hleft : (left_compound c).get_type.pos_types = [arg0] := by
    show resize_1 c.get_type.pos_types = [arg0]
    rw [hp]
    rfl
  have hright : right_compound c = some (base_callable.right_compound_callable
      ⟨c.get_type.return_type, [arg1], []⟩ c) := by
    simp [right_compound, erase_begin, hp]
  refine ⟨hleft, ⟨_, hright, rfl⟩, ?_⟩
  unfold reduction_compound
  split
  · exact ⟨_, arg0, rfl, hleft⟩
  · exact ⟨_, arg1, hright, rfl⟩

/-- C29: `reduction` returns for every child with a recursion depth of 2, and
more fuel does not change the result; a child that is null or whose number of
arguments is not 2 is handled without recursion; for a binary child the call
itself does not suffice, the compound it builds (`left_compound` keeps one
positional type, `right_compound` drops one of two) has one positional
parameter, and the one recursive call on it returns without recursion. -/
theorem reduction_terminates (C : CallableLib) :
    (∀ child : callable, ∃ r, reduction C 2 child = some r) ∧
    (∀ (n : Nat) (child : callable), reduction C (n + 2) child = reduction C 2 child) ∧
    (∀ child : callable, (child = none ∨ ∃ c, child = some c ∧ c.get_narg ≠ 2) →
      ∃ r, reduction C 1 child = some r) ∧
    (∀ c : base_callable, c.get_narg = 2 →
      reduction C 1 (some c) = none ∧
      (left_compound c).get_narg = 1 ∧
      (∀ rc, right_compound c = some rc → rc.get_narg = 1) ∧
      ∃ compound, reduction_compound C c = some compound ∧ compound.get_narg = 1 ∧
        reduction C 2 (some c) = reduction C 1 (some compound) ∧
        ∃ r, reduction C 1 (some compound) = some r) := by
  have hnot2 : ∀ (n : Nat) (c : base_callable), c.get_narg ≠ 2 →
      ∃ r, reduction C (n + 1) (some c) = some r ∧ reduction C 1 (some c) = some r := by
    intro n c h2
    by_cases h1 : c.get_narg = 1
    · obtain ⟨arg0, hp⟩ := pos_types_of_narg_one c h1
      exact ⟨_, reduction_unary C n c arg0 hp, reduction_unary C 0 c arg0 hp⟩
    · exact ⟨_, reduction_other C n c h1 h2, reduction_other C 0 c h1 h2⟩
  have hbin : ∀ (n : Nat) (c : base_callable), c.get_narg = 2 →
      ∃ compound r, reduction_compound C c = some compound ∧ compound.get_narg = 1 ∧
        reduction C 1 (some compound) = some r ∧
        reduction C (n + 2) (some c) = some r := by
    intro n c h2
    obtain ⟨arg0, arg1, hp⟩ := pos_types_of_narg_two c h2
    obtain ⟨_, _, compound, x, hcomp, hx⟩ := reduction_compound_binary C c arg0 arg1 hp
    refine ⟨compound, _, hcomp, ?_, reduction_unary C 0 compound x hx, ?_⟩
    · simp [base_callable.get_narg, callable_type.get_npos, hx]
    · rw [reduction_binary C (n + 1) c arg0 arg1 hp, hcomp]
      exact reduction_unary C n compound x hx
  refine ⟨?_, ?_, ?_, ?_⟩
  · intro child
    cases child with
    | none => exact ⟨_, rfl⟩
    | some c =>
      by_cases h2 : c.get_narg = 2
      · obtain ⟨_, r, _, _, _, hr⟩ := hbin 0 c h2
        exact ⟨r, hr⟩
      · obtain ⟨r, hr, _⟩ := hnot2 1 c h2
        exact ⟨r, hr⟩
  · intro n child
    cases child with
    | none => rfl
    | some c =>
      by_cases h2 : c.get_narg = 2
      · obtain ⟨k1, r1, hk1, _, hr1, hn⟩ := hbin n c h2
        obtain ⟨k2, r2, hk2, _, hr2, h0⟩ := hbin 0 c h2
        rw [hk1] at hk2
        cases hk2
        rw [hn, h0, ← hr1, ← hr2]
      · obtain ⟨r1, hn, h1⟩ := hnot2 (n + 1) c h2
        obtain ⟨r2, h0, h1b⟩ := hnot2 1 c h2
        rw [hn, h0, ← h1, ← h1b]
  · rintro child (h | ⟨c, hc, h2⟩)
    · subst h
      exact ⟨_, rfl⟩
    · subst hc
      obtain ⟨r, hr, _⟩ := hnot2 0 c h2
      exact ⟨r, hr⟩
  · intro c h2
    obtain ⟨arg0, arg1, hp⟩ := pos_types_of_narg_two c h2
    obtain ⟨hleft, ⟨rc0, hrc0, hrc0p⟩, _⟩ := reduction_compound_binary C c arg0 arg1 hp
    obtain ⟨compound, r, hcomp, hnarg, hr1, hr2⟩ := hbin 0 c h2
    refine ⟨?_, ?_, ?_, compound, hcomp, hnarg, ?_, r, hr1⟩
    · rw [reduction_binary C 0 c arg0 arg1 hp, hcomp]
      rfl
    · simp [base_callable.get_narg, callable_type.get_npos, hleft]
    · intro rc hrc
      rw [hrc0] at hrc
      cases hrc
      simp [base_callable.get_narg, callable_type.get_npos, hrc0p]
    · rw [hr2, hr1]

/-- Witness of C29: the binary and the unary sample callable. -/
theorem reduction_terminates_witness :
    (sample_binary.get_narg = 2 ∧ sample_unary.get_narg ≠ 2) ∧
    reduction sample_callable_lib 1 (some sample_binary) = none ∧
    (∃ r, reduction sample_callable_lib 2 (some sample_binary) = some r) ∧
    (∃ r, reduction sample_callable_lib 1 (some sample_unary) = some r) :=
  ⟨⟨(by decide), (by decide)⟩,
    ((reduction_terminates sample_callable_lib).2.2.2 sample_binary (by decide)).1,
    (reduction_terminates sample_callable_lib).1 (some sample_binary),
    (reduction_terminates sample_callable_lib).2.2.1 (some sample_unary)
      (Or.inr ⟨sample_unary, rfl, (by decide)⟩)⟩

/-! ## The value type of the result of `make_convert_dtype` -/

/-- What the model of `with_replaced_storage_type` returns is a new object, above
the frontier of the memory it was called in, with the kind and the value type of
the object it was called on. -/
theorem with_replaced_storage_type_loop_value (bc : Nat) (R : ndt.type) :
    ∀ (fuel : Nat) (H : Memory) (this_ptr : Nat) (r : ndt.type) (H2 : Memory),
      with_replaced_storage_type_loop bc fuel H this_ptr R = Except.ok (r, H2) →
      H.next ≤ r.m_ptr ∧ H.next ≤ H2.next ∧
      (H2.obj r.m_ptr).get_kind = (H.obj this_ptr).get_kind ∧
      (H2.obj r.m_ptr).get_value_type = (H.obj this_ptr).get_value_type := by
  intro fuel
  induction fuel with
  | zero =>
    intro H this_ptr r H2 h
    simp [with_replaced_storage_type_loop] at h
  | succ n ih =>
    intro H this_ptr r H2 h
    unfold with_replaced_storage_type_loop at h
    by_cases hexp : is_expression_model bc H (H.obj this_ptr).get_operand_type = true
    · rw [if_pos hexp] at h
      cases hrec : with_replaced_storage_type_loop bc n H
          (H.obj this_ptr).get_operand_type.m_ptr R with
      | error e =>
        rw [hrec] at h
        cases h
      | ok x =>
        rw [hrec] at h
        obtain ⟨r1, H1⟩ := x
        obtain ⟨_, hle, _, _⟩ := ih H _ r1 H1 hrec
        simp only [Memory.new, Except.ok.injEq, Prod.mk.injEq] at h
        obtain ⟨hr, hH2⟩ := h
        subst hr
        subst hH2
        simp
        omega
    · rw [if_neg hexp] at h
      simp only [Memory.new, Except.ok.injEq, Prod.mk.injEq] at h
      obtain ⟨hr, hH2⟩ := h
      subst hr
      subst hH2
      simp

/-- The model of `with_replaced_storage_type` satisfies the assumption
`preserves_value_type` on every expression type that is in use. -/
theorem with_replaced_storage_type_model_preserves (bc : Nat) (bk : Nat → type_kind_t) (L : Lib)
    (H : Memory) (V : ndt.type) (hfront : bc ≤ H.next) (hV : V.m_ptr < H.next)
    (hexp : is_expression_model bc H V = true) :
    preserves_value_type bc (spec_lib_with bc bk L (with_replaced_storage_type_model bc)) H V := by
  intro H1 R r H2 hg heq
  obtain ⟨hb, hk⟩ := (is_expression_model_iff bc H V).1 hexp
  obtain ⟨hr, _, hkind, hval⟩ :=
    with_replaced_storage_type_loop_value bc R (V.m_ptr + 1) H1 V.m_ptr r H2 heq
  rw [hg.2 _ hV] at hkind hval
  have hexp2 : is_expression_model bc H2 r = true := by
    rw [is_expression_model_iff, hkind]
    exact ⟨le_trans hfront (le_trans hg.1 hr), hk⟩
  simp [value_type_model, hexp, hexp2, hval, ndt.type.operator_eq]

/-- The type that is not an expression type is its own value type. -/
theorem value_type_model_of_not_expression (bc : Nat) (H : Memory) (V : ndt.type)
    (h : is_expression_model bc H V = false) : value_type_model bc H V = V := by
  simp [value_type_model, h]

/-- A type that compares equal to a type that is not an expression type is not
an expression type, when equal descriptors have the same kind. -/
theorem not_expression_of_operator_eq (bc : Nat) (bk : Nat → type_kind_t) (L : Lib)
    (W : Memory → Nat → ndt.type → Except exception (ndt.type × Memory)) (H : Memory)
    (A V : ndt.type)
    (hkind : ∀ a b, L.descr_eq H a b = true → (H.obj a).get_kind = (H.obj b).get_kind)
    (hA : is_expression_model bc H A = false)
    (heq : ndt.type.operator_eq (spec_lib_with bc bk L W) H A V = true) :
    is_expression_model bc H V = false := by
  cases A with
  | mk a =>
  cases V with
  | mk v =>
  simp only [ndt.type.operator_eq, ndt.type.is_builtin, spec_lib_with, spec_lib,
    Bool.or_eq_true, Bool.and_eq_true, beq_iff_eq, Bool.not_eq_true'] at heq
  rcases heq with h | ⟨⟨ha, hv⟩, hd⟩
  · subst h
    exact hA
  · have hk := hkind a v hd
    simp only [is_expression_model, ha, hv, Bool.not_false, Bool.true_and,
      decide_eq_false_iff_not] at hA ⊢
    rw [← hk]
    exact hA

/-- C28: in a memory whose frontier is above the builtin ids, when the value
type of `O` is not an expression type, descriptors that compare equal have the
same kind, and `with_replaced_storage_type` preserves the value type of `V`,
the value type of every type that `make_convert_dtype(V, O, errmode)` returns
compares equal to `V.value_type()`, which is `V` when `V` is not an expression
type.  Branch by branch: when `O.value_type() == V` the factory returns `O` and
`V` is its own value type; when `V` has another kind than `expression_kind` it
returns a new type whose value type is `V`, which is `V.value_type()`; in the two
other branches it returns what `with_replaced_storage_type` returns on the
descriptor of `V` in a later state of the memory. -/
theorem make_convert_dtype_value_type (bc : Nat) (bk : Nat → type_kind_t) (L : Lib)
    (W : Memory → Nat → ndt.type → Except exception (ndt.type × Memory))
    (V O : ndt.type) (errmode : assign_error_mode) (H : Memory)
    (hfront : bc ≤ H.next)
    (hO : is_expression_model bc H (value_type_model bc H O) = false)
    (hkind : ∀ a b, L.descr_eq H a b = true → (H.obj a).get_kind = (H.obj b).get_kind)
    (hW : preserves_value_type bc (spec_lib_with bc bk L W) H V) :
    (∀ r H2, make_convert_dtype (spec_lib_with bc bk L W) V O errmode H = Except.ok (r, H2) →
      ndt.type.operator_eq (spec_lib_with bc bk L W) H2 (value_type_model bc H2 r)
        (value_type_model bc H V) = true) ∧
    (is_expression_model bc H V = false → value_type_model bc H V = V) ∧
    (ndt.type.operator_eq (spec_lib_with bc bk L W) H (value_type_model bc H O) V = true →
      make_convert_dtype (spec_lib_with bc bk L W) V O errmode H = Except.ok (O, H) ∧
      value_type_model bc H V = V) ∧
    (ndt.type.operator_eq (spec_lib_with bc bk L W) H (value_type_model bc H O) V = false →
      get_kind_model bc bk H V ≠ type_kind_t.expression_kind →
      ∃ r H2, make_convert_dtype (spec_lib_with bc bk L W) V O errmode H = Except.ok (r, H2) ∧
        value_type_model bc H2 r = V ∧ value_type_model bc H V = V) ∧
    (ndt.type.operator_eq (spec_lib_with bc bk L W) H (value_type_model bc H O) V = false →
      get_kind_model bc bk H V = type_kind_t.expression_kind →
      ∃ H1 R, H.grows_to H1 ∧
        make_convert_dtype (spec_lib_with bc bk L W) V O errmode H = W H1 V.extended R) := by
  have hskip : ndt.type.operator_eq (spec_lib_with bc bk L W) H (value_type_model bc H O) V
      = true →
      make_convert_dtype (spec_lib_with bc bk L W) V O errmode H = Except.ok (O, H) ∧
      value_type_model bc H V = V := by
    intro heq
    constructor
    · have hv : (spec_lib_with bc bk L W).value_type H O = value_type_model bc H O := rfl
      simp [make_convert_dtype, ndt.type.operator_ne, hv, heq]
    · exact value_type_model_of_not_expression bc H V
        (not_expression_of_operator_eq bc bk L W H _ V hkind hO heq)
  have hplain : ndt.type.operator_eq (spec_lib_with bc bk L W) H (value_type_model bc H O) V
      = false →
      get_kind_model bc bk H V ≠ type_kind_t.expression_kind →
      make_convert_dtype (spec_lib_with bc bk L W) V O errmode H =
        Except.ok (H.new (convert_dtype.ctor (spec_lib_with bc bk L W) H V O errmode)) ∧
      value_type_model bc (H.new (convert_dtype.ctor (spec_lib_with bc bk L W) H V O errmode)).2
        (H.new (convert_dtype.ctor (spec_lib_with bc bk L W) H V O errmode)).1 = V ∧
      value_type_model bc H V = V := by
    intro hne hk
    have hv : (spec_lib_with bc bk L W).value_type H O = value_type_model bc H O := rfl
    have hg : (spec_lib_with bc bk L W).get_kind H V = get_kind_model bc bk H V := rfl
    refine ⟨?_, ?_, ?_⟩
    · simp [make_convert_dtype, ndt.type.operator_ne, hv, hg, hne, hk]
    · have hexp : is_expression_model bc
          (H.new (convert_dtype.ctor (spec_lib_with bc bk L W) H V O errmode)).2
          (H.new (convert_dtype.ctor (spec_lib_with bc bk L W) H V O errmode)).1 = true := by
        rw [is_expression_model_iff]
        simp [Memory.new, convert_dtype.ctor, hfront]
      simp [value_type_model, hexp]
      simp [Memory.new, convert_dtype.ctor]
    · apply value_type_model_of_not_expression
      cases hx : is_expression_model bc H V with
      | false => rfl
      | true =>
        obtain ⟨hb, hkx⟩ := (is_expression_model_iff bc H V).1 hx
        exfalso
        apply hk
        have hnb : is_builtin_type bc V.m_ptr = false := by
          simp [is_builtin_type]
          exact hb
        simp [get_kind_model, hnb, hkx]
  have hexpr : ndt.type.operator_eq (spec_lib_with bc bk L W) H (value_type_model bc H O) V
      = false →
      get_kind_model bc bk H V = type_kind_t.expression_kind →
      ∃ H1 R, H.grows_to H1 ∧
        make_convert_dtype (spec_lib_with bc bk L W) V O errmode H = W H1 V.extended R := by
    intro hne hk
    have hv : (spec_lib_with bc bk L W).value_type H O = value_type_model bc H O := rfl
    have hg : (spec_lib_with bc bk L W).get_kind H V = get_kind_model bc bk H V := rfl
    have hw : (spec_lib_with bc bk L W).with_replaced_storage_type = W := rfl
    by_cases hst : ndt.type.operator_eq (spec_lib_with bc bk L W) H
        ((spec_lib_with bc bk L W).storage_type H V) (value_type_model bc H O) = true
    · refine ⟨H, O, ⟨le_refl _, fun _ _ => rfl⟩, ?_⟩
      simp [make_convert_dtype, ndt.type.operator_ne, hv, hg, hne, hk, hst, hw]
    · refine ⟨(H.new (convert_dtype.ctor (spec_lib_with bc bk L W) H
          ((spec_lib_with bc bk L W).storage_type H V) O errmode)).2,
        (H.new (convert_dtype.ctor (spec_lib_with bc bk L W) H
          ((spec_lib_with bc bk L W).storage_type H V) O errmode)).1,
        Memory.grows_to_new H (convert_dtype.ctor (spec_lib_with bc bk L W) H
          ((spec_lib_with bc bk L W).storage_type H V) O errmode), ?_⟩
      simp [make_convert_dtype, ndt.type.operator_ne, hv, hg, hne, hk, hst, hw]
  refine ⟨?_, value_type_model_of_not_expression bc H V, hskip, ?_, hexpr⟩
  · intro r H2 hret
    cases heq : ndt.type.operator_eq (spec_lib_with bc bk L W) H (value_type_model bc H O) V with
    | true =>
      obtain ⟨hmk, hVV⟩ := hskip heq
      rw [hmk] at hret
      simp only [Except.ok.injEq, Prod.mk.injEq] at hret
      obtain ⟨hr, hH⟩ := hret
      subst hr
      subst hH
      rw [hVV]
      exact heq
    | false =>
      by_cases hk : get_kind_model bc bk H V = type_kind_t.expression_kind
      · obtain ⟨H1, R, hg, hmk⟩ := hexpr heq hk
        rw [hmk] at hret
        exact hW H1 R r H2 hg hret
      · obtain ⟨hmk, hval, hVV⟩ := hplain heq hk
        rw [hmk] at hret
        simp only [Except.ok.injEq] at hret
        have hr : r = (H.new (convert_dtype.ctor (spec_lib_with bc bk L W) H V O errmode)).1 := by
          rw [hret]
        have hH : H2 = (H.new (convert_dtype.ctor (spec_lib_with bc bk L W) H V O errmode)).2 := by
          rw [hret]
        rw [hr, hH, hval, hVV]
        simp [ndt.type.operator_eq]
  · intro hne hk
    obtain ⟨hmk, hval, hVV⟩ := hplain hne hk
    exact ⟨_, _, hmk, hval, hVV⟩


/-- In the sample memory two descriptors with the same type id have the same
kind. -/
theorem sample_descr_eq_kind (a b : Nat)
    (h : sample_base_lib.descr_eq sample_memory a b = true) :
    (sample_memory.obj a).get_kind = (sample_memory.obj b).get_kind := by
  simp only [sample_base_lib, sample_memory, decide_eq_true_eq] at h ⊢
  split_ifs at h ⊢ <;> simp_all [sample_expression, sample_plain]

/-- Witness of C28, in the branch that inserts a nested convert: `V` is the
expression type at 33, whose value type is 7, `O` is the builtin type 5, and
`with_replaced_storage_type` is the model of it. -/
theorem make_convert_dtype_value_type_witness :
    (32 ≤ sample_memory.next ∧
      is_expression_model 32 sample_memory (value_type_model 32 sample_memory ⟨5⟩) = false ∧
      (∀ a b, sample_base_lib.descr_eq sample_memory a b = true →
        (sample_memory.obj a).get_kind = (sample_memory.obj b).get_kind) ∧
      preserves_value_type 32 (spec_lib_with 32 sample_builtin_kinds sample_base_lib
        (with_replaced_storage_type_model 32)) sample_memory ⟨33⟩) ∧
    (∃ r H2, make_convert_dtype (spec_lib_with 32 sample_builtin_kinds sample_base_lib
        (with_replaced_storage_type_model 32)) ⟨33⟩ ⟨5⟩ assign_error_mode.assign_error_none
        sample_memory = Except.ok (r, H2) ∧ value_type_model 32 H2 r = ⟨7⟩) ∧
    value_type_model 32 sample_memory ⟨33⟩ = ⟨7⟩ ∧
    (∀ r H2, make_convert_dtype (spec_lib_with 32 sample_builtin_kinds sample_base_lib
        (with_replaced_storage_type_model 32)) ⟨33⟩ ⟨5⟩ assign_error_mode.assign_error_none
        sample_memory = Except.ok (r, H2) →
      ndt.type.operator_eq (spec_lib_with 32 sample_builtin_kinds sample_base_lib
        (with_replaced_storage_type_model 32)) H2 (value_type_model 32 H2 r)
        (value_type_model 32 sample_memory ⟨33⟩) = true) :=
  ⟨⟨(by decide), (by decide), sample_descr_eq_kind,
      with_replaced_storage_type_model_preserves 32 sample_builtin_kinds sample_base_lib
        sample_memory ⟨33⟩ (by decide) (by decide) (by decide)⟩,
    ⟨_, _, rfl, (by decide)⟩, (by decide),
    (make_convert_dtype_value_type 32 sample_builtin_kinds sample_base_lib
      (with_replaced_storage_type_model 32) ⟨33⟩ ⟨5⟩ assign_error_mode.assign_error_none
      sample_memory (by decide) (by decide) sample_descr_eq_kind
      (with_replaced_storage_type_model_preserves 32 sample_builtin_kinds sample_base_lib
        sample_memory ⟨33⟩ (by decide) (by decide) (by decide))).1⟩

/-! ## The shape and the type of a container -/

theorem to_size_t_natCast (n : Nat) (h : n < 2 ^ 64) : to_size_t (n : Int) = n := by
  unfold to_size_t
  have h2 : ((n : Int) % 2 ^ 64) = (n : Int) := Int.emod_eq_of_lt (by omega) (by omega)
  rw [h2]
  simp

theorem shape_merge_neg_one (n : Int) : shape_merge (-1) n = -1 := by
  unfold shape_merge
  split <;> rfl

theorem shape_merge_self (n : Int) : shape_merge n n = n := by
  simp [shape_merge]

theorem shape_merge_ne (r n : Int) (h : r ≠ n) : shape_merge r n = -1 := by
  simp [shape_merge, h]

/-- The `while` loop over containers of scalars keeps one entry, which is
merged with the size of each container in turn. -/
theorem foldl_shape_step_singleton {α : Type} (rest : List (List α)) :
    ∀ x : Int, rest.foldl (shape_step (fun v => some (container_traits_1.shape v))) (some [x]) =
      some [rest.foldl (fun r v => shape_merge r (to_ptrdiff v.length)) x] := by
  induction rest with
  | nil =>
    intro x
    rfl
  | cons v rest ih =>
    intro x
    simp only [List.foldl_cons]
    have hstep : shape_step (fun v => some (container_traits_1.shape v)) (some [x]) v =
        some [shape_merge x (to_ptrdiff v.length)] := rfl
    rw [hstep]
    exact ih _

theorem foldl_shape_merge_neg_one {α : Type} (g : α → Int) (rest : List α) :
    rest.foldl (fun r v => shape_merge r (g v)) (-1) = -1 := by
  induction rest with
  | nil => rfl
  | cons v rest ih =>
    simp only [List.foldl_cons]
    rw [shape_merge_neg_one]
    exact ih

theorem foldl_shape_merge_same {α : Type} (g : α → Int) (rest : List α) (x : Int)
    (h : ∀ v ∈ rest, g v = x) : rest.foldl (fun r v => shape_merge r (g v)) x = x := by
  induction rest with
  | nil => rfl
  | cons v rest ih =>
    simp only [List.foldl_cons]
    rw [h v (List.mem_cons_self _ _), shape_merge_self]
    exact ih (fun u hu => h u (List.mem_cons_of_mem _ hu))

theorem foldl_shape_merge_differ {α : Type} (g : α → Int) (rest : List α) :
    ∀ x : Int, (∃ v ∈ rest, g v ≠ x) → rest.foldl (fun r v => shape_merge r (g v)) x = -1 := by
  induction rest with
  | nil =>
    rintro x ⟨v, hv, _⟩
    cases hv
  | cons u rest ih =>
    rintro x ⟨v, hv, hne⟩
    simp only [List.foldl_cons]
    by_cases hu : g u = x
    · rw [hu, shape_merge_self]
      rcases List.mem_cons.1 hv with h | h
      · subst h
        exact absurd hu hne
      · exact ih x ⟨v, h, hne⟩
    · rw [shape_merge_ne x (g u) (fun h => hu h.symm)]
      exact foldl_shape_merge_neg_one g rest

/-- The shape of a non-empty container of containers of scalars has two
entries: the size of the container and the merge of the sizes of its
elements. -/
theorem container_traits_2_shape_cons {α : Type} (first : List α) (rest : List (List α)) :
    container_traits_2.shape (first :: rest) =
      some [to_ptrdiff (first :: rest).length,
        rest.foldl (fun r v => shape_merge r (to_ptrdiff v.length)) (to_ptrdiff first.length)] := by
  unfold container_traits_2.shape container_traits.shape
  have h0 : (fun v : List α => some (container_traits_1.shape v)) first =
      some [to_ptrdiff first.length] := rfl
  simp only [h0, foldl_shape_step_singleton]

/-- C30: for a non-empty container `first :: rest` of containers of scalars, of
sizes below 2^63, `shape` yields the size of the container and then the common
size of its elements when they all have the same size, and -1 when two of them
have different sizes; the entry -1 stays -1 under every further element.
`equivalent` then builds a fixed dimension of the common size, respectively a
var dimension, over the value type, and a fixed dimension of the size of the
container over that.  In general `equivalent` applies, from the last entry of
the shape to the first, `make_var_dim` for an entry -1 and `make_fixed_dim` with
the entry for every other entry.  For a one-level container the type is a fixed
dimension of size `values.size()` over the value type. -/
theorem container_traits_shape_equivalent {α : Type} (D : DimLib) (value_type : ndt.type)
    (first : List α) (rest : List (List α))
    (hsize : (first :: rest).length < 2 ^ 63)
    (hinner : ∀ v ∈ first :: rest, v.length < 2 ^ 63) :
    ((∀ v ∈ first :: rest, v.length = first.length) →
      container_traits_2.shape (first :: rest) =
        some [((first :: rest).length : Int), (first.length : Int)] ∧
      container_traits_2.equivalent D value_type (first :: rest) =
        some (D.make_fixed_dim (first :: rest).length
          (D.make_fixed_dim first.length value_type))) ∧
    ((∃ u ∈ first :: rest, ∃ v ∈ first :: rest, u.length ≠ v.length) →
      container_traits_2.shape (first :: rest) = some [((first :: rest).length : Int), -1] ∧
      container_traits_2.equivalent D value_type (first :: rest) =
        some (D.make_fixed_dim (first :: rest).length (D.make_var_dim value_type))) ∧
    (∀ (more : List (List α)) (a : Int),
      container_traits_2.shape (first :: rest) = some [a, -1] →
      ∃ b, container_traits_2.shape (first :: (rest ++ more)) = some [b, -1]) ∧
    (∀ n : Int, shape_merge (-1) n = -1) ∧
    (∀ (s : Int) (shape : List Int) (tp : ndt.type),
      equivalent_loop D (s :: shape) tp =
        if s = -1 then D.make_var_dim (equivalent_loop D shape tp)
        else D.make_fixed_dim (to_size_t s) (equivalent_loop D shape tp)) ∧
    (∀ tp : ndt.type, equivalent_loop D [] tp = tp) ∧
    (∀ values : List α, values.length < 2 ^ 63 →
      container_traits_1.shape values = [(values.length : Int)] ∧
      container_traits_1.equivalent D value_type values =
        D.make_fixed_dim values.length value_type) := by
  have hlen : to_ptrdiff (first :: rest).length = (((first :: rest).length : Nat) : Int) :=
    to_ptrdiff_of_lt _ hsize
  have hfirst : to_ptrdiff first.length = ((first.length : Nat) : Int) :=
    to_ptrdiff_of_lt _ (hinner first (List.mem_cons_self _ _))
  have hsz : to_size_t (((first :: rest).length : Nat) : Int) = (first :: rest).length :=
    to_size_t_natCast _ (by omega)
  have hsz1 : to_size_t ((first.length : Nat) : Int) = first.length :=
    to_size_t_natCast _ (by have := hinner first (List.mem_cons_self _ _); omega)
  have hpos : ∀ n : Nat, ((n : Nat) : Int) ≠ -1 := by
    intro n
    omega
  refine ⟨?_, ?_, ?_, shape_merge_neg_one, ?_, ?_, ?_⟩
  · intro hsame
    have hshape : container_traits_2.shape (first :: rest) =
        some [(((first :: rest).length : Nat) : Int), ((first.length : Nat) : Int)] := by
      rw [container_traits_2_shape_cons, hlen]
      rw [foldl_shape_merge_same (fun v : List α => to_ptrdiff v.length) rest
        (to_ptrdiff first.length)]
      · rw [hfirst]
      · intro v hv
        show to_ptrdiff v.length = to_ptrdiff first.length
        rw [hsame v (List.mem_cons_of_mem _ hv)]
    refine ⟨hshape, ?_⟩
    unfold container_traits_2.equivalent container_traits.equivalent
    unfold container_traits_2.shape at hshape
    rw [hshape]
    simp only [equivalent_loop, List.foldr_cons, List.foldr_nil, beq_iff_eq, hpos, if_false,
      hsz, hsz1]
  · rintro ⟨u, hu, v, hv, huv⟩
    have hex : ∃ w ∈ rest, to_ptrdiff w.length ≠ to_ptrdiff first.length := by
      have hdiff : ∃ w ∈ first :: rest, w.length ≠ first.length := by
        by_cases h1 : u.length = first.length
        · refine ⟨v, hv, ?_⟩
          intro h2
          exact huv (h1.trans h2.symm)
        · exact ⟨u, hu, h1⟩
      obtain ⟨w, hw, hne⟩ := hdiff
      rcases List.mem_cons.1 hw with h | h
      · subst h
        exact absurd rfl hne
      · refine ⟨w, h, ?_⟩
        rw [to_ptrdiff_of_lt _ (hinner w hw), hfirst]
        intro heq
        exact hne (by exact_mod_cast heq)
    have hshape : container_traits_2.shape (first :: rest) =
        some [(((first :: rest).length : Nat) : Int), -1] := by
      rw [container_traits_2_shape_cons, hlen]
      rw [foldl_shape_merge_differ (fun v : List α => to_ptrdiff v.length) rest
        (to_ptrdiff first.length) hex]
    refine ⟨hshape, ?_⟩
    unfold container_traits_2.equivalent container_traits.equivalent
    unfold container_traits_2.shape at hshape
    rw [hshape]
    simp only [equivalent_loop, List.foldr_cons, List.foldr_nil, beq_iff_eq, hpos, if_false,
      hsz, if_true]
  · intro more a h
    rw [container_traits_2_shape_cons] at h
    simp only [Option.some.injEq, List.cons.injEq, and_true] at h
    refine ⟨to_ptrdiff (first :: (rest ++ more)).length, ?_⟩
    rw [container_traits_2_shape_cons, List.foldl_append, h.2]
    rw [foldl_shape_merge_neg_one (fun v : List α => to_ptrdiff v.length) more]
  · intro s shape tp
    by_cases hs : s = -1
    · simp [equivalent_loop, hs]
    · simp [equivalent_loop, hs]
  · intro tp
    rfl
  · intro values hv
    refine ⟨?_, ?_⟩
    · simp [container_traits_1.shape, to_ptrdiff_of_lt _ hv]
    · unfold container_traits_1.equivalent
      rw [to_ptrdiff_of_lt _ hv, to_size_t_natCast _ (by omega)]

/-- Witness of C30: three lists of two scalars, and a list of two next to a
list of three; the value type is the builtin type 6. -/
theorem container_traits_shape_equivalent_witness :
    (([1, 2] :: [[3, 4], [5, 6]] : List (List Nat)).length < 2 ^ 63 ∧
      (∀ v ∈ ([1, 2] :: [[3, 4], [5, 6]] : List (List Nat)), v.length < 2 ^ 63) ∧
      (∀ v ∈ ([1, 2] :: [[3, 4], [5, 6]] : List (List Nat)), v.length = [1, 2].length)) ∧
    (container_traits_2.shape ([1, 2] :: [[3, 4], [5, 6]] : List (List Nat)) =
        some [(([1, 2] :: [[3, 4], [5, 6]] : List (List Nat)).length : Int),
          (([1, 2] : List Nat).length : Int)] ∧
      container_traits_2.equivalent sample_dim_lib ⟨6⟩
          ([1, 2] :: [[3, 4], [5, 6]] : List (List Nat)) =
        some (sample_dim_lib.make_fixed_dim ([1, 2] :: [[3, 4], [5, 6]] : List (List Nat)).length
          (sample_dim_lib.make_fixed_dim ([1, 2] : List Nat).length ⟨6⟩))) ∧
    container_traits_2.shape ([[1, 2], [3, 4, 5]] : List (List Nat)) = some [2, -1] ∧
    container_traits_2.equivalent sample_dim_lib ⟨6⟩ ([[1, 2], [3, 4, 5]] : List (List Nat)) =
      some ⟨3506⟩ ∧
    container_traits_2.shape ([] : List (List Nat)) = none :=
  ⟨⟨(by decide), (by decide), (by decide)⟩,
    (container_traits_shape_equivalent sample_dim_lib ⟨6⟩ [1, 2] [[3, 4], [5, 6]] (by decide)
      (by decide)).1 (by decide),
    (by decide), (by decide), (by decide)⟩

end dynd
